import Mathlib

/-!
# Field lookup and drift velocity engine of `mjd_siggen/fields.c`

A shallow embedding of the field / weighting-potential sampler, the grid
locator, the drift velocity engine and the velocity table builder.

Conventions of the embedding:

* C `float` and `double` values are elements of an ordered field `F` with a
  floor function (exact arithmetic, no rounding); taking `F := ℚ` makes every
  definition executable.
* C `int` values are `Int`; the conversion of a floating value to `int`
  truncates toward zero (`float_to_int`).
* `float *` tables are maps from the flat offset to the stored value.
* Output parameters and the `static` locals of `nearest_field_grid_index`
  are passed in and returned explicitly.
* Functions of other compilation units (`outside_detector_cyl`,
  `vector_norm_cyl`) and of the C math library are the fields of `Extern`.
-/

set_option linter.unusedSectionVars false
set_option linter.unusedVariables false

namespace Siggen

/-! ## Data model (`point.h`, `cyl_point.h`, `mjd_siggen.h`) -/

/-- Cartesian point `struct point` with fields `x`, `y`, `z`. -/
structure point (F : Type) where
  x : F
  y : F
  z : F
deriving DecidableEq

/-- The type `vector` is the same record as `point`. -/
abbrev vector (F : Type) := point F

/-- Cylindrical point `cyl_pt` with fields `r`, `phi`, `z`. -/
structure cyl_pt (F : Type) where
  r : F
  phi : F
  z : F
deriving DecidableEq

/-- Integer grid index `cyl_int_pt`. -/
structure cyl_int_pt where
  r : Int
  phi : Int
  z : Int
deriving DecidableEq

/-- One row of the drift velocity table, `struct velocity_lookup`. -/
structure velocity_lookup (F : Type) where
  e : F
  e100 : F
  e110 : F
  e111 : F
  h100 : F
  h110 : F
  h111 : F
  ea : F
  eb : F
  ec : F
  ebp : F
  ecp : F
  ha : F
  hb : F
  hc : F
  hbp : F
  hcp : F
  hcorr : F
  ecorr : F
deriving DecidableEq

/-- Parameters of the analytic hole model, `velocity_params`. -/
structure velocity_params (F : Type) where
  h_100_mu0 : F
  h_100_beta : F
  h_100_e0 : F
  h_111_mu0 : F
  h_111_beta : F
  h_111_e0 : F
  k0_0 : F
  k0_1 : F
  k0_2 : F
  k0_3 : F
deriving DecidableEq

/-- The part of `MJD_Siggen_Setup` that `fields.c` reads or writes. The
geometry fields are only consumed by `outside_detector_cyl`, which is a
parameter of the development. -/
structure MJD_Siggen_Setup (F : Type) where
  velocity_type : Int
  xtal_length : F
  xtal_radius : F
  xtal_grid : F
  xtal_temp : F
  rmin : F
  rmax : F
  rstep : F
  zmin : F
  zmax : F
  zstep : F
  rlen : Int
  zlen : Int
  v_lookup_len : Int
  v_lookup : List (velocity_lookup F)
  v_params : velocity_params F
  efld_r : Int → F
  efld_z : Int → F
  wpot : Int → F
  imp_grad : F
  avg_imp : F
  min_imp_grad : F
  min_avg_imp : F
  imp_grad_step : F
  avg_imp_step : F
  num_imps : Int
  num_grads : Int
  dv_dE : F
  v_over_E : F

/-- Functions that `fields.c` calls but does not define: the crystal
boundary predicate of `detector_geometry.h`, the vector normalisation of
`cyl_point.h` (returns the norm and the normalised vector), and the C math
library. -/
structure Extern (F : Type) where
  outside_detector_cyl : cyl_pt F → MJD_Siggen_Setup F → Bool
  vector_norm_cyl : cyl_pt F → F × cyl_pt F
  sqrt : F → F
  atan2 : F → F → F
  acos : F → F
  sin : F → F
  cos : F → F
  tanh : F → F
  pow : F → F → F

/-- The `static` locals `last_pt`, `last_ipt`, `last_ret` of
`nearest_field_grid_index`. -/
structure LocatorMemo (F : Type) where
  last_pt : cyl_pt F
  last_ipt : cyl_int_pt
  last_ret : Int

section Model

variable {F : Type} [LinearOrderedField F] [FloorRing F]

/-- Initial value of the statics: zero-initialised, `last_ret = -99`. -/
def LocatorMemo.init : LocatorMemo F :=
  { last_pt := ⟨0, 0, 0⟩, last_ipt := ⟨0, 0, 0⟩, last_ret := -99 }

/-- Conversion of a floating value to `int`: truncation toward zero. -/
def float_to_int (x : F) : Int :=
  if 0 ≤ x then ⌊x⌋ else ⌈x⌉

/-- Reference temperature `REF_TEMP`. -/
def REF_TEMP : F := 77.0

/-- Lower end `MIN_TEMP` of the allowed temperature range. -/
def MIN_TEMP : F := 40.0

/-- Upper end `MAX_TEMP` of the allowed temperature range. -/
def MAX_TEMP : F := 120.0

/-! ## Table accessors -/

/-- Source `get_wpot_by_index`. -/
def get_wpot_by_index (row col : Int) (setup : MJD_Siggen_Setup F) : F :=
  let number_of_cols := setup.zlen + 1
  setup.wpot (row * number_of_cols + col)

/-- Source `get_efld_r_by_index`. -/
def get_efld_r_by_index (row col grad imp : Int) (setup : MJD_Siggen_Setup F) : F :=
  let number_of_cols := setup.zlen
  let number_of_grads := setup.num_grads
  let number_of_imps := setup.num_imps
  setup.efld_r (row * (number_of_cols * number_of_imps * number_of_grads)
                + col * (number_of_imps * number_of_grads)
                + grad * number_of_imps + imp)

/-- Source `get_efld_z_by_index`. -/
def get_efld_z_by_index (row col grad imp : Int) (setup : MJD_Siggen_Setup F) : F :=
  let number_of_cols := setup.zlen
  let number_of_grads := setup.num_grads
  let number_of_imps := setup.num_imps
  setup.efld_z (row * (number_of_cols * number_of_imps * number_of_grads)
                + col * (number_of_imps * number_of_grads)
                + grad * number_of_imps + imp)

/-! ## Grid locator -/

/-- Source `efield_exists`: the point is inside the crystal, its truncated
cell index is inside the table, and none of the four cell corners has both
field components equal to zero (tables of gradient 0, impurity 0). -/
def efield_exists (X : Extern F) (pt : cyl_pt F) (setup : MJD_Siggen_Setup F) : Bool :=
  if X.outside_detector_cyl pt setup then false
  else
    let ipt : cyl_int_pt :=
      { r := float_to_int ((pt.r - setup.rmin) / setup.rstep)
        phi := 0
        z := float_to_int ((pt.z - setup.zmin) / setup.zstep) }
    if ipt.r < 0 ∨ ipt.r + 1 ≥ setup.rlen ∨ ipt.z < 0 ∨ ipt.z + 1 ≥ setup.zlen then false
    else
      if ([(0, 0), (0, 1), (1, 0), (1, 1)] : List (Int × Int)).any
          (fun c => decide (get_efld_r_by_index (ipt.r + c.1) (ipt.z + c.2) 0 0 setup = 0
                            ∧ get_efld_z_by_index (ipt.r + c.1) (ipt.z + c.2) 0 0 setup = 0))
      then false
      else true

/-- The array `d` of `nearest_field_grid_index`: `{0.0, -1.0, 1.0}`. -/
def shift_d (k : Nat) : F :=
  match k with
  | 0 => 0.0
  | 1 => -1.0
  | _ => 1.0

/-- The pairs `(dz, dr)` in the order the nested loops of
`nearest_field_grid_index` visit them: `dz` outer, `dr` inner. -/
def shift_order : List (Nat × Nat) :=
  [(0, 0), (0, 1), (0, 2), (1, 0), (1, 1), (1, 2), (2, 0), (2, 1), (2, 2)]

/-- The candidate `new_pt` for loop counters `(dz, dr)`. -/
def shifted_pt (pt : cyl_pt F) (setup : MJD_Siggen_Setup F) (c : Nat × Nat) : cyl_pt F :=
  { r := pt.r + shift_d c.2 * setup.rstep
    phi := 0.0
    z := pt.z + shift_d c.1 * setup.zstep }

/-- Source `nearest_field_grid_index`. Takes the caller's `*ipt` and the
statics, returns the return code, the new `*ipt` and the new statics. -/
def nearest_field_grid_index (X : Extern F) (pt : cyl_pt F) (ipt : cyl_int_pt)
    (setup : MJD_Siggen_Setup F) (m : LocatorMemo F) : Int × cyl_int_pt × LocatorMemo F :=
  if m.last_ret ≠ -99 ∧ pt.r = m.last_pt.r ∧ pt.z = m.last_pt.z then
    (m.last_ret, m.last_ipt, m)
  else
    let m1 : LocatorMemo F := { m with last_pt := pt, last_ret := -2 }
    if X.outside_detector_cyl pt setup then
      (-1, ipt, { m1 with last_ret := -1 })
    else
      match shift_order.find? (fun c => efield_exists X (shifted_pt pt setup c) setup) with
      | some c =>
        let new_pt := shifted_pt pt setup c
        let last_ipt : cyl_int_pt :=
          { r := float_to_int ((new_pt.r - setup.rmin) / setup.rstep)
            phi := 0
            z := float_to_int ((new_pt.z - setup.zmin) / setup.zstep) }
        let last_ret : Int := if c.2 = 0 ∧ c.1 = 0 then 0 else 1
        (last_ret, last_ipt, { m1 with last_ipt := last_ipt, last_ret := last_ret })
      | none => (m1.last_ret, ipt, m1)

/-! ## Bilinear weights -/

/-- Source `grid_weights`: the array `out[2][2]`. -/
def grid_weights (pt : cyl_pt F) (ipt : cyl_int_pt) (setup : MJD_Siggen_Setup F) :
    Fin 2 → Fin 2 → F :=
  let r := (pt.r - setup.rmin) / setup.rstep - ipt.r
  let z := (pt.z - setup.zmin) / setup.zstep - ipt.z
  ![![(1.0 - r) * (1.0 - z), (1.0 - r) * z],
    ![r * (1.0 - z), r * z]]

/-- Source `imp_weights`: the array `out[2][2]` (the diagnostic print for
negative fractions has no effect on the result). -/
def imp_weights (setup : MJD_Siggen_Setup F) : Fin 2 → Fin 2 → F :=
  let i_imp : Int := float_to_int ((setup.avg_imp - setup.min_avg_imp) / setup.avg_imp_step)
  let i_grad : Int := float_to_int ((setup.imp_grad - setup.min_imp_grad) / setup.imp_grad_step)
  let imp := (setup.avg_imp - setup.min_avg_imp) / setup.avg_imp_step - i_imp
  let grad := (setup.imp_grad - setup.min_imp_grad) / setup.imp_grad_step - i_grad
  ![![(1.0 - grad) * (1.0 - imp), (1.0 - grad) * imp],
    ![grad * (1.0 - imp), grad * imp]]

/-! ## Field and potential sampler -/

/-- Source `get_efld_grad`: interpolation over the impurity axes at one grid
node. The loops over `i` and `j` accumulate into `e`, starting from zero. -/
def get_efld_grad (row col : Int) (setup : MJD_Siggen_Setup F) : cyl_pt F :=
  let w := imp_weights setup
  let imp : Int := float_to_int ((setup.avg_imp - setup.min_avg_imp) / setup.avg_imp_step)
  let grad : Int := float_to_int ((setup.imp_grad - setup.min_imp_grad) / setup.imp_grad_step)
  ([0, 1] : List (Fin 2)).foldl
    (fun e i => ([0, 1] : List (Fin 2)).foldl
      (fun e j =>
        { e with
          r := e.r + w i j * get_efld_r_by_index row col (grad + (i : Nat)) (imp + (j : Nat)) setup
          z := e.z + w i j * get_efld_z_by_index row col (grad + (i : Nat)) (imp + (j : Nat)) setup })
      e)
    ⟨0, 0, 0⟩

/-- Source `efield`: interpolated or extrapolated field at `pt`. -/
def efield (pt : cyl_pt F) (ipt : cyl_int_pt) (setup : MJD_Siggen_Setup F) : cyl_pt F :=
  let w := grid_weights pt ipt setup
  let e : cyl_pt F := ([0, 1] : List (Fin 2)).foldl
    (fun e i => ([0, 1] : List (Fin 2)).foldl
      (fun e j =>
        let e_tmp := get_efld_grad (ipt.r + (i : Nat)) (ipt.z + (j : Nat)) setup
        { e with r := e.r + e_tmp.r * w i j, z := e.z + e_tmp.z * w i j })
      e)
    ⟨0, 0, 0⟩
  { e with phi := pt.phi }

/-- Source `wpotential`. The arguments `cyl0` and `ipt0` are the initial
contents of the locals `cyl` and `ipt`, `wp` the initial content of the
output; the result is the return code, the output and the new statics. -/
def wpotential (X : Extern F) (pt : point F) (wp : F) (setup : MJD_Siggen_Setup F)
    (m : LocatorMemo F) (cyl0 : cyl_pt F) (ipt0 : cyl_int_pt) : Int × F × LocatorMemo F :=
  let cyl : cyl_pt F := { cyl0 with r := X.sqrt (pt.x * pt.x + pt.y * pt.y), z := pt.z }
  let loc := nearest_field_grid_index X cyl ipt0 setup m
  if loc.1 < 0 then (1, wp, loc.2.2)
  else
    let ipt := loc.2.1
    let w := grid_weights cyl ipt setup
    let wp1 : F := ([0, 1] : List (Fin 2)).foldl
      (fun acc i => ([0, 1] : List (Fin 2)).foldl
        (fun acc j => acc + w i j * get_wpot_by_index (ipt.r + (i : Nat)) (ipt.z + (j : Nat)) setup)
        acc)
      0.0
    (0, wp1, loc.2.2)

/-! ## Drift velocity engine -/

/-- Source `drift_velo_model`. -/
def drift_velo_model (X : Extern F) (E mu_0 beta E_0 : F) : F :=
  let v := (mu_0 * E) / X.pow (1 + X.pow (E / E_0) beta) (1.0 / beta)
  v * 10 * 1e-9

/-- Source `find_hole_velo`: the return code and the vector written to
`v_spher`. -/
def find_hole_velo (X : Extern F) (field theta phi : F) (setup : MJD_Siggen_Setup F) :
    Int × point F :=
  let v_100 := drift_velo_model X field setup.v_params.h_100_mu0 setup.v_params.h_100_beta
    setup.v_params.h_100_e0
  let v_111 := drift_velo_model X field setup.v_params.h_111_mu0 setup.v_params.h_111_beta
    setup.v_params.h_111_e0
  if v_100 = 0 then (0, ⟨0, 0, 0⟩)
  else
    let v_rel := v_111 / v_100
    let k_0_0 := setup.v_params.k0_0
    let k_0_1 := setup.v_params.k0_1
    let k_0_2 := setup.v_params.k0_2
    let k_0_3 := setup.v_params.k0_3
    let k_0 := k_0_0 + k_0_1 * v_rel + k_0_2 * X.pow v_rel 2 + k_0_3 * X.pow v_rel 3
    let lambda_k0 := -0.01322 * k_0 + 0.41145 * X.pow k_0 2 - 0.23657 * X.pow k_0 3
      + 0.04077 * X.pow k_0 4
    let omega_k0 := 0.006550 * k_0 - 0.19946 * X.pow k_0 2 + 0.09859 * X.pow k_0 3
      - 0.01559 * X.pow k_0 4
    (1,
     { x := v_100 * (1 - lambda_k0 * (X.pow (X.sin theta) 4 * X.pow (X.sin (2 * phi)) 2
              + X.pow (X.sin (2 * theta)) 2))
       y := v_100 * omega_k0 * (2 * X.pow (X.sin theta) 3 * X.cos theta
              * X.pow (X.sin (2 * phi)) 2 + X.sin (4 * theta))
       z := v_100 * omega_k0 * X.pow (X.sin theta) 3 * X.sin (4 * phi) })

/-- The all-zero table row, read where an index is past the end of the list. -/
def velocity_lookup.zero : velocity_lookup F :=
  ⟨0, 0, 0, 0, 0, 0, 0, 0, 0, 0, 0, 0, 0, 0, 0, 0, 0, 0, 0⟩

/-- The row `setup->v_lookup[i]`. -/
def v_lookup_at (setup : MJD_Siggen_Setup F) (i : Nat) : velocity_lookup F :=
  setup.v_lookup.getD i velocity_lookup.zero

/-- The scan `for (i = 0; i < v_lookup_len - 2 && abse > v_lookup[i+1].e; i++);`
of `drift_velocity`, started at `i` with at most `fuel` iterations. -/
def bracket_loop (setup : MJD_Siggen_Setup F) (abse : F) : Nat → Nat → Nat
  | 0, i => i
  | fuel + 1, i =>
    if (i : Int) < setup.v_lookup_len - 2 ∧ abse > (v_lookup_at setup (i + 1)).e then
      bracket_loop setup abse fuel (i + 1)
    else i

/-- The value of `i` after the scan: `v_lookup_len - 2` iterations always
suffice. -/
def bracket_index (setup : MJD_Siggen_Setup F) (abse : F) : Nat :=
  bracket_loop setup abse (setup.v_lookup_len - 2).toNat 0

/-- The macro `POW4` of `drift_velocity`. -/
def POW4 (x : F) : F := x * x * x * x

/-- The macro `POW6` of `drift_velocity`. -/
def POW6 (x : F) : F := x * x * x * x * x * x

/-- The analytic hole branch of `drift_velocity` (taken for `q == 1` and
`velocity_type == 1`): the vector written to `velo`. -/
def drift_velocity_analytic (X : Extern F) (abse : F) (cart_en : point F)
    (setup : MJD_Siggen_Setup F) : vector F :=
  let phi := X.atan2 cart_en.y cart_en.x
  let theta := X.acos cart_en.z
  let velo_local := (find_hole_velo X abse theta phi setup).2
  { x := X.cos phi * X.sin theta * velo_local.x + X.cos phi * X.cos theta * velo_local.y
         - X.sin phi * velo_local.z
    y := X.sin phi * X.sin theta * velo_local.x + X.sin phi * X.cos theta * velo_local.y
         + X.cos phi * velo_local.z
    z := X.cos theta * velo_local.x - X.sin theta * velo_local.y }

/-- The table branch of `drift_velocity` (everything after the hole model
test): the vector written to `velo` and the setup with `dv_dE` and
`v_over_E` recorded. -/
def drift_velocity_empirical (q abse : F) (cart_en : point F) (setup : MJD_Siggen_Setup F) :
    vector F × MJD_Siggen_Setup F :=
  let i := bracket_index setup abse
  let v_lookup1 := v_lookup_at setup i
  let v_lookup2 := v_lookup_at setup (i + 1)
  let f := (abse - v_lookup1.e) / (v_lookup2.e - v_lookup1.e)
  let a := if q > 0 then (v_lookup2.ha - v_lookup1.ha) * f + v_lookup1.ha
    else (v_lookup2.ea - v_lookup1.ea) * f + v_lookup1.ea
  let b := if q > 0 then (v_lookup2.hb - v_lookup1.hb) * f + v_lookup1.hb
    else (v_lookup2.eb - v_lookup1.eb) * f + v_lookup1.eb
  let c := if q > 0 then (v_lookup2.hc - v_lookup1.hc) * f + v_lookup1.hc
    else (v_lookup2.ec - v_lookup1.ec) * f + v_lookup1.ec
  let bp := if q > 0 then (v_lookup2.hbp - v_lookup1.hbp) * f + v_lookup1.hbp
    else (v_lookup2.ebp - v_lookup1.ebp) * f + v_lookup1.ebp
  let cp := if q > 0 then (v_lookup2.hcp - v_lookup1.hcp) * f + v_lookup1.hcp
    else (v_lookup2.ecp - v_lookup1.ecp) * f + v_lookup1.ecp
  let dv_dE := if q > 0 then (v_lookup2.h100 - v_lookup1.h100) / (v_lookup2.e - v_lookup1.e)
    else (v_lookup2.e100 - v_lookup1.e100) / (v_lookup2.e - v_lookup1.e)
  let en4 := POW4 cart_en.x + POW4 cart_en.y + POW4 cart_en.z
  let en6 := POW6 cart_en.x + POW6 cart_en.y + POW6 cart_en.z
  let absv := a + b * en4 + c * en6
  let sign : Int := if q < 0 then -1 else 1
  ({ x := sign * cart_en.x * (absv + bp * 4 * (cart_en.x * cart_en.x - en4)
            + cp * 6 * (POW4 cart_en.x - en6))
     y := sign * cart_en.y * (absv + bp * 4 * (cart_en.y * cart_en.y - en4)
            + cp * 6 * (POW4 cart_en.y - en6))
     z := sign * cart_en.z * (absv + bp * 4 * (cart_en.z * cart_en.z - en4)
            + cp * 6 * (POW4 cart_en.z - en6)) },
   { setup with dv_dE := dv_dE, v_over_E := absv / abse })

/-- The cylindrical point `cyl` that `drift_velocity` builds from `pt`. -/
def drift_cyl (X : Extern F) (pt : point F) : cyl_pt F :=
  { r := X.sqrt (pt.x * pt.x + pt.y * pt.y), phi := 0, z := pt.z }

/-- The unit field direction `cart_en` that `drift_velocity` builds from the
normalised cylindrical field `en`. -/
def drift_cart_en (pt : point F) (cyl en : cyl_pt F) : point F :=
  if cyl.r > 0.001 then { x := en.r * pt.x / cyl.r, y := en.r * pt.y / cyl.r, z := en.z }
  else { x := 0, y := 0, z := en.z }

/-- The field magnitude `abse` and the unit direction `cart_en` that
`drift_velocity` computes once the point is located with grid index `ipt`. -/
def drift_field (X : Extern F) (pt : point F) (ipt : cyl_int_pt) (setup : MJD_Siggen_Setup F) :
    F × point F :=
  let cyl := drift_cyl X pt
  let e := efield cyl ipt setup
  let abse := (X.vector_norm_cyl e).1
  let en := (X.vector_norm_cyl e).2
  (abse, drift_cart_en pt cyl en)

/-- Source `drift_velocity`. The argument `velo` is the initial content of
the output and `ipt0` that of the local `ipt`; the result is the return
code, the output, the setup (with the auxiliary scalars) and the statics of
the locator. -/
def drift_velocity (X : Extern F) (pt : point F) (q : F) (velo : vector F)
    (setup : MJD_Siggen_Setup F) (m : LocatorMemo F) (ipt0 : cyl_int_pt) :
    Int × vector F × MJD_Siggen_Setup F × LocatorMemo F :=
  let cyl := drift_cyl X pt
  let loc := nearest_field_grid_index X cyl ipt0 setup m
  if loc.1 < 0 then (-1, velo, setup, loc.2.2)
  else
    let ipt := loc.2.1
    let abse := (drift_field X pt ipt setup).1
    let cart_en := (drift_field X pt ipt setup).2
    if q = 1 ∧ setup.velocity_type = 1 then
      (0, drift_velocity_analytic X abse cart_en setup, setup, loc.2.2)
    else
      let out := drift_velocity_empirical q abse cart_en setup
      (0, out.1, out.2, loc.2.2)

/-! ## Velocity table builder (numerical part of `setup_velo`) -/

/-- The temperature model parameters of `setup_velo`, electrons and holes. -/
structure temp_params (F : Type) where
  be : F
  bh : F
  thetae : F
  thetah : F
  pwre : F
  pwrh : F
  mue : F
  muh : F

/-- The built-in values of the temperature model parameters. -/
def temp_params.default : temp_params F :=
  { be := 1.3e7, bh := 1.2e7, thetae := 200.0, thetah := 200.0
    pwre := -1.680, pwrh := -2.398, mue := 5.66e7, muh := 1.63e9 }

/-- The velocity factor `f` computed in the temperature loops of
`setup_velo` from the saturation velocities and critical fields at the
reference (`_1`) and the crystal (`_2`) temperature. -/
def velo_factor (X : Extern F) (v_s_1 E_c_1 v_s_2 E_c_2 e : F) : F :=
  (v_s_2 * (e / E_c_2) / X.sqrt (1.0 + (e / E_c_2) * (e / E_c_2))) /
  (v_s_1 * (e / E_c_1) / X.sqrt (1.0 + (e / E_c_1) * (e / E_c_1)))

/-- Body of the electron temperature loop of `setup_velo` for the row `v`. -/
def temp_row_e (X : Extern F) (v_s_1 E_c_1 v_s_2 E_c_2 : F) (v : velocity_lookup F) :
    velocity_lookup F :=
  let e := v.e
  if e < 1 then v
  else
    let f := velo_factor X v_s_1 E_c_1 v_s_2 E_c_2 e
    { v with e100 := v.e100 * f, e110 := v.e110 * f, e111 := v.e111 * f }

/-- Electron temperature loop of `setup_velo`. -/
def temp_correct_e (X : Extern F) (p : temp_params F) (xtal_temp : F)
    (t : List (velocity_lookup F)) : List (velocity_lookup F) :=
  let mu_0_1 := p.mue * X.pow REF_TEMP p.pwre
  let v_s_1 := p.be * X.sqrt (X.tanh (0.5 * p.thetae / REF_TEMP))
  let E_c_1 := v_s_1 / mu_0_1
  let mu_0_2 := p.mue * X.pow xtal_temp p.pwre
  let v_s_2 := p.be * X.sqrt (X.tanh (0.5 * p.thetae / xtal_temp))
  let E_c_2 := v_s_2 / mu_0_2
  t.map (temp_row_e X v_s_1 E_c_1 v_s_2 E_c_2)

/-- Body of the hole temperature loop of `setup_velo` for the row `v`. -/
def temp_row_h (X : Extern F) (v_s_1 E_c_1 v_s_2 E_c_2 : F) (v : velocity_lookup F) :
    velocity_lookup F :=
  let e := v.e
  if e < 1 then v
  else
    let f := velo_factor X v_s_1 E_c_1 v_s_2 E_c_2 e
    { v with h100 := v.h100 * f, h110 := v.h110 * f, h111 := v.h111 * f }

/-- Hole temperature loop of `setup_velo`. -/
def temp_correct_h (X : Extern F) (p : temp_params F) (xtal_temp : F)
    (t : List (velocity_lookup F)) : List (velocity_lookup F) :=
  let mu_0_1 := p.muh * X.pow REF_TEMP p.pwrh
  let v_s_1 := p.bh * X.sqrt (X.tanh (0.5 * p.thetah / REF_TEMP))
  let E_c_1 := v_s_1 / mu_0_1
  let mu_0_2 := p.muh * X.pow xtal_temp p.pwrh
  let v_s_2 := p.bh * X.sqrt (X.tanh (0.5 * p.thetah / xtal_temp))
  let E_c_2 := v_s_2 / mu_0_2
  t.map (temp_row_h X v_s_1 E_c_1 v_s_2 E_c_2)

/-- Body of the anisotropy coefficient loop of `setup_velo` for the row `v`. -/
def aniso_row (v : velocity_lookup F) : velocity_lookup F :=
  { v with
    ea := 0.5 * v.e100 - 4 * v.e110 + 4.5 * v.e111
    eb := -2.5 * v.e100 + 16 * v.e110 - 13.5 * v.e111
    ec := 3.0 * v.e100 - 12 * v.e110 + 9.0 * v.e111
    ha := 0.5 * v.h100 - 4 * v.h110 + 4.5 * v.h111
    hb := -2.5 * v.h100 + 16 * v.h110 - 13.5 * v.h111
    hc := 3.0 * v.h100 - 12 * v.h110 + 9.0 * v.h111 }

/-- Anisotropy coefficient loop of `setup_velo`. -/
def aniso_coeffs (t : List (velocity_lookup F)) : List (velocity_lookup F) :=
  t.map aniso_row

/-- Body of the cumulative loop of `setup_velo` from index `i` on: `v0` is the
row `v_lookup[i-1]`, the four sums are the running integrals, the list holds
the rows `v_lookup[i]`, `v_lookup[i+1]`, ... -/
def cumul_loop (v0 : velocity_lookup F) (sumb_e sumc_e sumb_h sumc_h : F) :
    List (velocity_lookup F) → List (velocity_lookup F)
  | [] => []
  | v :: rest =>
    let sumb_e := sumb_e + (v.e - v0.e) * (v0.eb + v.eb) / 2
    let sumc_e := sumc_e + (v.e - v0.e) * (v0.ec + v.ec) / 2
    let sumb_h := sumb_h + (v.e - v0.e) * (v0.hb + v.hb) / 2
    let sumc_h := sumc_h + (v.e - v0.e) * (v0.hc + v.hc) / 2
    let v1 := { v with ebp := sumb_e / v.e, ecp := sumc_e / v.e
                       hbp := sumb_h / v.e, hcp := sumc_h / v.e }
    v1 :: cumul_loop v1 sumb_e sumc_e sumb_h sumc_h rest

/-- Cumulative coefficients of `setup_velo`: row 0 gets zeros, the loop
from index 1 fills the rest. -/
def cumul_coeffs : List (velocity_lookup F) → List (velocity_lookup F)
  | [] => []
  | v :: rest =>
    let v1 := { v with ebp := 0.0, ecp := 0.0, hbp := 0.0, hcp := 0.0 }
    v1 :: cumul_loop v1 0.0 0.0 0.0 0.0 rest

/-- The table that `setup_velo` builds from the rows read from the file:
temperature correction for electrons, then holes, then the anisotropy
coefficients, then the cumulative coefficients. -/
def build_velo_table (X : Extern F) (p : temp_params F) (xtal_temp : F)
    (raw : List (velocity_lookup F)) : List (velocity_lookup F) :=
  cumul_coeffs (aniso_coeffs (temp_correct_h X p xtal_temp (temp_correct_e X p xtal_temp raw)))

/-! ## Reading the velocity table file (`setup_velo`) and `set_temp`

The file is a list of lines. Of a line only what `setup_velo` looks at is
kept: its first character and the numbers that the two `sscanf` patterns
convert. Memory allocation is taken to succeed; the static buffer
`v_lookup` is the map from the row index to the row it holds. -/

/-- One line of the velocity table file: `first` is `line[0]`, `fields` are
the leading numbers that `sscanf(line, "%f %f %f %f %f %f %f", ...)`
converts, `params` those that `sscanf(line+2, "%lf %lf %lf %lf", ...)`
converts. -/
structure velo_line (F : Type) where
  first : Char
  fields : List F
  params : List F

/-- State of the reading: the buffer `line`, the lines not yet read, and
whether the pointer `c` is non-NULL. -/
structure velo_reader (F : Type) where
  line : velo_line F
  rest : List (velo_line F)
  c : Bool

/-- State at the exit of the data loop of `setup_velo`: the static buffer,
the loop counter `v_lookup_len` and the reading state. -/
structure velo_scan (F : Type) where
  buf : Nat → velocity_lookup F
  v_lookup_len : Nat
  rd : velo_reader F

/-- The loop `while (pred(line[0]) && c != NULL) c = fgets(line, MAX_LINE, fp);`:
at the end of the file `fgets` returns NULL and leaves `line` as it is. -/
def fgets_skip (pred : Char → Bool) : List (velo_line F) → velo_line F → Bool → velo_reader F
  | [], line, c => if pred line.first && c then ⟨line, [], false⟩ else ⟨line, [], c⟩
  | l :: rest, line, c =>
    if pred line.first && c then fgets_skip pred rest l true else ⟨line, l :: rest, c⟩

/-- The test `line[0] == '#' || line[0] == '\0'`. -/
def is_comment (ch : Char) : Bool := ch = '#' || ch = Char.ofNat 0

/-- The test `line[0] == '#' || line[0] == '\0' || line[0] == '\n' || line[0] == '\r'`. -/
def is_comment_or_blank (ch : Char) : Bool :=
  ch = '#' || ch = Char.ofNat 0 || ch = '\n' || ch = '\r'

/-- The number of conversions made by a `sscanf` with a pattern of `n`
conversions on a line whose convertible numbers are `fs`; the code only tests
whether this is the full number `n`. -/
def sscanf_count (n : Nat) (fs : List F) : Nat := min fs.length n

/-- The row after `sscanf` has stored the converted numbers `fs` in
the fields `e, e100, e110, e111, h100, h110, h111`, in this order. -/
def sscanf_row (v : velocity_lookup F) (fs : List F) : velocity_lookup F :=
  match fs with
  | [] => v
  | [a] => { v with e := a }
  | [a, b] => { v with e := a, e100 := b }
  | [a, b, c] => { v with e := a, e100 := b, e110 := c }
  | [a, b, c, d] => { v with e := a, e100 := b, e110 := c, e111 := d }
  | [a, b, c, d, e] => { v with e := a, e100 := b, e110 := c, e111 := d, h100 := e }
  | [a, b, c, d, e, f] =>
    { v with e := a, e100 := b, e110 := c, e111 := d, h100 := e, h110 := f }
  | a :: b :: c :: d :: e :: f :: g :: _ =>
    { v with e := a, e100 := b, e110 := c, e111 := d, h100 := e, h110 := f, h111 := g }

/-- The electron parameters after `sscanf` has stored the converted numbers
in `mue, pwre, be, thetae`, in this order. -/
def sscanf_params_e (p : temp_params F) (fs : List F) : temp_params F :=
  match fs with
  | [] => p
  | [a] => { p with mue := a }
  | [a, b] => { p with mue := a, pwre := b }
  | [a, b, c] => { p with mue := a, pwre := b, be := c }
  | a :: b :: c :: d :: _ => { p with mue := a, pwre := b, be := c, thetae := d }

/-- The hole parameters after `sscanf` has stored the converted numbers in
`muh, pwrh, bh, thetah`, in this order. -/
def sscanf_params_h (p : temp_params F) (fs : List F) : temp_params F :=
  match fs with
  | [] => p
  | [a] => { p with muh := a }
  | [a, b] => { p with muh := a, pwrh := b }
  | [a, b, c] => { p with muh := a, pwrh := b, bh := c }
  | a :: b :: c :: d :: _ => { p with muh := a, pwrh := b, bh := c, thetah := d }

/-- The data loop `for (v_lookup_len = 0; ; v_lookup_len++)` of `setup_velo`,
with at most `fuel` iterations. Every iteration that does not leave the loop
reads at least one line, so one more than the number of lines suffices. -/
def data_loop : Nat → (Nat → velocity_lookup F) → Nat → velo_reader F → velo_scan F
  | 0, buf, v_lookup_len, rd => ⟨buf, v_lookup_len, rd⟩
  | fuel + 1, buf, v_lookup_len, rd =>
    let buf1 := Function.update buf v_lookup_len (sscanf_row (buf v_lookup_len) rd.line.fields)
    if sscanf_count 7 rd.line.fields ≠ 7 then ⟨buf1, v_lookup_len, rd⟩
    else
      let rd1 := fgets_skip is_comment_or_blank rd.rest { rd.line with first := '#' } rd.c
      if rd1.c = false then ⟨buf1, v_lookup_len, rd1⟩
      else if rd1.line.first = 'e' ∨ rd1.line.first = 'h' then ⟨buf1, v_lookup_len, rd1⟩
      else data_loop fuel buf1 (v_lookup_len + 1) rd1

/-- The loop `while (line[0] == 'e' || line[0] == 'h')` of `setup_velo` that
decodes the temperature correction parameters, with at most `fuel`
iterations. -/
def param_loop : Nat → temp_params F → velo_reader F → temp_params F × velo_reader F
  | 0, p, rd => (p, rd)
  | fuel + 1, p, rd =>
    if rd.line.first = 'e' ∨ rd.line.first = 'h' then
      let p1 := if rd.line.first = 'e' then sscanf_params_e p rd.line.params
                else sscanf_params_h p rd.line.params
      if sscanf_count 4 rd.line.params ≠ 4 then (p1, rd)
      else
        let rd1 := fgets_skip is_comment rd.rest { rd.line with first := '#' } rd.c
        if rd1.c = false then (p1, rd1) else param_loop fuel p1 rd1
    else (p, rd)

/-- The reading part of `setup_velo` on an opened file whose first line that
is not a comment has been reached (reading state `rd0`): the data loop and
the parameter loop. -/
def velo_parse (lines : List (velo_line F)) (buf : Nat → velocity_lookup F) (rd0 : velo_reader F) :
    velo_scan F × temp_params F :=
  let sc := data_loop (lines.length + 1) buf 0 rd0
  (sc, (param_loop (lines.length + 1) temp_params.default sc.rd).1)

/-- Source `setup_velo`. The argument `file` is the content of the file
`setup->drift_name` (`none` if it cannot be opened) and `buf` the content of
the static buffer; the result is the return code, the setup and the static
buffer. The field `v_lookup` of the setup is the content of the buffer at
the time of the call. -/
def setup_velo (X : Extern F) (file : Option (List (velo_line F)))
    (buf : Nat → velocity_lookup F) (setup : MJD_Siggen_Setup F) :
    Int × MJD_Siggen_Setup F × (Nat → velocity_lookup F) :=
  match file with
  | none => (-1, setup, buf)
  | some lines =>
    let rd0 := fgets_skip is_comment lines ⟨'#', [], []⟩ true
    if rd0.c = false then (-1, setup, buf)
    else
      let sc := (velo_parse lines buf rd0).1
      let p := (velo_parse lines buf rd0).2
      if sc.v_lookup_len = 0 then (-1, setup, sc.buf)
      else
        let v_lookup_len := sc.v_lookup_len + 1
        let t := build_velo_table X p setup.xtal_temp ((List.range v_lookup_len).map sc.buf)
        (0, { setup with v_lookup := t, v_lookup_len := v_lookup_len },
         fun i => t.getD i (sc.buf i))

/-- Source `set_temp`, with the file and the static buffer of `setup_velo`. -/
def set_temp (X : Extern F) (file : Option (List (velo_line F)))
    (buf : Nat → velocity_lookup F) (temp : F) (setup : MJD_Siggen_Setup F) :
    MJD_Siggen_Setup F × (Nat → velocity_lookup F) :=
  if temp < MIN_TEMP ∨ temp > MAX_TEMP then (setup, buf)
  else (setup_velo X file buf { setup with xtal_temp := temp }).2

/-! ## Claim-worded reference definitions -/

/-- Claim-worded bilinear weight: `w[i][j] = (i ? f_r : 1-f_r) * (j ? f_z : 1-f_z)`. -/
def bilinear_weight (f_r f_z : F) (i j : Fin 2) : F :=
  (if i = 1 then f_r else 1 - f_r) * (if j = 1 then f_z else 1 - f_z)

/-- Claim-worded candidate shifts `(dr, dz)` of the locator: the zero shift
first, then the remaining eight in nested order, `dz` outer and `dr` inner,
each running over 0, -1, +1. -/
def locator_shifts : List (F × F) :=
  [(0, 0), (-1, 0), (1, 0), (0, -1), (-1, -1), (1, -1), (0, 1), (-1, 1), (1, 1)]

/-- Claim-worded locator result on a memo miss: code and grid index (the
index is the caller's when no cell is found). -/
def locator_spec (X : Extern F) (pt : cyl_pt F) (ipt : cyl_int_pt) (setup : MJD_Siggen_Setup F) :
    Int × cyl_int_pt :=
  if X.outside_detector_cyl pt setup then (-1, ipt)
  else
    match locator_shifts.find?
        (fun s => efield_exists X ⟨pt.r + s.1 * setup.rstep, 0, pt.z + s.2 * setup.zstep⟩ setup) with
    | some s =>
      (if s = (0, 0) then 0 else 1,
       ⟨float_to_int ((pt.r + s.1 * setup.rstep - setup.rmin) / setup.rstep), 0,
        float_to_int ((pt.z + s.2 * setup.zstep - setup.zmin) / setup.zstep)⟩)
    | none => (-2, ipt)

/-- Claim-worded bracket property: `i` is the least index in `[0, len-2]`
with `abse ≤ e[i+1]`, or `len-2` if there is none. -/
def is_bracket (setup : MJD_Siggen_Setup F) (abse : F) (i : Nat) : Prop :=
  (i : Int) ≤ setup.v_lookup_len - 2
  ∧ (abse ≤ (v_lookup_at setup (i + 1)).e ∨ (i : Int) = setup.v_lookup_len - 2)
  ∧ ∀ j < i, ¬ abse ≤ (v_lookup_at setup (j + 1)).e

instance (setup : MJD_Siggen_Setup F) (abse : F) (i : Nat) : Decidable (is_bracket setup abse i) := by
  unfold is_bracket
  infer_instance

/-- Claim-worded linear interpolation between the samples `y1` and `y2`. -/
def lerp (f y1 y2 : F) : F := y1 + f * (y2 - y1)

/-- Claim-worded empirical velocity for charge `q`, field magnitude `abse`,
unit direction `u` and bracket index `i`. -/
def empirical_spec (q abse : F) (u : point F) (setup : MJD_Siggen_Setup F) (i : Nat) : vector F :=
  let s1 := v_lookup_at setup i
  let s2 := v_lookup_at setup (i + 1)
  let f := (abse - s1.e) / (s2.e - s1.e)
  let a := if q > 0 then lerp f s1.ha s2.ha else lerp f s1.ea s2.ea
  let b := if q > 0 then lerp f s1.hb s2.hb else lerp f s1.eb s2.eb
  let c := if q > 0 then lerp f s1.hc s2.hc else lerp f s1.ec s2.ec
  let bp := if q > 0 then lerp f s1.hbp s2.hbp else lerp f s1.ebp s2.ebp
  let cp := if q > 0 then lerp f s1.hcp s2.hcp else lerp f s1.ecp s2.ecp
  let en4 := u.x ^ 4 + u.y ^ 4 + u.z ^ 4
  let en6 := u.x ^ 6 + u.y ^ 6 + u.z ^ 6
  let absv := a + b * en4 + c * en6
  let sign : F := if q < 0 then -1 else 1
  { x := sign * u.x * (absv + 4 * bp * (u.x ^ 2 - en4) + 6 * cp * (u.x ^ 4 - en6))
    y := sign * u.y * (absv + 4 * bp * (u.y ^ 2 - en4) + 6 * cp * (u.y ^ 4 - en6))
    z := sign * u.z * (absv + 4 * bp * (u.z ^ 2 - en4) + 6 * cp * (u.z ^ 4 - en6)) }

/-- Claim-worded zero-field mobility `mu_0(T) = mu_ref * T^pwr`. -/
def spec_mu_0 (X : Extern F) (mu_ref pwr T : F) : F := mu_ref * X.pow T pwr

/-- Claim-worded saturation velocity `v_sat(T) = b * sqrt(tanh(theta/(2T)))`. -/
def spec_v_sat (X : Extern F) (b theta T : F) : F := b * X.sqrt (X.tanh (theta / (2 * T)))

/-- Claim-worded critical field `E_c(T) = v_sat(T) / mu_0(T)`. -/
def spec_E_c (X : Extern F) (mu_ref pwr b theta T : F) : F :=
  spec_v_sat X b theta T / spec_mu_0 X mu_ref pwr T

/-- Claim-worded saturation curve `v_sat(T)*(e/E_c(T))/sqrt(1+(e/E_c(T))^2)`. -/
def spec_curve (X : Extern F) (mu_ref pwr b theta T e : F) : F :=
  spec_v_sat X b theta T * (e / spec_E_c X mu_ref pwr b theta T)
    / X.sqrt (1 + (e / spec_E_c X mu_ref pwr b theta T) ^ 2)

/-- Claim-worded temperature factor `f(e)`: the curve at the temperature `T`
over the curve at 77 K. -/
def spec_f (X : Extern F) (mu_ref pwr b theta T e : F) : F :=
  spec_curve X mu_ref pwr b theta T e / spec_curve X mu_ref pwr b theta 77 e

end Model

/-! ## A concrete detector over the rationals -/

/-- Square root on the rationals for the examples: exact at 0, 1, 4 and 9
(other arguments do not occur). -/
def exSqrt (x : ℚ) : ℚ :=
  if x = 0 then 0 else if x = 1 then 1 else if x = 4 then 2 else if x = 9 then 3 else x

/-- Example collaborators: a plain cylinder of radius `xtal_radius` and
length `xtal_length` as crystal, the Euclidean normalisation in the `(r, z)`
plane, and simple rational functions in place of the math library. -/
def exExtern : Extern ℚ :=
  { outside_detector_cyl := fun pt setup =>
      decide (pt.r < 0 ∨ setup.xtal_radius < pt.r ∨ pt.z < 0 ∨ setup.xtal_length < pt.z)
    vector_norm_cyl := fun e =>
      (exSqrt (e.r * e.r + e.z * e.z),
       ⟨e.r / exSqrt (e.r * e.r + e.z * e.z), e.phi, e.z / exSqrt (e.r * e.r + e.z * e.z)⟩)
    sqrt := exSqrt
    atan2 := fun _ _ => 0
    acos := fun _ => 0
    sin := fun _ => 0
    cos := fun _ => 1
    tanh := fun x => x / (1 + |x|)
    pow := fun x _ => 1 + |x| }

/-- Example velocity table: three rows at fields 0, 10, 20. -/
def exTable : List (velocity_lookup ℚ) :=
  [ velocity_lookup.zero,
    { e := 10, e100 := 4, e110 := 3, e111 := 2, h100 := 5, h110 := 4, h111 := 3
      ea := -1, eb := 11, ec := -6, ebp := 11 / 2, ecp := -3
      ha := 0, hb := 11, hc := -6, hbp := 11 / 2, hcp := -3, hcorr := 0, ecorr := 0 },
    { e := 20, e100 := 8, e110 := 6, e111 := 4, h100 := 10, h110 := 8, h111 := 6
      ea := -2, eb := 22, ec := -12, ebp := 11, ecp := -6
      ha := 0, hb := 22, hc := -12, hbp := 11, hcp := -6, hcorr := 0, ecorr := 0 } ]

/-- Example setup: a 3 x 3 grid of unit step on a crystal of radius 3 and
length 3, two gradient and two impurity tables, a uniform axial field of
strength 2, and a hole model with zero `<100>` mobility. -/
def exSetup (velocity_type : Int) : MJD_Siggen_Setup ℚ :=
  { velocity_type := velocity_type
    xtal_length := 3, xtal_radius := 3, xtal_grid := 1, xtal_temp := 77
    rmin := 0, rmax := 3, rstep := 1, zmin := 0, zmax := 3, zstep := 1
    rlen := 3, zlen := 3
    v_lookup_len := 3, v_lookup := exTable
    v_params := { h_100_mu0 := 0, h_100_beta := 1, h_100_e0 := 1
                  h_111_mu0 := 1, h_111_beta := 1, h_111_e0 := 1
                  k0_0 := 0, k0_1 := 0, k0_2 := 0, k0_3 := 0 }
    efld_r := fun _ => 0, efld_z := fun _ => 2, wpot := fun k => k / 10
    imp_grad := 1 / 2, avg_imp := 1 / 4, min_imp_grad := 0, min_avg_imp := 0
    imp_grad_step := 1, avg_imp_step := 1
    num_imps := 2, num_grads := 2
    dv_dE := 0, v_over_E := 0 }

/-- Example raw table rows (only the seven columns read from the file are set). -/
def exRaw : List (velocity_lookup ℚ) :=
  [ velocity_lookup.zero,
    { (velocity_lookup.zero : velocity_lookup ℚ) with
      e := 10, e100 := 4, e110 := 3, e111 := 2, h100 := 5, h110 := 4, h111 := 3 },
    { (velocity_lookup.zero : velocity_lookup ℚ) with
      e := 20, e100 := 8, e110 := 6, e111 := 4, h100 := 10, h110 := 8, h111 := 6 } ]


/-- Example setup with the impurity setpoints on the tabulated point
(gradient index 1, impurity index 0) and field tables that differ from
offset to offset: `efld_r[k] = k + 1`, `efld_z[k] = 2 k + 1`. -/
def exSetupNode : MJD_Siggen_Setup ℚ :=
  { exSetup 0 with
    imp_grad := 1, avg_imp := 0
    efld_r := fun k => k + 1, efld_z := fun k => 2 * k + 1 }

/-- Example setup with a single gradient and a single impurity table. -/
def exSetupFlat : MJD_Siggen_Setup ℚ :=
  { exSetup 0 with num_grads := 1, num_imps := 1, efld_r := fun k => k / 10 }

/-- Example static buffer: all rows zero. -/
def exBuf : Nat → velocity_lookup ℚ := fun _ => velocity_lookup.zero

/-- Example file with a single usable data row, `10 4 3 2 5 4 3`. -/
def exFileOneRow : List (velo_line ℚ) :=
  [⟨'1', [10, 4, 3, 2, 5, 4, 3], []⟩]

/-- Example file: a comment line and the three data rows of `exRaw`. -/
def exFile : List (velo_line ℚ) :=
  [⟨'#', [], []⟩,
   ⟨'0', [0, 0, 0, 0, 0, 0, 0], [0, 0, 0, 0]⟩,
   ⟨'1', [10, 4, 3, 2, 5, 4, 3], [4, 3, 2, 5]⟩,
   ⟨'2', [20, 8, 6, 4, 10, 8, 6], [8, 6, 4, 10]⟩]

/-- Example file: the example file followed by a line that is no comment
and does not convert as 7 numbers. -/
def exFileBadTail : List (velo_line ℚ) := exFile ++ [⟨'x', [], []⟩]

/-- Example file: the example file followed by an electron override line
`e 1 2 3 4`. -/
def exFileParams : List (velo_line ℚ) := exFile ++ [⟨'e', [], [1, 2, 3, 4]⟩]

/-- Example file: one usable data row followed by a line that does not
convert as 7 numbers. -/
def exFileOneRowBadTail : List (velo_line ℚ) := exFileOneRow ++ [⟨'x', [], []⟩]

/-- Example raw table rows at the fields 1, 2, 3 whose `<110>` electron speed
falls from 1/4 over 1/8 to 0 (all other speeds zero). -/
def exRawDip : List (velocity_lookup ℚ) :=
  [ { (velocity_lookup.zero : velocity_lookup ℚ) with e := 1, e110 := 1 / 4 },
    { (velocity_lookup.zero : velocity_lookup ℚ) with e := 2, e110 := 1 / 8 },
    { (velocity_lookup.zero : velocity_lookup ℚ) with e := 3 } ]

/-- Example setup on the same crystal with a grid of step 1/4 (13 x 13
nodes) and the weighting potential `wpot[k] = k^2 / 100`. -/
def exSetupFine : MJD_Siggen_Setup ℚ :=
  { exSetup 0 with
    rstep := 1 / 4, zstep := 1 / 4, rlen := 13, zlen := 13, wpot := fun k => k * k / 100 }

/-! ## The math library over the reals -/

/-- The collaborators over the real numbers: the functions of the C math
library are the real functions (`pow` is the real power, `atan2 y x` the
argument of `x + i y`), `vector_norm_cyl` is the Euclidean normalisation in
the `(r, z)` plane, and no point is outside the crystal. -/
noncomputable def realExtern : Extern ℝ :=
  { outside_detector_cyl := fun _ _ => false
    vector_norm_cyl := fun e =>
      (Real.sqrt (e.r * e.r + e.z * e.z),
       ⟨e.r / Real.sqrt (e.r * e.r + e.z * e.z), e.phi, e.z / Real.sqrt (e.r * e.r + e.z * e.z)⟩)
    sqrt := Real.sqrt
    atan2 := fun y x => Complex.arg ⟨x, y⟩
    acos := Real.arccos
    sin := Real.sin
    cos := Real.cos
    tanh := Real.tanh
    pow := fun x y => x ^ y }

section Samples

variable {F : Type} [LinearOrderedField F] [FloorRing F]

/-- The built-in temperature model parameters with the electron `theta`
replaced by -200. -/
def params_negative_theta : temp_params F :=
  { (temp_params.default : temp_params F) with thetae := -200 }

/-- A raw table row at the field 10 with speeds 4, 3, 2 (electrons) and
5, 4, 3 (holes). -/
def sample_row : velocity_lookup F :=
  { (velocity_lookup.zero : velocity_lookup F) with
    e := 10, e100 := 4, e110 := 3, e111 := 2, h100 := 5, h110 := 4, h111 := 3 }

/-- A detector with the analytic hole model switched on: the grid and the
crystal of the examples, a uniform axial field of strength 2, impurity
setpoints on the first tabulated point, `<100>` and `<111>` hole parameters
`mu0 = 1`, `beta = 1`, `E0 = 2`, and the `k0` polynomial `1, 2, 3, 4`. -/
def sample_setup_axis : MJD_Siggen_Setup F :=
  { velocity_type := 1
    xtal_length := 3, xtal_radius := 3, xtal_grid := 1, xtal_temp := 77
    rmin := 0, rmax := 3, rstep := 1, zmin := 0, zmax := 3, zstep := 1
    rlen := 3, zlen := 3
    v_lookup_len := 0, v_lookup := []
    v_params := { h_100_mu0 := 1, h_100_beta := 1, h_100_e0 := 2
                  h_111_mu0 := 1, h_111_beta := 1, h_111_e0 := 2
                  k0_0 := 1, k0_1 := 2, k0_2 := 3, k0_3 := 4 }
    efld_r := fun _ => 0, efld_z := fun _ => 2, wpot := fun _ => 0
    imp_grad := 0, avg_imp := 0, min_imp_grad := 0, min_avg_imp := 0
    imp_grad_step := 1, avg_imp_step := 1
    num_imps := 2, num_grads := 2
    dv_dE := 0, v_over_E := 0 }

end Samples

/-! ## Auxiliary definitions for the table builder -/

section Aux

variable {F : Type} [LinearOrderedField F] [FloorRing F]

/-- A table row with its four cumulative coefficients set to zero: what the
cumulative loop of `setup_velo` leaves untouched. -/
def clear_cumul (v : velocity_lookup F) : velocity_lookup F :=
  { v with ebp := 0, ecp := 0, hbp := 0, hcp := 0 }

/-- The running trapezoidal quotients of one coefficient: from the previous
field `e0`, the previous coefficient `b0` and the running sum `s`, over the
remaining pairs `(e, b)`. -/
def trap_quotients : F → F → F → List (F × F) → List F
  | _, _, _, [] => []
  | e0, b0, s, (e, b) :: rest =>
    (s + (e - e0) * (b0 + b) / 2) / e :: trap_quotients e b (s + (e - e0) * (b0 + b) / 2) rest

/-- The column of cumulative coefficients that `setup_velo` derives from the
fields `e` and the coefficient `b` of the table `A`: zero in row 0, the
running trapezoidal quotients in the rows after it. -/
def trap_column (A : List (velocity_lookup F)) (b : velocity_lookup F → F) : List F :=
  match A with
  | [] => []
  | v :: rest => 0 :: trap_quotients v.e (b v) 0 (rest.map (fun r => (r.e, b r)))

/-- Claim-worded cumulative coefficient of row `i`: the trapezoidal sum of
`b` over the field from row 0 to row `i`, divided by the field of row `i`. -/
def trap_spec (t : List (velocity_lookup F)) (b : velocity_lookup F → F) (i : Nat) : F :=
  (∑ k in Finset.Icc 1 i,
      ((t.getD k velocity_lookup.zero).e - (t.getD (k - 1) velocity_lookup.zero).e)
        * (b (t.getD (k - 1) velocity_lookup.zero) + b (t.getD k velocity_lookup.zero)) / 2)
    / (t.getD i velocity_lookup.zero).e

/-- The raw rows that `setup_velo` hands to its numerical part when it reads
the lines `lines` with the static buffer `buf`: the rows `0 .. v_lookup_len`
of the buffer at the exit of the data loop. -/
def velo_rows (lines : List (velo_line F)) (buf : Nat → velocity_lookup F) :
    List (velocity_lookup F) :=
  (List.range ((velo_parse lines buf (fgets_skip is_comment lines ⟨'#', [], []⟩ true)).1.v_lookup_len
      + 1)).map
    (velo_parse lines buf (fgets_skip is_comment lines ⟨'#', [], []⟩ true)).1.buf

/-- The temperature model parameters that `setup_velo` uses when it reads
the lines `lines`. -/
def velo_params (lines : List (velo_line F)) (buf : Nat → velocity_lookup F) : temp_params F :=
  (velo_parse lines buf (fgets_skip is_comment lines ⟨'#', [], []⟩ true)).2

/-- The rotation "rotate back" of `drift_velocity`: the Cartesian velocity
written for the local vector `velo_local` and the field angles `theta`,
`phi`. -/
def rotate_back (X : Extern F) (theta phi : F) (velo_local : point F) : vector F :=
  { x := X.cos phi * X.sin theta * velo_local.x + X.cos phi * X.cos theta * velo_local.y
         - X.sin phi * velo_local.z
    y := X.sin phi * X.sin theta * velo_local.x + X.sin phi * X.cos theta * velo_local.y
         + X.cos phi * velo_local.z
    z := X.cos theta * velo_local.x - X.sin theta * velo_local.y }

/-- The coefficients `(a, b, c, bp, cp)` that the table branch of
`drift_velocity` interpolates for the charge `q` and the field magnitude
`abse`. -/
def drift_coeffs (q abse : F) (setup : MJD_Siggen_Setup F) : F × F × F × F × F :=
  let i := bracket_index setup abse
  let v_lookup1 := v_lookup_at setup i
  let v_lookup2 := v_lookup_at setup (i + 1)
  let f := (abse - v_lookup1.e) / (v_lookup2.e - v_lookup1.e)
  if q > 0 then
    ((v_lookup2.ha - v_lookup1.ha) * f + v_lookup1.ha,
     (v_lookup2.hb - v_lookup1.hb) * f + v_lookup1.hb,
     (v_lookup2.hc - v_lookup1.hc) * f + v_lookup1.hc,
     (v_lookup2.hbp - v_lookup1.hbp) * f + v_lookup1.hbp,
     (v_lookup2.hcp - v_lookup1.hcp) * f + v_lookup1.hcp)
  else
    ((v_lookup2.ea - v_lookup1.ea) * f + v_lookup1.ea,
     (v_lookup2.eb - v_lookup1.eb) * f + v_lookup1.eb,
     (v_lookup2.ec - v_lookup1.ec) * f + v_lookup1.ec,
     (v_lookup2.ebp - v_lookup1.ebp) * f + v_lookup1.ebp,
     (v_lookup2.ecp - v_lookup1.ecp) * f + v_lookup1.ecp)

/-- The interpolation fraction `f` of the table branch of `drift_velocity`. -/
def drift_fraction (abse : F) (setup : MJD_Siggen_Setup F) : F :=
  (abse - (v_lookup_at setup (bracket_index setup abse)).e)
    / ((v_lookup_at setup (bracket_index setup abse + 1)).e
        - (v_lookup_at setup (bracket_index setup abse)).e)

/-- The pairs `(grad + i, imp + j)` of gradient and impurity indices that
`get_efld_grad` passes to the table accessors, in the order of its loops. -/
def efld_grad_indices (setup : MJD_Siggen_Setup F) : List (Int × Int) :=
  let imp : Int := float_to_int ((setup.avg_imp - setup.min_avg_imp) / setup.avg_imp_step)
  let grad : Int := float_to_int ((setup.imp_grad - setup.min_imp_grad) / setup.imp_grad_step)
  ([0, 1] : List (Fin 2)).flatMap (fun (i : Fin 2) =>
    ([0, 1] : List (Fin 2)).map (fun (j : Fin 2) =>
      (grad + ((i : Nat) : Int), imp + ((j : Nat) : Int))))

/-- The trapezoidal sum of the column `b` over the field from row 0 to row
`i`: the numerator of the claim-worded cumulative coefficient. -/
def trap_sum (t : List (velocity_lookup F)) (b : velocity_lookup F → F) (i : Nat) : F :=
  ∑ k in Finset.Icc 1 i,
    ((t.getD k velocity_lookup.zero).e - (t.getD (k - 1) velocity_lookup.zero).e)
      * (b (t.getD (k - 1) velocity_lookup.zero) + b (t.getD k velocity_lookup.zero)) / 2

/-- The coefficients `(a, b, c, bp, cp)` stored in the table row `v` for the
charge `q`: the hole set for `q > 0`, the electron set otherwise. -/
def stored_coeffs (q : F) (v : velocity_lookup F) : F × F × F × F × F :=
  if q > 0 then (v.ha, v.hb, v.hc, v.hbp, v.hcp) else (v.ea, v.eb, v.ec, v.ebp, v.ecp)

/-- The velocity factor `f` that a temperature loop of `setup_velo` applies at
the field `e`, from the model parameters of the species (`mu`, `pwr`, `b`,
`theta`) and the crystal temperature: the local variables `mu_0_1 .. E_c_2`
as the loop computes them. -/
def temp_factor (X : Extern F) (mu pwr b theta xtal_temp e : F) : F :=
  let mu_0_1 := mu * X.pow REF_TEMP pwr
  let v_s_1 := b * X.sqrt (X.tanh (0.5 * theta / REF_TEMP))
  let E_c_1 := v_s_1 / mu_0_1
  let mu_0_2 := mu * X.pow xtal_temp pwr
  let v_s_2 := b * X.sqrt (X.tanh (0.5 * theta / xtal_temp))
  let E_c_2 := v_s_2 / mu_0_2
  velo_factor X v_s_1 E_c_1 v_s_2 E_c_2 e

end Aux

/-! ## Lemmas on the bracket scan -/

section Proofs

variable {F : Type} [LinearOrderedField F] [FloorRing F]

/-- Invariant of the bracket scan: the result lies between the start and
start plus fuel, every index passed satisfied the loop condition, and the
scan either used all its fuel or stopped on a false loop condition. -/
theorem bracket_loop_inv (setup : MJD_Siggen_Setup F) (abse : F) (fuel i0 : Nat) :
    i0 ≤ bracket_loop setup abse fuel i0
    ∧ bracket_loop setup abse fuel i0 ≤ i0 + fuel
    ∧ (∀ j, i0 ≤ j → j < bracket_loop setup abse fuel i0 →
        (j : Int) < setup.v_lookup_len - 2 ∧ abse > (v_lookup_at setup (j + 1)).e)
    ∧ (bracket_loop setup abse fuel i0 = i0 + fuel
        ∨ ¬ (((bracket_loop setup abse fuel i0 : Nat) : Int) < setup.v_lookup_len - 2
              ∧ abse > (v_lookup_at setup (bracket_loop setup abse fuel i0 + 1)).e)) := by
  induction fuel generalizing i0 with
  | zero =>
    refine ⟨le_refl _, le_refl _, ?_, Or.inl rfl⟩
    intro j h1 h2
    simp only [bracket_loop] at h2
    omega
  | succ n ih =>
    by_cases hc : (i0 : Int) < setup.v_lookup_len - 2 ∧ abse > (v_lookup_at setup (i0 + 1)).e
    · have hstep : bracket_loop setup abse (n + 1) i0 = bracket_loop setup abse n (i0 + 1) := by
        simp only [bracket_loop, if_pos hc]
      rw [hstep]
      obtain ⟨h1, h2, h3, h4⟩ := ih (i0 + 1)
      refine ⟨by omega, by omega, ?_, ?_⟩
      · intro j hj1 hj2
        by_cases hj : j = i0
        · subst hj
          exact hc
        · exact h3 j (by omega) hj2
      · rcases h4 with h4 | h4
        · exact Or.inl (by omega)
        · exact Or.inr h4
    · have hstep : bracket_loop setup abse (n + 1) i0 = i0 := by
        simp only [bracket_loop, if_neg hc]
      rw [hstep]
      refine ⟨le_refl _, by omega, ?_, Or.inr hc⟩
      intro j h1 h2
      omega

/-- The scan of `drift_velocity` ends at the claim-worded bracket index. -/
theorem bracket_index_is_bracket (setup : MJD_Siggen_Setup F) (abse : F)
    (hlen : 2 ≤ setup.v_lookup_len) :
    is_bracket setup abse (bracket_index setup abse) := by
  obtain ⟨_, h2, h3, h4⟩ := bracket_loop_inv setup abse (setup.v_lookup_len - 2).toNat 0
  have hfuel : (((setup.v_lookup_len - 2).toNat : Nat) : Int) = setup.v_lookup_len - 2 :=
    Int.toNat_of_nonneg (by omega)
  unfold is_bracket bracket_index
  refine ⟨by omega, ?_, ?_⟩
  · rcases h4 with h4 | h4
    · exact Or.inr (by omega)
    · by_cases hlt : ((bracket_loop setup abse (setup.v_lookup_len - 2).toNat 0 : Nat) : Int)
          < setup.v_lookup_len - 2
      · left
        by_contra hne
        exact h4 ⟨hlt, not_le.mp hne⟩
      · exact Or.inr (by omega)
  · intro j hj
    exact not_le.mpr (h3 j (Nat.zero_le _) hj).2

/-- The claim-worded bracket property determines the index. -/
theorem is_bracket_unique (setup : MJD_Siggen_Setup F) (abse : F) (i k : Nat)
    (hi : is_bracket setup abse i) (hk : is_bracket setup abse k) : i = k := by
  obtain ⟨hi1, hi2, hi3⟩ := hi
  obtain ⟨hk1, hk2, hk3⟩ := hk
  rcases Nat.lt_trichotomy i k with h | h | h
  · rcases hi2 with h2 | h2
    · exact absurd h2 (hk3 i h)
    · omega
  · exact h
  · rcases hk2 with h2 | h2
    · exact absurd h2 (hi3 k h)
    · omega

/-- The table branch of `drift_velocity` computes the claim-worded velocity. -/
theorem drift_velocity_empirical_eq (q abse : F) (cart_en : point F) (setup : MJD_Siggen_Setup F) :
    (drift_velocity_empirical q abse cart_en setup).1
      = empirical_spec q abse cart_en setup (bracket_index setup abse) := by
  unfold drift_velocity_empirical empirical_spec lerp POW4 POW6
  by_cases hq : q > 0
  · have hq2 : ¬ q < 0 := not_lt.mpr hq.le
    simp only [if_pos hq, if_neg hq2, point.mk.injEq]
    refine ⟨?_, ?_, ?_⟩ <;> push_cast <;> ring
  · by_cases hq2 : q < 0
    · simp only [if_neg hq, if_pos hq2, point.mk.injEq]
      refine ⟨?_, ?_, ?_⟩ <;> push_cast <;> ring
    · simp only [if_neg hq, if_neg hq2, point.mk.injEq]
      refine ⟨?_, ?_, ?_⟩ <;> push_cast <;> ring

/-! ## Lemmas on the locator -/

/-- The claim-worded shift list is the loop order mapped through the array `d`. -/
theorem locator_shifts_eq :
    (locator_shifts : List (F × F)) = shift_order.map (fun c => (shift_d c.2, shift_d c.1)) := by
  simp only [locator_shifts, shift_order, shift_d, List.map]
  norm_num

/-- The entry `d[k]` is zero only for `k = 0`. -/
theorem shift_d_eq_zero (k : Nat) : (shift_d k : F) = 0 ↔ k = 0 := by
  match k with
  | 0 => norm_num [shift_d]
  | 1 => norm_num [shift_d]
  | n + 2 =>
    have h : (shift_d (n + 2) : F) = 1.0 := rfl
    rw [h]
    norm_num

/-! ## The claims -/

/-- Claim C1. For every located point, every charge `q` routed to the table
branch and every table of length at least 2, the scan of `drift_velocity`
ends at the least index `i` in `[0, len-2]` with `abse ≤ e[i+1]` (or `len-2`),
and the velocity written is the claim-worded one: coefficients interpolated
linearly between samples `i` and `i+1` (hole set for `q > 0`, electron set
otherwise) and `v_k = sign * u_k * (|v| + 4 bp (u_k^2 - en4) + 6 cp (u_k^4 - en6))`. -/
theorem drift_velocity_empirical_formula (X : Extern F) (pt : point F) (q : F) (velo : vector F)
    (setup : MJD_Siggen_Setup F) (m : LocatorMemo F) (ipt0 : cyl_int_pt)
    (hlen : 2 ≤ setup.v_lookup_len)
    (hloc : 0 ≤ (nearest_field_grid_index X (drift_cyl X pt) ipt0 setup m).1)
    (hroute : ¬ (q = 1 ∧ setup.velocity_type = 1)) :
    is_bracket setup
        (drift_field X pt (nearest_field_grid_index X (drift_cyl X pt) ipt0 setup m).2.1 setup).1
        (bracket_index setup
          (drift_field X pt (nearest_field_grid_index X (drift_cyl X pt) ipt0 setup m).2.1 setup).1)
    ∧ (drift_velocity X pt q velo setup m ipt0).2.1
      = empirical_spec q
          (drift_field X pt (nearest_field_grid_index X (drift_cyl X pt) ipt0 setup m).2.1 setup).1
          (drift_field X pt (nearest_field_grid_index X (drift_cyl X pt) ipt0 setup m).2.1 setup).2
          setup
          (bracket_index setup
            (drift_field X pt (nearest_field_grid_index X (drift_cyl X pt) ipt0 setup m).2.1 setup).1) := by
  refine ⟨bracket_index_is_bracket setup _ hlen, ?_⟩
  unfold drift_velocity
  simp only [if_neg (not_lt.mpr hloc), if_neg hroute]
  exact drift_velocity_empirical_eq q _ _ setup

/-- Witness for claim C1: an electron at the point `(0, 0, 1)` of the example
detector. -/
theorem drift_velocity_empirical_formula_witness :
    (2 ≤ (exSetup 1).v_lookup_len
      ∧ 0 ≤ (nearest_field_grid_index exExtern (drift_cyl exExtern ⟨0, 0, 1⟩) ⟨0, 0, 0⟩
              (exSetup 1) LocatorMemo.init).1
      ∧ ¬ ((-1 : ℚ) = 1 ∧ (exSetup 1).velocity_type = 1))
    ∧ is_bracket (exSetup 1) 2 0
    ∧ (drift_velocity exExtern ⟨0, 0, 1⟩ (-1) ⟨9, 9, 9⟩ (exSetup 1) LocatorMemo.init ⟨0, 0, 0⟩).2.1
      = ⟨0, 0, -4 / 5⟩ := by
  have h := drift_velocity_empirical_formula exExtern ⟨0, 0, 1⟩ (-1) ⟨9, 9, 9⟩ (exSetup 1)
    LocatorMemo.init ⟨0, 0, 0⟩ (by decide!) (by decide!) (by decide!)
  refine ⟨by decide!, ?_, h.2.trans (by decide!)⟩
  have h1 := h.1
  have e1 : (drift_field exExtern ⟨0, 0, 1⟩ (nearest_field_grid_index exExtern
      (drift_cyl exExtern ⟨0, 0, 1⟩) ⟨0, 0, 0⟩ (exSetup 1) LocatorMemo.init).2.1 (exSetup 1)).1 = 2 := by
    decide!
  rw [e1] at h1
  have e2 : bracket_index (exSetup 1) (2 : ℚ) = 0 := by decide!
  rw [e2] at h1
  exact h1

/-- Claim C2. The field returned by `efield` is the two-level interpolation:
each component is the sum over the four cell corners `i, j` of the grid
weight times the sum over `k, l` of the impurity weight times the table
sample at `(ipt.r+i, ipt.z+j, grad+k, imp+l)`, sixteen samples per
component, and the `phi` component is that of the point. -/
theorem efield_two_level_interpolation (pt : cyl_pt F) (ipt : cyl_int_pt)
    (setup : MJD_Siggen_Setup F) :
    (efield pt ipt setup).r
      = ∑ i : Fin 2, ∑ j : Fin 2, grid_weights pt ipt setup i j *
          ∑ k : Fin 2, ∑ l : Fin 2, imp_weights setup k l *
            get_efld_r_by_index (ipt.r + (i : Nat)) (ipt.z + (j : Nat))
              (float_to_int ((setup.imp_grad - setup.min_imp_grad) / setup.imp_grad_step) + (k : Nat))
              (float_to_int ((setup.avg_imp - setup.min_avg_imp) / setup.avg_imp_step) + (l : Nat))
              setup
    ∧ (efield pt ipt setup).z
      = ∑ i : Fin 2, ∑ j : Fin 2, grid_weights pt ipt setup i j *
          ∑ k : Fin 2, ∑ l : Fin 2, imp_weights setup k l *
            get_efld_z_by_index (ipt.r + (i : Nat)) (ipt.z + (j : Nat))
              (float_to_int ((setup.imp_grad - setup.min_imp_grad) / setup.imp_grad_step) + (k : Nat))
              (float_to_int ((setup.avg_imp - setup.min_avg_imp) / setup.avg_imp_step) + (l : Nat))
              setup
    ∧ (efield pt ipt setup).phi = pt.phi := by
  refine ⟨?_, ?_, rfl⟩
  · simp only [efield, get_efld_grad, List.foldl, Fin.sum_univ_two]
    simp
    ring
  · simp only [efield, get_efld_grad, List.foldl, Fin.sum_univ_two]
    simp
    ring

/-- Claim C3. `wpotential` returns 1 exactly when the locator returns a
negative code for `(r = sqrt(x^2+y^2), z)`; otherwise it returns 0 and
stores the sum over the four corners of `w[i][j] * wpot(ipt.r+i, ipt.z+j)`
with `w[i][j] = (i ? f_r : 1-f_r) * (j ? f_z : 1-f_z)`. -/
theorem wpotential_result (X : Extern F) (pt : point F) (wp : F) (setup : MJD_Siggen_Setup F)
    (m : LocatorMemo F) (cyl0 : cyl_pt F) (ipt0 : cyl_int_pt) :
    let cyl : cyl_pt F := ⟨X.sqrt (pt.x * pt.x + pt.y * pt.y), cyl0.phi, pt.z⟩
    let loc := nearest_field_grid_index X cyl ipt0 setup m
    let f_r := (cyl.r - setup.rmin) / setup.rstep - loc.2.1.r
    let f_z := (cyl.z - setup.zmin) / setup.zstep - loc.2.1.z
    ((wpotential X pt wp setup m cyl0 ipt0).1 = 1 ↔ loc.1 < 0)
    ∧ (wpotential X pt wp setup m cyl0 ipt0).1 = (if loc.1 < 0 then 1 else 0)
    ∧ (wpotential X pt wp setup m cyl0 ipt0).2.1
      = (if loc.1 < 0 then wp
         else ∑ i : Fin 2, ∑ j : Fin 2, bilinear_weight f_r f_z i j *
                get_wpot_by_index (loc.2.1.r + (i : Nat)) (loc.2.1.z + (j : Nat)) setup) := by
  intro cyl loc f_r f_z
  have hdef : wpotential X pt wp setup m cyl0 ipt0
      = if loc.1 < 0 then (1, wp, loc.2.2)
        else (0, ([0, 1] : List (Fin 2)).foldl
          (fun acc i => ([0, 1] : List (Fin 2)).foldl
            (fun acc j => acc + grid_weights cyl loc.2.1 setup i j *
              get_wpot_by_index (loc.2.1.r + (i : Nat)) (loc.2.1.z + (j : Nat)) setup) acc) 0.0,
          loc.2.2) := rfl
  rw [hdef]
  by_cases h : loc.1 < 0
  · simp [h]
  · refine ⟨?_, ?_, ?_⟩
    · simp [h]
    · simp [h]
    rw [if_neg h, if_neg h]
    simp only [List.foldl, Fin.sum_univ_two, grid_weights, bilinear_weight, f_r, f_z]
    simp
    norm_num
    ring

/-- Claim C4. On a memo miss `nearest_field_grid_index` returns -1 for a point
outside the crystal; otherwise the truncated grid index of the first of the
nine candidates (zero shift first, then `dz` outer and `dr` inner over
0, -1, +1) for which `efield_exists` holds, with code 0 if and only if that
candidate is the zero shift and code 1 otherwise; and -2 if there is none. -/
theorem locator_miss_result (X : Extern F) (pt : cyl_pt F) (ipt : cyl_int_pt)
    (setup : MJD_Siggen_Setup F) (m : LocatorMemo F)
    (hmiss : ¬ (m.last_ret ≠ -99 ∧ pt.r = m.last_pt.r ∧ pt.z = m.last_pt.z)) :
    ((nearest_field_grid_index X pt ipt setup m).1, (nearest_field_grid_index X pt ipt setup m).2.1)
      = locator_spec X pt ipt setup := by
  unfold nearest_field_grid_index locator_spec
  rw [if_neg hmiss]
  by_cases hout : X.outside_detector_cyl pt setup = true
  · simp only [hout, if_true]
  · simp only [hout, Bool.false_eq_true, if_false]
    rw [locator_shifts_eq, List.find?_map]
    have hfun : ((fun s : F × F =>
          efield_exists X ⟨pt.r + s.1 * setup.rstep, 0, pt.z + s.2 * setup.zstep⟩ setup)
          ∘ fun c : Nat × Nat => ((shift_d c.2 : F), (shift_d c.1 : F)))
        = fun c => efield_exists X (shifted_pt pt setup c) setup := by
      funext c
      simp only [shifted_pt, Function.comp]
      norm_num
    rw [hfun]
    cases hfind : shift_order.find? (fun c => efield_exists X (shifted_pt pt setup c) setup) with
    | none => simp
    | some c =>
      simp only [Option.map_some', shifted_pt, Prod.mk.injEq, shift_d_eq_zero, and_true]

/-- Witness for claim C4: from the initial statics, the point `(r, z) = (2, 1)`
of the example detector is resolved by the shift `dr = -1` with code 1. -/
theorem locator_miss_result_witness :
    ¬ ((LocatorMemo.init : LocatorMemo ℚ).last_ret ≠ -99
        ∧ (2 : ℚ) = (LocatorMemo.init : LocatorMemo ℚ).last_pt.r
        ∧ (1 : ℚ) = (LocatorMemo.init : LocatorMemo ℚ).last_pt.z)
    ∧ ((nearest_field_grid_index exExtern ⟨2, 0, 1⟩ ⟨7, 7, 7⟩ (exSetup 0) LocatorMemo.init).1,
       (nearest_field_grid_index exExtern ⟨2, 0, 1⟩ ⟨7, 7, 7⟩ (exSetup 0) LocatorMemo.init).2.1)
      = (1, ⟨1, 0, 1⟩) :=
  ⟨by decide!,
   (locator_miss_result exExtern ⟨2, 0, 1⟩ ⟨7, 7, 7⟩ (exSetup 0) LocatorMemo.init
      (by decide!)).trans (by decide!)⟩

/-- Claim C5. For nonzero grid steps the four weights of `grid_weights` sum
to 1 for every point and every integer grid index (so also for fractional
offsets below 0 or above 1), and for nonzero impurity steps the four weights
of `imp_weights` sum to 1. -/
theorem weights_sum_to_one (pt : cyl_pt F) (ipt : cyl_int_pt) (setup : MJD_Siggen_Setup F)
    (hr : setup.rstep ≠ 0) (hz : setup.zstep ≠ 0)
    (hg : setup.imp_grad_step ≠ 0) (ha : setup.avg_imp_step ≠ 0) :
    ∑ i : Fin 2, ∑ j : Fin 2, grid_weights pt ipt setup i j = 1
    ∧ ∑ i : Fin 2, ∑ j : Fin 2, imp_weights setup i j = 1 := by
  constructor
  · simp only [Fin.sum_univ_two, grid_weights]
    simp
    ring
  · simp only [Fin.sum_univ_two, imp_weights]
    simp
    ring

/-- Witness for claim C5: a point five half steps beyond the cell `(0, 0)` in
`r` and one step below it in `z` (fractional offsets 5/2 and -1). -/
theorem weights_sum_to_one_witness :
    ((exSetup 0).rstep ≠ 0 ∧ (exSetup 0).zstep ≠ 0
      ∧ (exSetup 0).imp_grad_step ≠ 0 ∧ (exSetup 0).avg_imp_step ≠ 0)
    ∧ grid_weights ⟨5 / 2, 0, -1⟩ ⟨0, 0, 0⟩ (exSetup 0) 1 1 = -5 / 2
    ∧ ∑ i : Fin 2, ∑ j : Fin 2, grid_weights ⟨5 / 2, 0, -1⟩ ⟨0, 0, 0⟩ (exSetup 0) i j = 1
    ∧ ∑ i : Fin 2, ∑ j : Fin 2, imp_weights (exSetup 0) i j = 1 :=
  ⟨by decide!, by decide!,
   weights_sum_to_one ⟨5 / 2, 0, -1⟩ ⟨0, 0, 0⟩ (exSetup 0)
     (by decide!) (by decide!) (by decide!) (by decide!)⟩

/-- Claim C6. `drift_velocity` returns -1 if and only if the locator returns
a negative code for the point; it then leaves the output velocity as it
was. For every non-negative locator code, 1 (extrapolation) included, it
returns 0. -/
theorem drift_velocity_fails_iff_outside (X : Extern F) (pt : point F) (q : F) (velo : vector F)
    (setup : MJD_Siggen_Setup F) (m : LocatorMemo F) (ipt0 : cyl_int_pt) :
    ((drift_velocity X pt q velo setup m ipt0).1 = -1
        ↔ (nearest_field_grid_index X (drift_cyl X pt) ipt0 setup m).1 < 0)
    ∧ ((nearest_field_grid_index X (drift_cyl X pt) ipt0 setup m).1 < 0 →
        (drift_velocity X pt q velo setup m ipt0).2.1 = velo)
    ∧ (0 ≤ (nearest_field_grid_index X (drift_cyl X pt) ipt0 setup m).1 →
        (drift_velocity X pt q velo setup m ipt0).1 = 0) := by
  unfold drift_velocity
  by_cases h : (nearest_field_grid_index X (drift_cyl X pt) ipt0 setup m).1 < 0
  · simp only [if_pos h]
    exact ⟨⟨fun _ => h, fun _ => trivial⟩, fun _ => trivial, fun h0 => absurd h (not_lt.mpr h0)⟩
  · simp only [if_neg h]
    by_cases hq : q = 1 ∧ setup.velocity_type = 1
    · simp only [if_pos hq]
      exact ⟨⟨fun h0 => absurd h0 (by norm_num), fun h0 => absurd h0 h⟩,
        fun h0 => absurd h0 h, fun _ => trivial⟩
    · simp only [if_neg hq]
      exact ⟨⟨fun h0 => absurd h0 (by norm_num), fun h0 => absurd h0 h⟩,
        fun h0 => absurd h0 h, fun _ => trivial⟩

/-- Witness for claim C6: the point `(2, 0, 1)` of the example detector is
resolved by extrapolation (locator code 1) and `drift_velocity` returns 0;
the point `(3, 0, 1)` is not located and the output keeps its content. -/
theorem drift_velocity_fails_iff_outside_witness :
    ((nearest_field_grid_index exExtern (drift_cyl exExtern ⟨2, 0, 1⟩) ⟨0, 0, 0⟩ (exSetup 0)
        LocatorMemo.init).1 = 1
      ∧ (drift_velocity exExtern ⟨2, 0, 1⟩ (-1) ⟨9, 9, 9⟩ (exSetup 0) LocatorMemo.init ⟨0, 0, 0⟩).1 = 0)
    ∧ ((nearest_field_grid_index exExtern (drift_cyl exExtern ⟨3, 0, 1⟩) ⟨0, 0, 0⟩ (exSetup 0)
        LocatorMemo.init).1 = -2
      ∧ (drift_velocity exExtern ⟨3, 0, 1⟩ (-1) ⟨9, 9, 9⟩ (exSetup 0) LocatorMemo.init ⟨0, 0, 0⟩).2.1
          = ⟨9, 9, 9⟩) :=
  ⟨⟨by decide!,
    (drift_velocity_fails_iff_outside exExtern ⟨2, 0, 1⟩ (-1) ⟨9, 9, 9⟩ (exSetup 0)
      LocatorMemo.init ⟨0, 0, 0⟩).2.2 (by decide!)⟩,
   ⟨by decide!,
    (drift_velocity_fails_iff_outside exExtern ⟨3, 0, 1⟩ (-1) ⟨9, 9, 9⟩ (exSetup 0)
      LocatorMemo.init ⟨0, 0, 0⟩).2.1 (by decide!)⟩⟩

/-- Claim C7, as stated, fails: in the example detector configured for the
analytic model (`velocity_type = 1`) a positive charge `q = 2` at the located
point `(0, 0, 1)` gets the table velocity `(0, 0, 1)`, not the velocity
`(0, 0, 0)` of the analytic hole model. -/
theorem drift_velocity_positive_charge_not_analytic :
    (0 : ℚ) < 2
    ∧ (exSetup 1).velocity_type = 1
    ∧ (nearest_field_grid_index exExtern (drift_cyl exExtern ⟨0, 0, 1⟩) ⟨0, 0, 0⟩ (exSetup 1)
        LocatorMemo.init).1 = 0
    ∧ (nearest_field_grid_index exExtern (drift_cyl exExtern ⟨0, 0, 1⟩) ⟨0, 0, 0⟩ (exSetup 1)
        LocatorMemo.init).2.1 = ⟨0, 0, 1⟩
    ∧ drift_field exExtern ⟨0, 0, 1⟩ ⟨0, 0, 1⟩ (exSetup 1) = (2, ⟨0, 0, 1⟩)
    ∧ drift_velocity_analytic exExtern 2 ⟨0, 0, 1⟩ (exSetup 1) = ⟨0, 0, 0⟩
    ∧ (drift_velocity_empirical 2 2 ⟨0, 0, 1⟩ (exSetup 1)).1 = ⟨0, 0, 1⟩
    ∧ (drift_velocity exExtern ⟨0, 0, 1⟩ 2 ⟨9, 9, 9⟩ (exSetup 1) LocatorMemo.init ⟨0, 0, 0⟩).2.1
        = ⟨0, 0, 1⟩
    ∧ (drift_velocity exExtern ⟨0, 0, 1⟩ 2 ⟨9, 9, 9⟩ (exSetup 1) LocatorMemo.init ⟨0, 0, 0⟩).2.1
        ≠ drift_velocity_analytic exExtern 2 ⟨0, 0, 1⟩ (exSetup 1) := by
  decide!

/-- Claim C7, amended. For every located point `drift_velocity` evaluates the
analytic hole model exactly when `q = 1` and `velocity_type = 1`; in every
other case, positive charges other than 1 included, it evaluates the table
model (the claim-worded empirical velocity at the bracket index). -/
theorem drift_velocity_branch (X : Extern F) (pt : point F) (q : F) (velo : vector F)
    (setup : MJD_Siggen_Setup F) (m : LocatorMemo F) (ipt0 : cyl_int_pt)
    (hloc : 0 ≤ (nearest_field_grid_index X (drift_cyl X pt) ipt0 setup m).1) :
    (q = 1 ∧ setup.velocity_type = 1 →
      (drift_velocity X pt q velo setup m ipt0).2.1
        = drift_velocity_analytic X
            (drift_field X pt (nearest_field_grid_index X (drift_cyl X pt) ipt0 setup m).2.1 setup).1
            (drift_field X pt (nearest_field_grid_index X (drift_cyl X pt) ipt0 setup m).2.1 setup).2
            setup)
    ∧ (¬ (q = 1 ∧ setup.velocity_type = 1) →
      (drift_velocity X pt q velo setup m ipt0).2.1
        = (drift_velocity_empirical q
            (drift_field X pt (nearest_field_grid_index X (drift_cyl X pt) ipt0 setup m).2.1 setup).1
            (drift_field X pt (nearest_field_grid_index X (drift_cyl X pt) ipt0 setup m).2.1 setup).2
            setup).1
      ∧ (drift_velocity X pt q velo setup m ipt0).2.1
        = empirical_spec q
            (drift_field X pt (nearest_field_grid_index X (drift_cyl X pt) ipt0 setup m).2.1 setup).1
            (drift_field X pt (nearest_field_grid_index X (drift_cyl X pt) ipt0 setup m).2.1 setup).2
            setup
            (bracket_index setup
              (drift_field X pt
                (nearest_field_grid_index X (drift_cyl X pt) ipt0 setup m).2.1 setup).1)) := by
  unfold drift_velocity
  simp only [if_neg (not_lt.mpr hloc)]
  constructor
  · intro hq
    simp only [if_pos hq]
  · intro hq
    simp only [if_neg hq]
    exact ⟨trivial, drift_velocity_empirical_eq q _ _ setup⟩

/-- Witness for the amended claim C7: charges 1 and 2 at the point `(0, 0, 1)`
of the example detector with `velocity_type = 1`. -/
theorem drift_velocity_branch_witness :
    0 ≤ (nearest_field_grid_index exExtern (drift_cyl exExtern ⟨0, 0, 1⟩) ⟨0, 0, 0⟩ (exSetup 1)
        LocatorMemo.init).1
    ∧ (drift_velocity exExtern ⟨0, 0, 1⟩ 1 ⟨9, 9, 9⟩ (exSetup 1) LocatorMemo.init ⟨0, 0, 0⟩).2.1
        = ⟨0, 0, 0⟩
    ∧ (drift_velocity exExtern ⟨0, 0, 1⟩ 2 ⟨9, 9, 9⟩ (exSetup 1) LocatorMemo.init ⟨0, 0, 0⟩).2.1
        = ⟨0, 0, 1⟩ :=
  ⟨by decide!,
   ((drift_velocity_branch exExtern ⟨0, 0, 1⟩ 1 ⟨9, 9, 9⟩ (exSetup 1) LocatorMemo.init ⟨0, 0, 0⟩
      (by decide!)).1 (by decide!)).trans (by decide!),
   ((drift_velocity_branch exExtern ⟨0, 0, 1⟩ 2 ⟨9, 9, 9⟩ (exSetup 1) LocatorMemo.init ⟨0, 0, 0⟩
      (by decide!)).2 (by decide!)).1.trans (by decide!)⟩

/-! ## Lemmas on the table builder -/

/-- Reading a mapped list inside its bounds. -/
theorem getD_map_of_lt {α β : Type} (f : α → β) (l : List α) (i : Nat) (h : i < l.length)
    (d : α) (d1 : β) : (l.map f).getD i d1 = f (l.getD i d) := by
  induction l generalizing i with
  | nil => simp at h
  | cons a t ih =>
    cases i with
    | zero => simp
    | succ n =>
      simp only [List.map_cons, List.getD_cons_succ]
      exact ih n (by simpa using h)

/-- The cumulative loop keeps the length of the table. -/
theorem cumul_loop_length (l : List (velocity_lookup F)) (v0 : velocity_lookup F)
    (s1 s2 s3 s4 : F) : (cumul_loop v0 s1 s2 s3 s4 l).length = l.length := by
  induction l generalizing v0 s1 s2 s3 s4 with
  | nil => rfl
  | cons v t ih => simp [cumul_loop, ih]

/-- The cumulative stage keeps the length of the table. -/
theorem cumul_coeffs_length (l : List (velocity_lookup F)) :
    (cumul_coeffs l).length = l.length := by
  cases l with
  | nil => rfl
  | cons v t => simp [cumul_coeffs, cumul_loop_length]

/-- The cumulative loop changes nothing but the cumulative coefficients. -/
theorem cumul_loop_clear (l : List (velocity_lookup F)) (v0 : velocity_lookup F)
    (s1 s2 s3 s4 : F) (i : Nat) :
    clear_cumul ((cumul_loop v0 s1 s2 s3 s4 l).getD i velocity_lookup.zero)
      = clear_cumul (l.getD i velocity_lookup.zero) := by
  induction l generalizing v0 s1 s2 s3 s4 i with
  | nil => rfl
  | cons v t ih =>
    cases i with
    | zero => simp [cumul_loop, clear_cumul]
    | succ n =>
      simp only [cumul_loop, List.getD_cons_succ]
      exact ih _ _ _ _ _ n

/-- The cumulative stage changes nothing but the cumulative coefficients. -/
theorem cumul_coeffs_clear (l : List (velocity_lookup F)) (i : Nat) :
    clear_cumul ((cumul_coeffs l).getD i velocity_lookup.zero)
      = clear_cumul (l.getD i velocity_lookup.zero) := by
  cases l with
  | nil => rfl
  | cons v t =>
    cases i with
    | zero => simp [cumul_coeffs, clear_cumul]
    | succ n =>
      simp only [cumul_coeffs, List.getD_cons_succ]
      exact cumul_loop_clear t _ _ _ _ _ n

/-- The built table has as many rows as the raw table. -/
theorem build_velo_table_length (X : Extern F) (p : temp_params F) (T : F)
    (raw : List (velocity_lookup F)) : (build_velo_table X p T raw).length = raw.length := by
  simp [build_velo_table, cumul_coeffs_length, aniso_coeffs, temp_correct_h, temp_correct_e]

/-- Up to its cumulative coefficients, row `i` of the built table is the
anisotropy loop body applied to row `i` of the temperature-corrected table. -/
theorem build_velo_table_clear (X : Extern F) (p : temp_params F) (T : F)
    (raw : List (velocity_lookup F)) (i : Nat) (h : i < raw.length) :
    clear_cumul ((build_velo_table X p T raw).getD i velocity_lookup.zero)
      = clear_cumul (aniso_row
          ((temp_correct_h X p T (temp_correct_e X p T raw)).getD i velocity_lookup.zero)) := by
  unfold build_velo_table
  rw [cumul_coeffs_clear]
  unfold aniso_coeffs
  rw [getD_map_of_lt aniso_row _ i _ velocity_lookup.zero velocity_lookup.zero]
  simpa [temp_correct_h, temp_correct_e] using h

/-- Row `i` of the temperature-corrected table is the hole loop body applied
to the electron loop body applied to row `i` of the raw table. -/
theorem temp_correct_getD (X : Extern F) (p : temp_params F) (T : F)
    (raw : List (velocity_lookup F)) (i : Nat) (h : i < raw.length) :
    (temp_correct_h X p T (temp_correct_e X p T raw)).getD i velocity_lookup.zero
      = temp_row_h X (p.bh * X.sqrt (X.tanh (0.5 * p.thetah / REF_TEMP)))
          (p.bh * X.sqrt (X.tanh (0.5 * p.thetah / REF_TEMP)) / (p.muh * X.pow REF_TEMP p.pwrh))
          (p.bh * X.sqrt (X.tanh (0.5 * p.thetah / T)))
          (p.bh * X.sqrt (X.tanh (0.5 * p.thetah / T)) / (p.muh * X.pow T p.pwrh))
          (temp_row_e X (p.be * X.sqrt (X.tanh (0.5 * p.thetae / REF_TEMP)))
            (p.be * X.sqrt (X.tanh (0.5 * p.thetae / REF_TEMP)) / (p.mue * X.pow REF_TEMP p.pwre))
            (p.be * X.sqrt (X.tanh (0.5 * p.thetae / T)))
            (p.be * X.sqrt (X.tanh (0.5 * p.thetae / T)) / (p.mue * X.pow T p.pwre))
            (raw.getD i velocity_lookup.zero)) := by
  unfold temp_correct_h
  simp only []
  rw [getD_map_of_lt _ _ i _ velocity_lookup.zero velocity_lookup.zero]
  · unfold temp_correct_e
    simp only []
    rw [getD_map_of_lt _ _ i h velocity_lookup.zero velocity_lookup.zero]
  · simpa [temp_correct_e] using h

/-- The factor of the temperature loops is the claim-worded factor `f(e)`. -/
theorem velo_factor_eq_spec (X : Extern F) (mu pwr b theta T e : F) :
    velo_factor X (b * X.sqrt (X.tanh (0.5 * theta / REF_TEMP)))
        (b * X.sqrt (X.tanh (0.5 * theta / REF_TEMP)) / (mu * X.pow REF_TEMP pwr))
        (b * X.sqrt (X.tanh (0.5 * theta / T)))
        (b * X.sqrt (X.tanh (0.5 * theta / T)) / (mu * X.pow T pwr)) e
      = spec_f X mu pwr b theta T e := by
  have h1 : ∀ t : F, (0.5 : F) * theta / t = theta / (2 * t) := by
    intro t
    norm_num
    ring
  have h2 : (REF_TEMP : F) = 77 := by
    unfold REF_TEMP
    norm_num
  have h3 : ∀ x : F, (1.0 : F) + x * x = 1 + x ^ 2 := by
    intro x
    norm_num
    ring
  simp only [velo_factor, spec_f, spec_curve, spec_E_c, spec_v_sat, spec_mu_0, h1, h2, h3]

/-- Claim C8. In every sample of the built table the anisotropy coefficients
are `a = 0.5 v100 - 4 v110 + 4.5 v111`, `b = -2.5 v100 + 16 v110 - 13.5 v111`,
`c = 3 v100 - 12 v110 + 9 v111` of the directional speeds stored in that
sample, which are the temperature-corrected speeds of the same sample, for
the electron triple and for the hole triple alike. -/
theorem anisotropy_coefficients (X : Extern F) (p : temp_params F) (T : F)
    (raw : List (velocity_lookup F)) (i : Nat) (h : i < raw.length) :
    let v := (build_velo_table X p T raw).getD i velocity_lookup.zero
    let w := (temp_correct_h X p T (temp_correct_e X p T raw)).getD i velocity_lookup.zero
    (v.e100 = w.e100 ∧ v.e110 = w.e110 ∧ v.e111 = w.e111
      ∧ v.h100 = w.h100 ∧ v.h110 = w.h110 ∧ v.h111 = w.h111)
    ∧ v.ea = 0.5 * v.e100 - 4 * v.e110 + 4.5 * v.e111
    ∧ v.eb = -2.5 * v.e100 + 16 * v.e110 - 13.5 * v.e111
    ∧ v.ec = 3 * v.e100 - 12 * v.e110 + 9 * v.e111
    ∧ v.ha = 0.5 * v.h100 - 4 * v.h110 + 4.5 * v.h111
    ∧ v.hb = -2.5 * v.h100 + 16 * v.h110 - 13.5 * v.h111
    ∧ v.hc = 3 * v.h100 - 12 * v.h110 + 9 * v.h111 := by
  intro v w
  have hc := build_velo_table_clear X p T raw i h
  have e1 : v.e100 = w.e100 := (congrArg velocity_lookup.e100 hc :)
  have e2 : v.e110 = w.e110 := (congrArg velocity_lookup.e110 hc :)
  have e3 : v.e111 = w.e111 := (congrArg velocity_lookup.e111 hc :)
  have e4 : v.h100 = w.h100 := (congrArg velocity_lookup.h100 hc :)
  have e5 : v.h110 = w.h110 := (congrArg velocity_lookup.h110 hc :)
  have e6 : v.h111 = w.h111 := (congrArg velocity_lookup.h111 hc :)
  have a1 : v.ea = 0.5 * w.e100 - 4 * w.e110 + 4.5 * w.e111 := (congrArg velocity_lookup.ea hc :)
  have a2 : v.eb = -2.5 * w.e100 + 16 * w.e110 - 13.5 * w.e111 := (congrArg velocity_lookup.eb hc :)
  have a3 : v.ec = 3.0 * w.e100 - 12 * w.e110 + 9.0 * w.e111 := (congrArg velocity_lookup.ec hc :)
  have a4 : v.ha = 0.5 * w.h100 - 4 * w.h110 + 4.5 * w.h111 := (congrArg velocity_lookup.ha hc :)
  have a5 : v.hb = -2.5 * w.h100 + 16 * w.h110 - 13.5 * w.h111 := (congrArg velocity_lookup.hb hc :)
  have a6 : v.hc = 3.0 * w.h100 - 12 * w.h110 + 9.0 * w.h111 := (congrArg velocity_lookup.hc hc :)
  refine ⟨⟨e1, e2, e3, e4, e5, e6⟩, ?_, ?_, ?_, ?_, ?_, ?_⟩
  · rw [a1, e1, e2, e3]
  · rw [a2, e1, e2, e3]
  · rw [a3, e1, e2, e3]
    norm_num
  · rw [a4, e4, e5, e6]
  · rw [a5, e4, e5, e6]
  · rw [a6, e4, e5, e6]
    norm_num

/-- Witness for claim C8: row 1 of the table built at 100 K from the example
raw table. -/
theorem anisotropy_coefficients_witness :
    1 < exRaw.length
    ∧ ((build_velo_table exExtern temp_params.default 100 exRaw).getD 1 velocity_lookup.zero).ea
      = 0.5 * ((build_velo_table exExtern temp_params.default 100 exRaw).getD 1
                velocity_lookup.zero).e100
        - 4 * ((build_velo_table exExtern temp_params.default 100 exRaw).getD 1
                velocity_lookup.zero).e110
        + 4.5 * ((build_velo_table exExtern temp_params.default 100 exRaw).getD 1
                velocity_lookup.zero).e111 :=
  ⟨by decide!,
   (anisotropy_coefficients exExtern temp_params.default 100 exRaw 1 (by decide!)).2.1⟩

/-- Claim C10. For each carrier species and every sample of the raw table
with `e ≥ 1` the three directional speeds of the species in the built table
are the raw speeds times `f(e)`, the ratio of the saturation curves at the
crystal temperature and at 77 K with the parameters of that species; every
sample with `e < 1` keeps its raw speeds. -/
theorem temperature_correction (X : Extern F) (p : temp_params F) (T : F)
    (raw : List (velocity_lookup F)) (i : Nat) (h : i < raw.length) :
    let v := raw.getD i velocity_lookup.zero
    let v1 := (build_velo_table X p T raw).getD i velocity_lookup.zero
    v1.e = v.e
    ∧ (v.e < 1 →
        v1.e100 = v.e100 ∧ v1.e110 = v.e110 ∧ v1.e111 = v.e111
        ∧ v1.h100 = v.h100 ∧ v1.h110 = v.h110 ∧ v1.h111 = v.h111)
    ∧ (1 ≤ v.e →
        v1.e100 = v.e100 * spec_f X p.mue p.pwre p.be p.thetae T v.e
        ∧ v1.e110 = v.e110 * spec_f X p.mue p.pwre p.be p.thetae T v.e
        ∧ v1.e111 = v.e111 * spec_f X p.mue p.pwre p.be p.thetae T v.e
        ∧ v1.h100 = v.h100 * spec_f X p.muh p.pwrh p.bh p.thetah T v.e
        ∧ v1.h110 = v.h110 * spec_f X p.muh p.pwrh p.bh p.thetah T v.e
        ∧ v1.h111 = v.h111 * spec_f X p.muh p.pwrh p.bh p.thetah T v.e) := by
  intro v v1
  have hc := build_velo_table_clear X p T raw i h
  rw [temp_correct_getD X p T raw i h] at hc
  have e0 : v1.e = _ := (congrArg velocity_lookup.e hc :)
  have e1 : v1.e100 = _ := (congrArg velocity_lookup.e100 hc :)
  have e2 : v1.e110 = _ := (congrArg velocity_lookup.e110 hc :)
  have e3 : v1.e111 = _ := (congrArg velocity_lookup.e111 hc :)
  have e4 : v1.h100 = _ := (congrArg velocity_lookup.h100 hc :)
  have e5 : v1.h110 = _ := (congrArg velocity_lookup.h110 hc :)
  have e6 : v1.h111 = _ := (congrArg velocity_lookup.h111 hc :)
  rw [e0, e1, e2, e3, e4, e5, e6]
  simp only [clear_cumul, aniso_row]
  have hv : raw.getD i velocity_lookup.zero = v := rfl
  rw [hv]
  by_cases hlt : v.e < 1
  · have r1 : ∀ a b c d, temp_row_e X a b c d v = v := by
      intro a b c d
      simp only [temp_row_e, if_pos hlt]
    have r2 : ∀ a b c d, temp_row_h X a b c d v = v := by
      intro a b c d
      simp only [temp_row_h, if_pos hlt]
    simp only [r1, r2, true_and]
    exact ⟨fun _ => trivial, fun h1 => absurd hlt (not_lt.mpr h1)⟩
  · simp only [temp_row_e, temp_row_h, if_neg hlt, velo_factor_eq_spec, true_and]
    exact ⟨fun h1 => absurd h1 hlt, fun _ => trivial⟩

/-- Witness for claim C10: row 0 of the example raw table has field 0 and
keeps its speed, row 1 has field 10 and its electron speed is scaled. -/
theorem temperature_correction_witness :
    (0 < exRaw.length ∧ (exRaw.getD 0 velocity_lookup.zero).e < 1
      ∧ ((build_velo_table exExtern temp_params.default 100 exRaw).getD 0 velocity_lookup.zero).e100
          = (exRaw.getD 0 velocity_lookup.zero).e100)
    ∧ (1 < exRaw.length ∧ 1 ≤ (exRaw.getD 1 velocity_lookup.zero).e
      ∧ ((build_velo_table exExtern temp_params.default 100 exRaw).getD 1 velocity_lookup.zero).e100
          = (exRaw.getD 1 velocity_lookup.zero).e100
            * spec_f exExtern (temp_params.default : temp_params ℚ).mue
                (temp_params.default : temp_params ℚ).pwre (temp_params.default : temp_params ℚ).be
                (temp_params.default : temp_params ℚ).thetae 100
                (exRaw.getD 1 velocity_lookup.zero).e) :=
  ⟨⟨by decide!, by decide!,
    ((temperature_correction exExtern temp_params.default 100 exRaw 0 (by decide!)).2.1
      (by decide!)).1⟩,
   ⟨by decide!, by decide!,
    ((temperature_correction exExtern temp_params.default 100 exRaw 1 (by decide!)).2.2
      (by decide!)).1⟩⟩

/-- Reading a mapped list at any index, with the image of the default. -/
theorem getD_map_default {α β : Type} (f : α → β) (l : List α) (i : Nat) (d : α) :
    (l.map f).getD i (f d) = f (l.getD i d) := by
  induction l generalizing i with
  | nil => rfl
  | cons a t ih =>
    cases i with
    | zero => rfl
    | succ n =>
      simp only [List.map_cons, List.getD_cons_succ]
      exact ih n

/-- Closed form of the running trapezoidal quotients. -/
theorem trap_quotients_getD (x : List (F × F)) (e0 b0 s : F) (j : Nat) (hj : j < x.length) :
    (trap_quotients e0 b0 s x).getD j 0
      = (s + ∑ k in Finset.range (j + 1),
              ((((e0, b0) :: x).getD (k + 1) (0, 0)).1 - (((e0, b0) :: x).getD k (0, 0)).1)
                * ((((e0, b0) :: x).getD k (0, 0)).2 + (((e0, b0) :: x).getD (k + 1) (0, 0)).2) / 2)
        / (((e0, b0) :: x).getD (j + 1) (0, 0)).1 := by
  induction x generalizing e0 b0 s j with
  | nil => simp at hj
  | cons eb rest ih =>
    obtain ⟨e, b⟩ := eb
    cases j with
    | zero => simp [trap_quotients]
    | succ n =>
      have hn : n < rest.length := by simpa using hj
      simp only [trap_quotients, List.getD_cons_succ]
      rw [ih e b _ n hn, Finset.sum_range_succ' _ (n + 1)]
      simp only [List.getD_cons_succ, List.getD_cons_zero]
      congr 1
      ring

/-- Closed form of the cumulative column: the claim-worded coefficient. -/
theorem trap_column_getD (A : List (velocity_lookup F)) (b : velocity_lookup F → F)
    (hb : b velocity_lookup.zero = 0) (i : Nat) (h1 : 1 ≤ i) (h2 : i < A.length) :
    (trap_column A b).getD i 0 = trap_spec A b i := by
  cases A with
  | nil => simp at h2
  | cons v rest =>
    obtain ⟨j, rfl⟩ : ∃ j, i = j + 1 := ⟨i - 1, by omega⟩
    have hj : j < (rest.map (fun r : velocity_lookup F => (r.e, b r))).length := by
      simpa using h2
    have hpair : ∀ k, (((v.e, b v) :: rest.map (fun r : velocity_lookup F => (r.e, b r))).getD k
        ((0 : F), (0 : F)))
        = (((v :: rest).getD k velocity_lookup.zero).e, b ((v :: rest).getD k velocity_lookup.zero)) := by
      intro k
      have h0 : ((0 : F), (0 : F))
          = (fun r : velocity_lookup F => (r.e, b r)) velocity_lookup.zero := by
        show ((0 : F), (0 : F))
          = ((velocity_lookup.zero : velocity_lookup F).e, b velocity_lookup.zero)
        rw [hb]
        rfl
      rw [h0]
      exact getD_map_default (fun r : velocity_lookup F => (r.e, b r)) (v :: rest) k
        velocity_lookup.zero
    simp only [trap_column, List.getD_cons_succ, trap_spec]
    rw [trap_quotients_getD _ _ _ _ j hj]
    simp only [hpair, zero_add]
    congr 1
    symm
    rw [← Nat.Ico_succ_right, Finset.sum_Ico_eq_sum_range]
    apply Finset.sum_congr (by simp)
    intro k _
    have hk : 1 + k - 1 = k := by omega
    rw [hk, Nat.add_comm 1 k]

/-- The four cumulative columns written by the cumulative loop are running
trapezoidal quotients. -/
theorem cumul_loop_columns (l : List (velocity_lookup F)) (v0 : velocity_lookup F)
    (s1 s2 s3 s4 : F) :
    (cumul_loop v0 s1 s2 s3 s4 l).map velocity_lookup.ebp
        = trap_quotients v0.e v0.eb s1 (l.map (fun r => (r.e, r.eb)))
    ∧ (cumul_loop v0 s1 s2 s3 s4 l).map velocity_lookup.ecp
        = trap_quotients v0.e v0.ec s2 (l.map (fun r => (r.e, r.ec)))
    ∧ (cumul_loop v0 s1 s2 s3 s4 l).map velocity_lookup.hbp
        = trap_quotients v0.e v0.hb s3 (l.map (fun r => (r.e, r.hb)))
    ∧ (cumul_loop v0 s1 s2 s3 s4 l).map velocity_lookup.hcp
        = trap_quotients v0.e v0.hc s4 (l.map (fun r => (r.e, r.hc))) := by
  induction l generalizing v0 s1 s2 s3 s4 with
  | nil => exact ⟨rfl, rfl, rfl, rfl⟩
  | cons v t ih =>
    simp only [cumul_loop, List.map_cons, trap_quotients]
    obtain ⟨h1, h2, h3, h4⟩ := ih
      { v with ebp := (s1 + (v.e - v0.e) * (v0.eb + v.eb) / 2) / v.e
               ecp := (s2 + (v.e - v0.e) * (v0.ec + v.ec) / 2) / v.e
               hbp := (s3 + (v.e - v0.e) * (v0.hb + v.hb) / 2) / v.e
               hcp := (s4 + (v.e - v0.e) * (v0.hc + v.hc) / 2) / v.e }
      (s1 + (v.e - v0.e) * (v0.eb + v.eb) / 2) (s2 + (v.e - v0.e) * (v0.ec + v.ec) / 2)
      (s3 + (v.e - v0.e) * (v0.hb + v.hb) / 2) (s4 + (v.e - v0.e) * (v0.hc + v.hc) / 2)
    exact ⟨by rw [h1], by rw [h2], by rw [h3], by rw [h4]⟩

/-- The four cumulative columns of the cumulative stage. -/
theorem cumul_coeffs_columns (A : List (velocity_lookup F)) :
    (cumul_coeffs A).map velocity_lookup.ebp = trap_column A velocity_lookup.eb
    ∧ (cumul_coeffs A).map velocity_lookup.ecp = trap_column A velocity_lookup.ec
    ∧ (cumul_coeffs A).map velocity_lookup.hbp = trap_column A velocity_lookup.hb
    ∧ (cumul_coeffs A).map velocity_lookup.hcp = trap_column A velocity_lookup.hc := by
  cases A with
  | nil => exact ⟨rfl, rfl, rfl, rfl⟩
  | cons v rest =>
    have hz : (0.0 : F) = 0 := by norm_num
    simp only [cumul_coeffs, List.map_cons, trap_column, hz]
    obtain ⟨h1, h2, h3, h4⟩ := cumul_loop_columns rest
      { v with ebp := 0, ecp := 0, hbp := 0, hcp := 0 } 0 0 0 0
    exact ⟨by rw [h1], by rw [h2], by rw [h3], by rw [h4]⟩

/-- The claim-worded coefficient only depends on the columns `e` and `b`. -/
theorem trap_spec_congr (t A : List (velocity_lookup F)) (b : velocity_lookup F → F) (i : Nat)
    (he : ∀ k, (t.getD k velocity_lookup.zero).e = (A.getD k velocity_lookup.zero).e)
    (hb : ∀ k, b (t.getD k velocity_lookup.zero) = b (A.getD k velocity_lookup.zero)) :
    trap_spec t b i = trap_spec A b i := by
  simp only [trap_spec, he, hb]

/-- Claim C9. In the built table the cumulative coefficients of row 0 are
zero, and for every row `i ≥ 1` each of `ebp`, `ecp`, `hbp`, `hcp` is the sum
for `k = 1..i` of `(e[k] - e[k-1]) * (b[k-1] + b[k]) / 2` divided by `e[i]`,
with `b` the column `eb`, `ec`, `hb`, `hc` respectively. -/
theorem cumulative_coefficients (X : Extern F) (p : temp_params F) (T : F)
    (raw : List (velocity_lookup F)) (i : Nat)
    (h : i < (build_velo_table X p T raw).length) :
    let t := build_velo_table X p T raw
    (i = 0 →
      (t.getD 0 velocity_lookup.zero).ebp = 0 ∧ (t.getD 0 velocity_lookup.zero).ecp = 0
      ∧ (t.getD 0 velocity_lookup.zero).hbp = 0 ∧ (t.getD 0 velocity_lookup.zero).hcp = 0)
    ∧ (1 ≤ i →
      (t.getD i velocity_lookup.zero).ebp = trap_spec t velocity_lookup.eb i
      ∧ (t.getD i velocity_lookup.zero).ecp = trap_spec t velocity_lookup.ec i
      ∧ (t.getD i velocity_lookup.zero).hbp = trap_spec t velocity_lookup.hb i
      ∧ (t.getD i velocity_lookup.zero).hcp = trap_spec t velocity_lookup.hc i) := by
  intro t
  have ht : t = cumul_coeffs
      (aniso_coeffs (temp_correct_h X p T (temp_correct_e X p T raw))) := rfl
  generalize aniso_coeffs (temp_correct_h X p T (temp_correct_e X p T raw)) = A at ht
  have hlen : i < A.length := by
    have h0 : i < t.length := h
    rw [ht, cumul_coeffs_length] at h0
    exact h0
  obtain ⟨c1, c2, c3, c4⟩ := cumul_coeffs_columns A
  rw [← ht] at c1 c2 c3 c4
  have hclear : ∀ k, clear_cumul (t.getD k velocity_lookup.zero)
      = clear_cumul (A.getD k velocity_lookup.zero) := by
    intro k
    rw [ht]
    exact cumul_coeffs_clear A k
  have he : ∀ k, (t.getD k velocity_lookup.zero).e = (A.getD k velocity_lookup.zero).e :=
    fun k => (congrArg velocity_lookup.e (hclear k) :)
  have g1 : ∀ k, (t.getD k velocity_lookup.zero).ebp = (trap_column A velocity_lookup.eb).getD k 0 := by
    intro k
    rw [← c1]
    exact (getD_map_default velocity_lookup.ebp t k velocity_lookup.zero).symm
  have g2 : ∀ k, (t.getD k velocity_lookup.zero).ecp = (trap_column A velocity_lookup.ec).getD k 0 := by
    intro k
    rw [← c2]
    exact (getD_map_default velocity_lookup.ecp t k velocity_lookup.zero).symm
  have g3 : ∀ k, (t.getD k velocity_lookup.zero).hbp = (trap_column A velocity_lookup.hb).getD k 0 := by
    intro k
    rw [← c3]
    exact (getD_map_default velocity_lookup.hbp t k velocity_lookup.zero).symm
  have g4 : ∀ k, (t.getD k velocity_lookup.zero).hcp = (trap_column A velocity_lookup.hc).getD k 0 := by
    intro k
    rw [← c4]
    exact (getD_map_default velocity_lookup.hcp t k velocity_lookup.zero).symm
  constructor
  · intro _
    rw [g1, g2, g3, g4]
    cases A with
    | nil => simp at hlen
    | cons v rest => exact ⟨rfl, rfl, rfl, rfl⟩
  · intro h1
    rw [g1, g2, g3, g4]
    rw [trap_spec_congr t A velocity_lookup.eb i he
          (fun k => (congrArg velocity_lookup.eb (hclear k) :)),
        trap_spec_congr t A velocity_lookup.ec i he
          (fun k => (congrArg velocity_lookup.ec (hclear k) :)),
        trap_spec_congr t A velocity_lookup.hb i he
          (fun k => (congrArg velocity_lookup.hb (hclear k) :)),
        trap_spec_congr t A velocity_lookup.hc i he
          (fun k => (congrArg velocity_lookup.hc (hclear k) :))]
    exact ⟨trap_column_getD A velocity_lookup.eb rfl i h1 hlen,
      trap_column_getD A velocity_lookup.ec rfl i h1 hlen,
      trap_column_getD A velocity_lookup.hb rfl i h1 hlen,
      trap_column_getD A velocity_lookup.hc rfl i h1 hlen⟩

/-- Witness for claim C9: rows 0 and 2 of the table built at 100 K from the
example raw table; at 77 K the built table is the example table and the
coefficient `ebp` of row 2 is `(10 * 11 / 2 + 10 * 33 / 2) / 20 = 11`. -/
theorem cumulative_coefficients_witness :
    (0 < (build_velo_table exExtern temp_params.default 100 exRaw).length
      ∧ ((build_velo_table exExtern temp_params.default 100 exRaw).getD 0 velocity_lookup.zero).ebp
          = 0)
    ∧ (2 < (build_velo_table exExtern temp_params.default 100 exRaw).length
      ∧ ((build_velo_table exExtern temp_params.default 100 exRaw).getD 2 velocity_lookup.zero).ebp
          = trap_spec (build_velo_table exExtern temp_params.default 100 exRaw)
              velocity_lookup.eb 2)
    ∧ (build_velo_table exExtern temp_params.default 77 exRaw = exTable
      ∧ ((build_velo_table exExtern temp_params.default 77 exRaw).getD 2 velocity_lookup.zero).ebp
          = 11) :=
  ⟨⟨by decide!,
    ((cumulative_coefficients exExtern temp_params.default 100 exRaw 0 (by decide!)).1 rfl).1⟩,
   ⟨by decide!,
    ((cumulative_coefficients exExtern temp_params.default 100 exRaw 2 (by decide!)).2
      (by decide!)).1⟩,
   ⟨by decide!,
    (((cumulative_coefficients exExtern temp_params.default 77 exRaw 2 (by decide!)).2
      (by decide!)).1).trans (by decide!)⟩⟩

/-! ## Further lemmas -/

/-- Truncation of a value in `[n, n+1)` with `0 ≤ n`. -/
theorem float_to_int_of_floor (x : F) (n : Int) (h0 : 0 ≤ n) (h1 : (n : F) ≤ x)
    (h2 : x < (n : F) + 1) : float_to_int x = n := by
  have hx : (0 : F) ≤ x := le_trans (by exact_mod_cast h0) h1
  unfold float_to_int
  rw [if_pos hx]
  exact Int.floor_eq_iff.mpr ⟨h1, h2⟩

/-- Truncation of an integer value. -/
theorem float_to_int_intCast (n : Int) : float_to_int (n : F) = n := by
  unfold float_to_int
  split_ifs
  · exact Int.floor_intCast n
  · exact Int.ceil_intCast n

/-- Claim C12. For the field direction `u = (1, 0, 0)` the velocity written
by the table branch of `drift_velocity` is `(sign * (a + b + c), 0, 0)`, with
`a, b, c` the interpolated coefficients and `sign` the charge sign, whatever
the cumulative coefficients of the table are. -/
theorem empirical_velocity_along_axis (q abse : F) (setup : MJD_Siggen_Setup F) :
    let i := bracket_index setup abse
    let s1 := v_lookup_at setup i
    let s2 := v_lookup_at setup (i + 1)
    let f := (abse - s1.e) / (s2.e - s1.e)
    let a := if q > 0 then lerp f s1.ha s2.ha else lerp f s1.ea s2.ea
    let b := if q > 0 then lerp f s1.hb s2.hb else lerp f s1.eb s2.eb
    let c := if q > 0 then lerp f s1.hc s2.hc else lerp f s1.ec s2.ec
    let sign : F := if q < 0 then -1 else 1
    (drift_velocity_empirical q abse ⟨1, 0, 0⟩ setup).1 = ⟨sign * (a + b + c), 0, 0⟩ := by
  intro i s1 s2 f a b c sign
  rw [drift_velocity_empirical_eq]
  unfold empirical_spec
  simp only [point.mk.injEq]
  refine ⟨?_, ?_, ?_⟩
  · ring
  · ring
  · ring

/-- Claim C13. For a point on the grid node `(R, Z)` for which the locator
returns code 0 with index `(R, Z)`, and impurity setpoints on the tabulated
point `(G, I)`, both weight matrices are `{{1,0},{0,0}}` and `efield` returns
the stored samples `efld_r[R,Z,G,I]` and `efld_z[R,Z,G,I]`. -/
theorem efield_at_grid_node (X : Extern F) (pt : cyl_pt F) (ipt0 : cyl_int_pt)
    (setup : MJD_Siggen_Setup F) (m : LocatorMemo F) (R Z G I : Int)
    (hr : setup.rstep ≠ 0) (hz : setup.zstep ≠ 0)
    (hg : setup.imp_grad_step ≠ 0) (ha : setup.avg_imp_step ≠ 0)
    (hpr : pt.r = setup.rmin + R * setup.rstep) (hpz : pt.z = setup.zmin + Z * setup.zstep)
    (hG : setup.imp_grad = setup.min_imp_grad + G * setup.imp_grad_step)
    (hI : setup.avg_imp = setup.min_avg_imp + I * setup.avg_imp_step)
    (hloc : (nearest_field_grid_index X pt ipt0 setup m).1 = 0)
    (hidx : (nearest_field_grid_index X pt ipt0 setup m).2.1.r = R
      ∧ (nearest_field_grid_index X pt ipt0 setup m).2.1.z = Z) :
    grid_weights pt (nearest_field_grid_index X pt ipt0 setup m).2.1 setup = ![![1, 0], ![0, 0]]
    ∧ imp_weights setup = ![![1, 0], ![0, 0]]
    ∧ efield pt (nearest_field_grid_index X pt ipt0 setup m).2.1 setup
      = ⟨get_efld_r_by_index R Z G I setup, pt.phi, get_efld_z_by_index R Z G I setup⟩ := by
  obtain ⟨hR, hZ⟩ := hidx
  generalize (nearest_field_grid_index X pt ipt0 setup m).2.1 = ipt at hR hZ
  have fr : (pt.r - setup.rmin) / setup.rstep = (R : F) := by
    rw [hpr]
    field_simp
  have fz : (pt.z - setup.zmin) / setup.zstep = (Z : F) := by
    rw [hpz]
    field_simp
  have fg : (setup.imp_grad - setup.min_imp_grad) / setup.imp_grad_step = (G : F) := by
    rw [hG]
    field_simp
  have fi : (setup.avg_imp - setup.min_avg_imp) / setup.avg_imp_step = (I : F) := by
    rw [hI]
    field_simp
  have w1 : grid_weights pt ipt setup = ![![1, 0], ![0, 0]] := by
    funext i j
    simp only [grid_weights, fr, fz, hR, hZ, sub_self]
    fin_cases i <;> fin_cases j <;> norm_num
  have w2 : imp_weights setup = ![![1, 0], ![0, 0]] := by
    funext i j
    simp only [imp_weights, fg, fi, float_to_int_intCast, sub_self]
    fin_cases i <;> fin_cases j <;> norm_num
  refine ⟨w1, w2, ?_⟩
  simp only [efield, get_efld_grad, w1, w2, List.foldl, fg, fi, float_to_int_intCast, hR, hZ]
  simp


/-- Witness for claim C13: the node `(1, 1)` of the example grid with the
setpoints on the tabulated point `(1, 0)`; the flat offset of the sample is
`1 * 12 + 1 * 4 + 1 * 2 + 0 = 18`. -/
theorem efield_at_grid_node_witness :
    (exSetupNode.rstep ≠ 0 ∧ exSetupNode.zstep ≠ 0
      ∧ exSetupNode.imp_grad_step ≠ 0 ∧ exSetupNode.avg_imp_step ≠ 0
      ∧ (1 : ℚ) = exSetupNode.rmin + ((1 : Int) : ℚ) * exSetupNode.rstep
      ∧ (1 : ℚ) = exSetupNode.zmin + ((1 : Int) : ℚ) * exSetupNode.zstep
      ∧ exSetupNode.imp_grad = exSetupNode.min_imp_grad + ((1 : Int) : ℚ) * exSetupNode.imp_grad_step
      ∧ exSetupNode.avg_imp = exSetupNode.min_avg_imp + ((0 : Int) : ℚ) * exSetupNode.avg_imp_step
      ∧ (nearest_field_grid_index exExtern ⟨1, 0, 1⟩ ⟨0, 0, 0⟩ exSetupNode LocatorMemo.init).1 = 0
      ∧ (nearest_field_grid_index exExtern ⟨1, 0, 1⟩ ⟨0, 0, 0⟩ exSetupNode LocatorMemo.init).2.1
          = ⟨1, 0, 1⟩)
    ∧ efield ⟨1, 0, 1⟩
        (nearest_field_grid_index exExtern ⟨1, 0, 1⟩ ⟨0, 0, 0⟩ exSetupNode LocatorMemo.init).2.1
        exSetupNode
      = ⟨19, 0, 37⟩ :=
  ⟨by decide!,
   (efield_at_grid_node exExtern ⟨1, 0, 1⟩ ⟨0, 0, 0⟩ exSetupNode LocatorMemo.init 1 1 1 0
      (by decide!) (by decide!) (by decide!) (by decide!) (by decide!) (by decide!)
      (by decide!) (by decide!) (by decide!) (by decide!)).2.2.trans (by decide!)⟩

/-- Claim C14. After a call of `nearest_field_grid_index` with the point `p`, a
call with a point of the same `(r, z)` returns the memoised code and the
memoised index and leaves the statics as they are, whatever setup and
crystal predicate it is given; the code is that of the first call, and so is
the index whenever the first call found a cell. -/
theorem locator_memo_hit (X X1 : Extern F) (p p1 : cyl_pt F) (ipt ipt1 : cyl_int_pt)
    (setup setup1 : MJD_Siggen_Setup F) (m : LocatorMemo F)
    (hr : p1.r = p.r) (hz : p1.z = p.z) :
    let first := nearest_field_grid_index X p ipt setup m
    let second := nearest_field_grid_index X1 p1 ipt1 setup1 first.2.2
    second.1 = first.2.2.last_ret
    ∧ second.2.1 = first.2.2.last_ipt
    ∧ second.2.2 = first.2.2
    ∧ second.1 = first.1
    ∧ (0 ≤ first.1 → second.2.1 = first.2.1) := by
  intro first second
  have key : first.2.2.last_ret ≠ -99 ∧ p.r = first.2.2.last_pt.r ∧ p.z = first.2.2.last_pt.z
      ∧ first.1 = first.2.2.last_ret ∧ (0 ≤ first.1 → first.2.1 = first.2.2.last_ipt) := by
    simp only [first]
    unfold nearest_field_grid_index
    by_cases hhit : m.last_ret ≠ -99 ∧ p.r = m.last_pt.r ∧ p.z = m.last_pt.z
    · rw [if_pos hhit]
      exact ⟨hhit.1, hhit.2.1, hhit.2.2, rfl, fun _ => rfl⟩
    · rw [if_neg hhit]
      by_cases hout : X.outside_detector_cyl p setup = true
      · simp only [hout, if_true]
        norm_num
      · simp only [hout, Bool.false_eq_true, if_false]
        cases hfind : shift_order.find? (fun c => efield_exists X (shifted_pt p setup c) setup) with
        | none =>
          refine ⟨by norm_num, rfl, rfl, rfl, fun h0 => absurd h0 (by norm_num)⟩
        | some c =>
          refine ⟨?_, rfl, rfl, rfl, fun _ => rfl⟩
          by_cases hc : c.2 = 0 ∧ c.1 = 0
          · simp [hc]
          · simp [hc]
  obtain ⟨k1, k2, k3, k4, k5⟩ := key
  have hhit2 : first.2.2.last_ret ≠ -99 ∧ p1.r = first.2.2.last_pt.r
      ∧ p1.z = first.2.2.last_pt.z := ⟨k1, hr.trans k2, hz.trans k3⟩
  have hsecond : second = (first.2.2.last_ret, first.2.2.last_ipt, first.2.2) := by
    simp only [second]
    unfold nearest_field_grid_index
    rw [if_pos hhit2]
  rw [hsecond]
  exact ⟨rfl, rfl, rfl, k4.symm, fun h0 => (k5 h0).symm⟩

/-- Witness for claim C14: the point `(r, z) = (2, 1)` is located in the
example detector (code 1, index `(1, 1)`), then asked again with another
`phi`, another caller index and a setup without any field. -/
theorem locator_memo_hit_witness :
    ((2 : ℚ) = 2 ∧ (1 : ℚ) = 1)
    ∧ (nearest_field_grid_index exExtern ⟨2, 0, 1⟩ ⟨7, 7, 7⟩ (exSetup 0) LocatorMemo.init).1 = 1
    ∧ (nearest_field_grid_index exExtern ⟨2, 5, 1⟩ ⟨9, 9, 9⟩
        { exSetup 0 with efld_z := fun _ => 0 }
        (nearest_field_grid_index exExtern ⟨2, 0, 1⟩ ⟨7, 7, 7⟩ (exSetup 0) LocatorMemo.init).2.2).1
      = (nearest_field_grid_index exExtern ⟨2, 0, 1⟩ ⟨7, 7, 7⟩ (exSetup 0) LocatorMemo.init).1
    ∧ (nearest_field_grid_index exExtern ⟨2, 5, 1⟩ ⟨9, 9, 9⟩
        { exSetup 0 with efld_z := fun _ => 0 } LocatorMemo.init).1 = -2 :=
  ⟨⟨rfl, rfl⟩, by decide!,
   (locator_memo_hit exExtern exExtern ⟨2, 0, 1⟩ ⟨2, 5, 1⟩ ⟨7, 7, 7⟩ ⟨9, 9, 9⟩ (exSetup 0)
      { exSetup 0 with efld_z := fun _ => 0 } LocatorMemo.init rfl rfl).2.2.2.1,
   by decide!⟩

/-- The rotation of `drift_velocity` maps the zero local vector to zero. -/
theorem drift_velocity_analytic_zero (X : Extern F) (abse : F) (cart_en : point F)
    (setup : MJD_Siggen_Setup F)
    (h : (find_hole_velo X abse (X.acos cart_en.z) (X.atan2 cart_en.y cart_en.x) setup).2
      = ⟨0, 0, 0⟩) :
    drift_velocity_analytic X abse cart_en setup = ⟨0, 0, 0⟩ := by
  unfold drift_velocity_analytic
  simp only [h, mul_zero, add_zero, sub_zero]

/-- Claim C17. Whenever `v_100` evaluates to 0, `find_hole_velo` returns the
local vector `(0, 0, 0)` from its first branch (the quotient `v_111 / v_100`
is not formed); `h_100_mu0 = 0` makes `v_100` zero at every field; and
`drift_velocity` for `q = 1` with `velocity_type = 1` at a located point
with zero `v_100` writes `(0, 0, 0)` and returns 0. -/
theorem hole_model_zero_speed (X : Extern F) (pt : point F) (velo : vector F)
    (setup : MJD_Siggen_Setup F) (m : LocatorMemo F) (ipt0 : cyl_int_pt) :
    (∀ field theta phi : F,
      drift_velo_model X field setup.v_params.h_100_mu0 setup.v_params.h_100_beta
          setup.v_params.h_100_e0 = 0 →
      find_hole_velo X field theta phi setup = (0, ⟨0, 0, 0⟩))
    ∧ (setup.v_params.h_100_mu0 = 0 → ∀ field : F,
      drift_velo_model X field setup.v_params.h_100_mu0 setup.v_params.h_100_beta
          setup.v_params.h_100_e0 = 0)
    ∧ (0 ≤ (nearest_field_grid_index X (drift_cyl X pt) ipt0 setup m).1 →
      setup.velocity_type = 1 →
      drift_velo_model X
          (drift_field X pt (nearest_field_grid_index X (drift_cyl X pt) ipt0 setup m).2.1 setup).1
          setup.v_params.h_100_mu0 setup.v_params.h_100_beta setup.v_params.h_100_e0 = 0 →
      (drift_velocity X pt 1 velo setup m ipt0).1 = 0
      ∧ (drift_velocity X pt 1 velo setup m ipt0).2.1 = ⟨0, 0, 0⟩) := by
  have h1 : ∀ field theta phi : F,
      drift_velo_model X field setup.v_params.h_100_mu0 setup.v_params.h_100_beta
          setup.v_params.h_100_e0 = 0 →
      find_hole_velo X field theta phi setup = (0, ⟨0, 0, 0⟩) := by
    intro field theta phi hv
    unfold find_hole_velo
    simp only [hv, if_true]
  refine ⟨h1, ?_, ?_⟩
  · intro hmu field
    unfold drift_velo_model
    simp only [hmu, zero_mul, zero_div]
  · intro hloc hvt hv
    unfold drift_velocity
    simp only [if_neg (not_lt.mpr hloc), hvt, and_self, if_true, true_and]
    exact drift_velocity_analytic_zero X _ _ setup (by rw [h1 _ _ _ hv])

/-- Witness for claim C17: the example detector has `h_100_mu0 = 0`; a unit
hole at the located point `(0, 0, 1)` gets the velocity `(0, 0, 0)`. -/
theorem hole_model_zero_speed_witness :
    ((exSetup 1).v_params.h_100_mu0 = 0
      ∧ 0 ≤ (nearest_field_grid_index exExtern (drift_cyl exExtern ⟨0, 0, 1⟩) ⟨0, 0, 0⟩
              (exSetup 1) LocatorMemo.init).1
      ∧ (exSetup 1).velocity_type = 1)
    ∧ (drift_velocity exExtern ⟨0, 0, 1⟩ 1 ⟨9, 9, 9⟩ (exSetup 1) LocatorMemo.init ⟨0, 0, 0⟩).1 = 0
    ∧ (drift_velocity exExtern ⟨0, 0, 1⟩ 1 ⟨9, 9, 9⟩ (exSetup 1) LocatorMemo.init ⟨0, 0, 0⟩).2.1
        = ⟨0, 0, 0⟩ :=
  ⟨by decide!,
   (hole_model_zero_speed exExtern ⟨0, 0, 1⟩ ⟨9, 9, 9⟩ (exSetup 1) LocatorMemo.init
      ⟨0, 0, 0⟩).2.2 (by decide!) (by decide!)
     ((hole_model_zero_speed exExtern ⟨0, 0, 1⟩ ⟨9, 9, 9⟩ (exSetup 1) LocatorMemo.init
        ⟨0, 0, 0⟩).2.1 (by decide!) _)⟩

/-- The return code of `drift_velocity` is -1 or 0, never 1. -/
theorem drift_velocity_code (X : Extern F) (pt : point F) (q : F) (velo : vector F)
    (setup : MJD_Siggen_Setup F) (m : LocatorMemo F) (ipt0 : cyl_int_pt) :
    (drift_velocity X pt q velo setup m ipt0).1 = -1
    ∨ (drift_velocity X pt q velo setup m ipt0).1 = 0 := by
  unfold drift_velocity
  by_cases h : (nearest_field_grid_index X (drift_cyl X pt) ipt0 setup m).1 < 0
  · simp only [if_pos h, true_or]
  · by_cases hq : q = 1 ∧ setup.velocity_type = 1
    · simp only [if_neg h, if_pos hq, or_true]
    · simp only [if_neg h, if_neg hq, or_true]

/-- Claim C19, evaluated: for the example point `(2, 0, 1)` the locator
returns 1 (extrapolation was necessary), and `drift_velocity` returns 0, not
the 1 that its header comment announces. -/
theorem drift_velocity_extrapolation_code :
    (nearest_field_grid_index exExtern (drift_cyl exExtern ⟨2, 0, 1⟩) ⟨0, 0, 0⟩ (exSetup 0)
        LocatorMemo.init).1 = 1
    ∧ (drift_velocity exExtern ⟨2, 0, 1⟩ (-1) ⟨9, 9, 9⟩ (exSetup 0) LocatorMemo.init ⟨0, 0, 0⟩).1 = 0
    ∧ (drift_velocity exExtern ⟨2, 0, 1⟩ (-1) ⟨9, 9, 9⟩ (exSetup 0) LocatorMemo.init ⟨0, 0, 0⟩).1
        ≠ 1 := by
  decide!

/-- The offset read by `get_wpot_by_index` is `row * (zlen + 1) + col`. -/
theorem get_wpot_by_index_offset (row col : Int) (setup : MJD_Siggen_Setup F) :
    get_wpot_by_index row col setup = setup.wpot (row * setup.zlen + col + row) := by
  have h : row * (setup.zlen + 1) + col = row * setup.zlen + col + row := by ring
  show setup.wpot (row * (setup.zlen + 1) + col) = _
  rw [h]

/-- Claim C20, evaluated: with `zlen = 3` and a single gradient and impurity
table, the field accessor reads the node `(1, 0)` at the offset
`1 * zlen + 0 = 3`, but `get_wpot_by_index` reads it at the offset 4. -/
theorem get_wpot_by_index_stride :
    exSetupFlat.zlen = 3 ∧ exSetupFlat.num_grads = 1 ∧ exSetupFlat.num_imps = 1
    ∧ get_efld_r_by_index 1 0 0 0 exSetupFlat = exSetupFlat.efld_r (1 * exSetupFlat.zlen + 0)
    ∧ get_efld_z_by_index 1 0 0 0 exSetupFlat = exSetupFlat.efld_z (1 * exSetupFlat.zlen + 0)
    ∧ get_wpot_by_index 1 0 exSetupFlat = exSetupFlat.wpot 4
    ∧ get_wpot_by_index 1 0 exSetupFlat ≠ exSetupFlat.wpot (1 * exSetupFlat.zlen + 0) := by
  decide!

/-! ## Lemmas on the reading of the table file -/

/-- Skipping lines never adds lines. -/
theorem fgets_skip_rest_le (pred : Char → Bool) (rest : List (velo_line F)) (line : velo_line F)
    (c : Bool) : (fgets_skip pred rest line c).rest.length ≤ rest.length := by
  induction rest generalizing line c with
  | nil =>
    unfold fgets_skip
    split_ifs <;> simp
  | cons l t ih =>
    unfold fgets_skip
    split_ifs
    · exact le_trans (ih l true) (by simp)
    · simp

/-- A skip that starts on a line to skip and ends with `c` non-NULL has read
at least one line. -/
theorem fgets_skip_rest_lt (pred : Char → Bool) (rest : List (velo_line F)) (line : velo_line F)
    (c : Bool) (hp : pred line.first = true) (hc : (fgets_skip pred rest line c).c = true) :
    (fgets_skip pred rest line c).rest.length < rest.length := by
  cases rest with
  | nil =>
    cases c <;> simp [fgets_skip, hp] at hc
  | cons l t =>
    cases c with
    | false => simp [fgets_skip, hp] at hc
    | true =>
      have hstep : fgets_skip pred (l :: t) line true = fgets_skip pred t l true := by
        simp [fgets_skip, hp]
      rw [hstep]
      exact lt_of_le_of_lt (fgets_skip_rest_le pred t l true) (by simp)

/-- Enough fuel: with more fuel than lines left, one more unit of fuel does
not change the result of the data loop. -/
theorem data_loop_fuel (fuel : Nat) (buf : Nat → velocity_lookup F) (n : Nat) (rd : velo_reader F)
    (h : rd.rest.length < fuel) : data_loop (fuel + 1) buf n rd = data_loop fuel buf n rd := by
  induction fuel generalizing buf n rd with
  | zero => omega
  | succ k ih =>
    rw [data_loop, data_loop]
    by_cases h7 : sscanf_count 7 rd.line.fields ≠ 7
    · simp only [if_pos h7]
    · simp only [if_neg h7]
      by_cases hc : (fgets_skip is_comment_or_blank rd.rest { rd.line with first := '#' } rd.c).c
          = false
      · simp only [if_pos hc]
      · simp only [if_neg hc]
        split_ifs
        · rfl
        · apply ih
          have hp : is_comment_or_blank ({ rd.line with first := '#' } : velo_line F).first
              = true := by
            show is_comment_or_blank '#' = true
            decide
          have hlt := fgets_skip_rest_lt is_comment_or_blank rd.rest { rd.line with first := '#' }
            rd.c hp (by simpa using hc)
          exact lt_of_lt_of_le hlt (Nat.lt_succ_iff.mp h)

/-- Enough fuel for the parameter loop. -/
theorem param_loop_fuel (fuel : Nat) (p : temp_params F) (rd : velo_reader F)
    (h : rd.rest.length < fuel) : param_loop (fuel + 1) p rd = param_loop fuel p rd := by
  induction fuel generalizing p rd with
  | zero => omega
  | succ k ih =>
    rw [param_loop, param_loop]
    by_cases he : rd.line.first = 'e' ∨ rd.line.first = 'h'
    · simp only [if_pos he]
      by_cases h4 : sscanf_count 4 rd.line.params ≠ 4
      · simp only [if_pos h4]
      · simp only [if_neg h4]
        by_cases hc : (fgets_skip is_comment rd.rest { rd.line with first := '#' } rd.c).c = false
        · simp only [if_pos hc]
        · simp only [if_neg hc]
          apply ih
          have hp : is_comment ({ rd.line with first := '#' } : velo_line F).first = true := by
            show is_comment '#' = true
            decide
          have hlt := fgets_skip_rest_lt is_comment rd.rest { rd.line with first := '#' }
            rd.c hp (by simpa using hc)
          exact lt_of_lt_of_le hlt (Nat.lt_succ_iff.mp h)
    · simp only [if_neg he]

/-- A successful `setup_velo` stores the table built from the rows and the
parameters read from the file, at the temperature of the setup, and leaves
the temperature as it is. -/
theorem setup_velo_success (X : Extern F) (lines : List (velo_line F))
    (buf : Nat → velocity_lookup F) (setup : MJD_Siggen_Setup F)
    (h : (setup_velo X (some lines) buf setup).1 = 0) :
    (setup_velo X (some lines) buf setup).2.1.v_lookup
        = build_velo_table X (velo_params lines buf) setup.xtal_temp (velo_rows lines buf)
    ∧ (setup_velo X (some lines) buf setup).2.1.v_lookup_len = (velo_rows lines buf).length := by
  unfold setup_velo at h ⊢
  simp only at h ⊢
  split_ifs at h ⊢ with h1 h2
  · simp at h
  · simp at h
  · simp [velo_rows, velo_params]

/-- The function `setup_velo` never changes `xtal_temp`. -/
theorem setup_velo_xtal_temp (X : Extern F) (file : Option (List (velo_line F)))
    (buf : Nat → velocity_lookup F) (setup : MJD_Siggen_Setup F) :
    (setup_velo X file buf setup).2.1.xtal_temp = setup.xtal_temp := by
  unfold setup_velo
  cases file with
  | none => rfl
  | some lines =>
    simp only
    split_ifs <;> rfl

/-- A file whose only line is a usable data row is rejected. -/
theorem setup_velo_one_row (X : Extern F) (l : velo_line F) (buf : Nat → velocity_lookup F)
    (setup : MJD_Siggen_Setup F) (h7 : sscanf_count 7 l.fields = 7)
    (hl : is_comment l.first = false) :
    (setup_velo X (some [l]) buf setup).1 = -1 := by
  have hl2 := hl
  simp only [is_comment, Bool.or_eq_false_iff, decide_eq_false_iff_not] at hl2
  simp [setup_velo, fgets_skip, velo_parse, data_loop, is_comment, is_comment_or_blank, h7,
    hl2.1, hl2.2]

/-- Claim C15, evaluated: the example file holds one usable 7-field data row
and nothing else, and `setup_velo` returns -1 on it; the three-row example
file is accepted. -/
theorem setup_velo_rejects_single_row :
    exFileOneRow.length = 1
    ∧ (∀ l ∈ exFileOneRow, sscanf_count 7 l.fields = 7 ∧ is_comment_or_blank l.first = false)
    ∧ (setup_velo exExtern (some exFileOneRow) exBuf (exSetup 0)).1 = -1
    ∧ (setup_velo exExtern (some exFile) exBuf (exSetup 0)).1 = 0 := by
  decide!

/-- Claim C16. For `temp < 40` or `temp > 120`, `set_temp` leaves the setup (and
the static buffer) unchanged. For `40 ≤ temp ≤ 120` it sets `xtal_temp` to
`temp` and runs `setup_velo` on the setup so changed; when that succeeds the
velocity table is the one built at the temperature `temp` from the rows and
the parameters read from the file. -/
theorem set_temp_result (X : Extern F) (file : Option (List (velo_line F)))
    (buf : Nat → velocity_lookup F) (temp : F) (setup : MJD_Siggen_Setup F) :
    (temp < 40 ∨ 120 < temp → set_temp X file buf temp setup = (setup, buf))
    ∧ (40 ≤ temp ∧ temp ≤ 120 →
        (set_temp X file buf temp setup).1.xtal_temp = temp
        ∧ set_temp X file buf temp setup
            = (setup_velo X file buf { setup with xtal_temp := temp }).2
        ∧ ∀ lines, file = some lines →
            (setup_velo X file buf { setup with xtal_temp := temp }).1 = 0 →
            (set_temp X file buf temp setup).1.v_lookup
              = build_velo_table X (velo_params lines buf) temp (velo_rows lines buf)) := by
  have hmin : (MIN_TEMP : F) = 40 := by
    unfold MIN_TEMP
    norm_num
  have hmax : (MAX_TEMP : F) = 120 := by
    unfold MAX_TEMP
    norm_num
  constructor
  · intro h
    unfold set_temp
    rw [hmin, hmax, if_pos h]
  · intro h
    have hin : ¬ (temp < 40 ∨ temp > 120) := by
      intro h1
      rcases h1 with h1 | h1
      · exact absurd h.1 (not_le.mpr h1)
      · exact absurd h.2 (not_le.mpr h1)
    have hset : set_temp X file buf temp setup
        = (setup_velo X file buf { setup with xtal_temp := temp }).2 := by
      unfold set_temp
      rw [hmin, hmax, if_neg hin]
    refine ⟨?_, hset, ?_⟩
    · rw [hset]
      exact setup_velo_xtal_temp X file buf { setup with xtal_temp := temp }
    · intro lines hfile hok
      rw [hset]
      subst hfile
      exact (setup_velo_success X lines buf { setup with xtal_temp := temp } hok).1

/-- Witness for claim C16: 130 K is refused and the example setup stays at
77 K with its table; 120 K is accepted and the table is rebuilt from the
example file at 120 K. -/
theorem set_temp_result_witness :
    (((120 : ℚ) < 130)
      ∧ (set_temp exExtern (some exFile) exBuf 130 (exSetup 0)).1.xtal_temp = 77
      ∧ (set_temp exExtern (some exFile) exBuf 130 (exSetup 0)).1.v_lookup = exTable)
    ∧ (((40 : ℚ) ≤ 120 ∧ (120 : ℚ) ≤ 120)
      ∧ (setup_velo exExtern (some exFile) exBuf { exSetup 0 with xtal_temp := 120 }).1 = 0
      ∧ (set_temp exExtern (some exFile) exBuf 120 (exSetup 0)).1.xtal_temp = 120
      ∧ (set_temp exExtern (some exFile) exBuf 120 (exSetup 0)).1.v_lookup
          = build_velo_table exExtern (velo_params exFile exBuf) 120 (velo_rows exFile exBuf)
      ∧ velo_rows exFile exBuf = exRaw) :=
  ⟨⟨by decide!,
    (congrArg (fun r => r.1.xtal_temp)
      ((set_temp_result exExtern (some exFile) exBuf 130 (exSetup 0)).1 (Or.inr (by decide!)))).trans
      (by decide!),
    (congrArg (fun r => r.1.v_lookup)
      ((set_temp_result exExtern (some exFile) exBuf 130 (exSetup 0)).1 (Or.inr (by decide!)))).trans
      (by decide!)⟩,
   ⟨by decide!, by decide!,
    ((set_temp_result exExtern (some exFile) exBuf 120 (exSetup 0)).2 (by decide!)).1,
    ((set_temp_result exExtern (some exFile) exBuf 120 (exSetup 0)).2 (by decide!)).2.2
      exFile rfl (by decide!),
    by decide!⟩⟩

/-! ## The locator at the radial edge of the table -/

/-- A point whose truncated radial index is `rlen - 1` or more has no cell. -/
theorem efield_exists_false_of_index (X : Extern F) (pt : cyl_pt F) (setup : MJD_Siggen_Setup F)
    (h : float_to_int ((pt.r - setup.rmin) / setup.rstep) + 1 ≥ setup.rlen) :
    efield_exists X pt setup = false := by
  unfold efield_exists
  by_cases ho : X.outside_detector_cyl pt setup = true
  · simp only [ho, if_true]
  · simp only [ho, Bool.false_eq_true, if_false]
    rw [if_pos (Or.inr (Or.inl h))]

/-- The entries of the array `d` are the integers 0, -1, 1. -/
theorem shift_d_int (k : Nat) : ∃ d : Int, -1 ≤ d ∧ (shift_d k : F) = (d : F) := by
  match k with
  | 0 => exact ⟨0, by norm_num, by norm_num [shift_d]⟩
  | 1 => exact ⟨-1, by norm_num, by norm_num [shift_d]⟩
  | n + 2 =>
    refine ⟨1, by norm_num, ?_⟩
    have h : (shift_d (n + 2) : F) = 1.0 := rfl
    rw [h]
    norm_num

/-- The candidate for the loop counters `(0, 0)` is the point itself. -/
theorem shifted_pt_zero (pt : cyl_pt F) (setup : MJD_Siggen_Setup F) :
    shifted_pt pt setup (0, 0) = ⟨pt.r, 0, pt.z⟩ := by
  simp only [shifted_pt, shift_d]
  norm_num

/-- The candidate for the loop counters `(dz, dr) = (0, 1)` is the point one
step inward in `r`. -/
theorem shifted_pt_inward (pt : cyl_pt F) (setup : MJD_Siggen_Setup F) :
    shifted_pt pt setup (0, 1) = ⟨pt.r - setup.rstep, 0, pt.z⟩ := by
  simp only [shifted_pt, shift_d]
  norm_num
  ring

/-- Claim C18, as stated, fails: in the example detector (nodes at
`r = 0, 1, 2`, unit step, crystal radius 3, field everywhere) the point
`r = 3`, exactly one step beyond the last node, lies inside the crystal,
the cell next to the edge at its height holds field, and the locator
returns -2 (Outside), not 1. -/
theorem locator_one_step_beyond_is_outside :
    (3 : ℚ) = (exSetup 0).rmin + (((exSetup 0).rlen - 1 : Int) : ℚ) * (exSetup 0).rstep
                + (exSetup 0).rstep
    ∧ exExtern.outside_detector_cyl ⟨3, 0, 1⟩ (exSetup 0) = false
    ∧ efield_exists exExtern ⟨1, 0, 1⟩ (exSetup 0) = true
    ∧ (nearest_field_grid_index exExtern ⟨3, 0, 1⟩ ⟨0, 0, 0⟩ (exSetup 0) LocatorMemo.init).1 = -2
    ∧ (nearest_field_grid_index exExtern ⟨3, 0, 1⟩ ⟨0, 0, 0⟩ (exSetup 0) LocatorMemo.init).1 ≠ 1 := by
  decide!

/-- Claim C18, amended. On a memo miss, for a positive radial step and at
least two radial nodes, a point inside the crystal whose radial coordinate
lies on the last tabulated node or less than one step beyond it, and for
which the cell one step inward holds field, gets the code 1 (Extrapolated)
and the radial index `rlen - 2`; a point inside the crystal exactly one step
beyond the last node gets the code -2 (Outside). -/
theorem locator_radial_edge (X : Extern F) (pt : cyl_pt F) (ipt : cyl_int_pt)
    (setup : MJD_Siggen_Setup F) (m : LocatorMemo F)
    (hmiss : ¬ (m.last_ret ≠ -99 ∧ pt.r = m.last_pt.r ∧ pt.z = m.last_pt.z))
    (hstep : 0 < setup.rstep) (hrlen : 2 ≤ setup.rlen)
    (hin : X.outside_detector_cyl pt setup = false) :
    (setup.rmin + ((setup.rlen - 1 : Int) : F) * setup.rstep ≤ pt.r →
      pt.r < setup.rmin + ((setup.rlen - 1 : Int) : F) * setup.rstep + setup.rstep →
      efield_exists X ⟨pt.r - setup.rstep, 0, pt.z⟩ setup = true →
      (nearest_field_grid_index X pt ipt setup m).1 = 1
      ∧ (nearest_field_grid_index X pt ipt setup m).2.1.r = setup.rlen - 2)
    ∧ (pt.r = setup.rmin + ((setup.rlen - 1 : Int) : F) * setup.rstep + setup.rstep →
      (nearest_field_grid_index X pt ipt setup m).1 = -2) := by
  have hne : setup.rstep ≠ 0 := ne_of_gt hstep
  constructor
  · intro hlo hhi hcell
    have hq1 : ((setup.rlen - 1 : Int) : F) ≤ (pt.r - setup.rmin) / setup.rstep := by
      rw [le_div_iff₀ hstep]
      linarith
    have hq2 : (pt.r - setup.rmin) / setup.rstep < ((setup.rlen - 1 : Int) : F) + 1 := by
      rw [div_lt_iff₀ hstep]
      linarith
    have hi0 : float_to_int ((pt.r - setup.rmin) / setup.rstep) = setup.rlen - 1 :=
      float_to_int_of_floor _ _ (by omega) hq1 hq2
    have h00 : efield_exists X (shifted_pt pt setup (0, 0)) setup = false := by
      rw [shifted_pt_zero]
      apply efield_exists_false_of_index
      show float_to_int ((pt.r - setup.rmin) / setup.rstep) + 1 ≥ setup.rlen
      rw [hi0]
      omega
    have h01 : efield_exists X (shifted_pt pt setup (0, 1)) setup = true := by
      rw [shifted_pt_inward]
      exact hcell
    have hfind : shift_order.find? (fun c => efield_exists X (shifted_pt pt setup c) setup)
        = some (0, 1) := by
      simp only [shift_order, List.find?, h00, h01]
    have hq3 : ((setup.rlen - 2 : Int) : F) ≤ (pt.r - setup.rstep - setup.rmin) / setup.rstep := by
      rw [le_div_iff₀ hstep]
      push_cast at hlo ⊢
      linarith
    have hq4 : (pt.r - setup.rstep - setup.rmin) / setup.rstep < ((setup.rlen - 2 : Int) : F) + 1 := by
      rw [div_lt_iff₀ hstep]
      push_cast at hhi ⊢
      linarith
    have hi1 : float_to_int ((pt.r - setup.rstep - setup.rmin) / setup.rstep) = setup.rlen - 2 :=
      float_to_int_of_floor _ _ (by omega) hq3 hq4
    unfold nearest_field_grid_index
    rw [if_neg hmiss]
    simp only [hin, Bool.false_eq_true, if_false, hfind, shifted_pt_inward]
    refine ⟨by norm_num, ?_⟩
    exact hi1
  · intro heq
    have hall : ∀ c ∈ shift_order, efield_exists X (shifted_pt pt setup c) setup = false := by
      intro c _
      apply efield_exists_false_of_index
      obtain ⟨d, hd1, hd2⟩ := shift_d_int (F := F) c.2
      have hq : ((shifted_pt pt setup c).r - setup.rmin) / setup.rstep
          = ((setup.rlen + d : Int) : F) := by
        simp only [shifted_pt, hd2, heq]
        push_cast
        field_simp
        ring
      rw [hq, float_to_int_intCast]
      omega
    have hfind : shift_order.find? (fun c => efield_exists X (shifted_pt pt setup c) setup)
        = none := by
      rw [List.find?_eq_none]
      intro c hc
      simp [hall c hc]
    unfold nearest_field_grid_index
    rw [if_neg hmiss]
    simp only [hin, Bool.false_eq_true, if_false, hfind]

/-- Witness for the amended claim C18: in the example detector the point
`r = 5/2` (half a step beyond the last node `r = 2`) gets the code 1 and the
radial index 1, the point `r = 3` gets the code -2. -/
theorem locator_radial_edge_witness :
    ((0 : ℚ) < (exSetup 0).rstep ∧ 2 ≤ (exSetup 0).rlen
      ∧ exExtern.outside_detector_cyl ⟨5 / 2, 0, 1⟩ (exSetup 0) = false
      ∧ exExtern.outside_detector_cyl ⟨3, 0, 1⟩ (exSetup 0) = false)
    ∧ ((nearest_field_grid_index exExtern ⟨5 / 2, 0, 1⟩ ⟨7, 7, 7⟩ (exSetup 0) LocatorMemo.init).1 = 1
      ∧ (nearest_field_grid_index exExtern ⟨5 / 2, 0, 1⟩ ⟨7, 7, 7⟩ (exSetup 0)
          LocatorMemo.init).2.1.r = (exSetup 0).rlen - 2)
    ∧ (nearest_field_grid_index exExtern ⟨3, 0, 1⟩ ⟨7, 7, 7⟩ (exSetup 0) LocatorMemo.init).1 = -2 :=
  ⟨by decide!,
   (locator_radial_edge exExtern ⟨5 / 2, 0, 1⟩ ⟨7, 7, 7⟩ (exSetup 0) LocatorMemo.init
      (by decide!) (by decide!) (by decide!) (by decide!)).1
      (by decide!) (by decide!) (by decide!),
   (locator_radial_edge exExtern ⟨3, 0, 1⟩ ⟨7, 7, 7⟩ (exSetup 0) LocatorMemo.init
      (by decide!) (by decide!) (by decide!) (by decide!)).2 (by decide!)⟩

/-! ## The temperature correction at the reference temperature -/

/-- The directional speeds of row `i` of the built table: the raw speeds,
scaled by the claim-worded factor when `e ≥ 1`. -/
theorem build_velo_table_speeds (X : Extern F) (p : temp_params F) (T : F)
    (raw : List (velocity_lookup F)) (i : Nat) (h : i < raw.length) :
    let v := raw.getD i velocity_lookup.zero
    let v1 := (build_velo_table X p T raw).getD i velocity_lookup.zero
    (v.e < 1 →
        v1.e100 = v.e100 ∧ v1.e110 = v.e110 ∧ v1.e111 = v.e111
        ∧ v1.h100 = v.h100 ∧ v1.h110 = v.h110 ∧ v1.h111 = v.h111)
    ∧ (1 ≤ v.e →
        v1.e100 = v.e100 * spec_f X p.mue p.pwre p.be p.thetae T v.e
        ∧ v1.e110 = v.e110 * spec_f X p.mue p.pwre p.be p.thetae T v.e
        ∧ v1.e111 = v.e111 * spec_f X p.mue p.pwre p.be p.thetae T v.e
        ∧ v1.h100 = v.h100 * spec_f X p.muh p.pwrh p.bh p.thetah T v.e
        ∧ v1.h110 = v.h110 * spec_f X p.muh p.pwrh p.bh p.thetah T v.e
        ∧ v1.h111 = v.h111 * spec_f X p.muh p.pwrh p.bh p.thetah T v.e) := by
  intro v v1
  have hc := build_velo_table_clear X p T raw i h
  rw [temp_correct_getD X p T raw i h] at hc
  have e1 : v1.e100 = _ := (congrArg velocity_lookup.e100 hc :)
  have e2 : v1.e110 = _ := (congrArg velocity_lookup.e110 hc :)
  have e3 : v1.e111 = _ := (congrArg velocity_lookup.e111 hc :)
  have e4 : v1.h100 = _ := (congrArg velocity_lookup.h100 hc :)
  have e5 : v1.h110 = _ := (congrArg velocity_lookup.h110 hc :)
  have e6 : v1.h111 = _ := (congrArg velocity_lookup.h111 hc :)
  rw [e1, e2, e3, e4, e5, e6]
  simp only [clear_cumul, aniso_row]
  have hv : raw.getD i velocity_lookup.zero = v := rfl
  rw [hv]
  by_cases hlt : v.e < 1
  · have r1 : ∀ a b c d, temp_row_e X a b c d v = v := by
      intro a b c d
      simp only [temp_row_e, if_pos hlt]
    have r2 : ∀ a b c d, temp_row_h X a b c d v = v := by
      intro a b c d
      simp only [temp_row_h, if_pos hlt]
    simp only [r1, r2, true_and]
    exact ⟨fun _ => trivial, fun h1 => absurd hlt (not_lt.mpr h1)⟩
  · simp only [temp_row_e, temp_row_h, if_neg hlt, velo_factor_eq_spec, true_and]
    exact ⟨fun h1 => absurd h1 hlt, fun _ => trivial⟩

/-- At the reference temperature the claim-worded factor is 1 wherever the
reference curve is not zero. -/
theorem spec_f_reference (X : Extern F) (mu pwr b theta e : F)
    (h : spec_curve X mu pwr b theta 77 e ≠ 0) : spec_f X mu pwr b theta REF_TEMP e = 1 := by
  have h2 : (REF_TEMP : F) = 77 := by
    unfold REF_TEMP
    norm_num
  unfold spec_f
  rw [h2]
  exact div_self h

/-- Over the reals the saturation curve is not zero for `mu ≠ 0`, `b ≠ 0`,
`theta > 0`, `T > 0` and `e ≠ 0`. -/
theorem spec_curve_real_ne_zero (mu pwr b theta T e : ℝ) (hmu : mu ≠ 0) (hb : b ≠ 0)
    (hth : 0 < theta) (hT : 0 < T) (he : e ≠ 0) :
    spec_curve realExtern mu pwr b theta T e ≠ 0 := by
  have harg : 0 < theta / (2 * T) := by positivity
  have htanh : 0 < Real.tanh (theta / (2 * T)) := by
    rw [Real.tanh_eq_sinh_div_cosh]
    exact div_pos (Real.sinh_pos_iff.mpr harg) (Real.cosh_pos _)
  have hsqrt : 0 < Real.sqrt (Real.tanh (theta / (2 * T))) := Real.sqrt_pos.mpr htanh
  have hvs : spec_v_sat realExtern b theta T ≠ 0 := by
    unfold spec_v_sat
    exact mul_ne_zero hb (ne_of_gt hsqrt)
  have hpow : (0 : ℝ) < T ^ pwr := Real.rpow_pos_of_pos hT pwr
  have hm0 : spec_mu_0 realExtern mu pwr T ≠ 0 := by
    unfold spec_mu_0
    exact mul_ne_zero hmu (ne_of_gt hpow)
  have hEc : spec_E_c realExtern mu pwr b theta T ≠ 0 := by
    unfold spec_E_c
    exact div_ne_zero hvs hm0
  have hden : 0 < Real.sqrt (1 + (e / spec_E_c realExtern mu pwr b theta T) ^ 2) :=
    Real.sqrt_pos.mpr (by positivity)
  unfold spec_curve
  exact div_ne_zero (mul_ne_zero hvs (div_ne_zero he hEc)) (ne_of_gt hden)

/-- Over the reals the saturation curve is zero for `theta < 0` and `T > 0`:
the square root of the negative `tanh` is taken as 0. -/
theorem spec_curve_real_negative_theta (mu pwr b theta T e : ℝ) (hth : theta < 0) (hT : 0 < T) :
    spec_curve realExtern mu pwr b theta T e = 0 := by
  have harg : theta / (2 * T) ≤ 0 :=
    le_of_lt (div_neg_of_neg_of_pos hth (by positivity))
  have htanh : Real.tanh (theta / (2 * T)) ≤ 0 := by
    rw [Real.tanh_eq_sinh_div_cosh]
    exact div_nonpos_of_nonpos_of_nonneg (Real.sinh_nonpos_iff.mpr harg) (le_of_lt (Real.cosh_pos _))
  have hsqrt : Real.sqrt (Real.tanh (theta / (2 * T))) = 0 := Real.sqrt_eq_zero_of_nonpos htanh
  have hvs : spec_v_sat realExtern b theta T = 0 := by
    unfold spec_v_sat
    show b * Real.sqrt (Real.tanh (theta / (2 * T))) = 0
    rw [hsqrt, mul_zero]
  unfold spec_curve
  rw [hvs, zero_mul, zero_div]

/-- With a negative `theta` the claim-worded factor at the reference
temperature is 0 over the reals. -/
theorem spec_f_real_negative_theta (mu pwr b theta e : ℝ) (hth : theta < 0) :
    spec_f realExtern mu pwr b theta REF_TEMP e = 0 := by
  unfold spec_f
  rw [spec_curve_real_negative_theta mu pwr b theta 77 e hth (by norm_num), div_zero]

/-- Claim C11, as stated, fails: with the built-in parameters except for the
electron `theta = -200` (all parameters nonzero), at the crystal temperature
77 K the factor of the sample with `e = 10` is not 1 and the built electron
speed differs from the raw speed 4. (In C the square root of the negative
`tanh` is not a number; here it is 0. Neither gives the factor 1.) -/
theorem reference_temperature_negative_theta :
    ((params_negative_theta : temp_params ℝ).mue ≠ 0
      ∧ (params_negative_theta : temp_params ℝ).pwre ≠ 0
      ∧ (params_negative_theta : temp_params ℝ).be ≠ 0
      ∧ (params_negative_theta : temp_params ℝ).thetae ≠ 0)
    ∧ (1 : ℝ) ≤ (sample_row : velocity_lookup ℝ).e
    ∧ spec_f realExtern (params_negative_theta : temp_params ℝ).mue
        (params_negative_theta : temp_params ℝ).pwre (params_negative_theta : temp_params ℝ).be
        (params_negative_theta : temp_params ℝ).thetae REF_TEMP
        (sample_row : velocity_lookup ℝ).e ≠ 1
    ∧ ((build_velo_table realExtern params_negative_theta REF_TEMP [sample_row]).getD 0
        velocity_lookup.zero).e100 ≠ (sample_row : velocity_lookup ℝ).e100 := by
  have hth : (params_negative_theta : temp_params ℝ).thetae < 0 := by
    show (-200 : ℝ) < 0
    norm_num
  have he : (1 : ℝ) ≤ (sample_row : velocity_lookup ℝ).e := by
    show (1 : ℝ) ≤ 10
    norm_num
  have hf := spec_f_real_negative_theta (params_negative_theta : temp_params ℝ).mue
    (params_negative_theta : temp_params ℝ).pwre (params_negative_theta : temp_params ℝ).be
    (params_negative_theta : temp_params ℝ).thetae (sample_row : velocity_lookup ℝ).e hth
  refine ⟨?_, he, ?_, ?_⟩
  · simp only [params_negative_theta, temp_params.default]
    norm_num
  · rw [hf]
    norm_num
  · have hs := ((build_velo_table_speeds realExtern params_negative_theta REF_TEMP
      [sample_row] 0 (by simp)).2 he).1
    rw [hs]
    have h4 : ([(sample_row : velocity_lookup ℝ)].getD 0 velocity_lookup.zero) = sample_row := rfl
    rw [h4, hf, mul_zero]
    show (0 : ℝ) ≠ 4
    norm_num

/-- Claim C11, amended. At the crystal temperature 77 K, with the real `sqrt`,
`tanh` and `pow`, and for model parameters with `mu ≠ 0`, `b ≠ 0` and
`theta > 0` for both species, the factor `f(e)` is 1 for every sample with
`e ≥ 1`, and the directional speeds of the built table equal the raw ones. -/
theorem reference_temperature_identity (p : temp_params ℝ) (raw : List (velocity_lookup ℝ))
    (i : Nat) (h : i < raw.length)
    (hmue : p.mue ≠ 0) (hbe : p.be ≠ 0) (hte : 0 < p.thetae)
    (hmuh : p.muh ≠ 0) (hbh : p.bh ≠ 0) (hth : 0 < p.thetah) :
    let v := raw.getD i velocity_lookup.zero
    let v1 := (build_velo_table realExtern p REF_TEMP raw).getD i velocity_lookup.zero
    (1 ≤ v.e →
      spec_f realExtern p.mue p.pwre p.be p.thetae REF_TEMP v.e = 1
      ∧ spec_f realExtern p.muh p.pwrh p.bh p.thetah REF_TEMP v.e = 1)
    ∧ v1.e100 = v.e100 ∧ v1.e110 = v.e110 ∧ v1.e111 = v.e111
    ∧ v1.h100 = v.h100 ∧ v1.h110 = v.h110 ∧ v1.h111 = v.h111 := by
  intro v v1
  have hf : 1 ≤ v.e →
      spec_f realExtern p.mue p.pwre p.be p.thetae REF_TEMP v.e = 1
      ∧ spec_f realExtern p.muh p.pwrh p.bh p.thetah REF_TEMP v.e = 1 := by
    intro he
    have hne : v.e ≠ 0 := ne_of_gt (lt_of_lt_of_le zero_lt_one he)
    exact ⟨spec_f_reference realExtern _ _ _ _ _
        (spec_curve_real_ne_zero _ _ _ _ 77 _ hmue hbe hte (by norm_num) hne),
      spec_f_reference realExtern _ _ _ _ _
        (spec_curve_real_ne_zero _ _ _ _ 77 _ hmuh hbh hth (by norm_num) hne)⟩
  refine ⟨hf, ?_⟩
  have hs := build_velo_table_speeds realExtern p REF_TEMP raw i h
  by_cases hlt : v.e < 1
  · exact hs.1 hlt
  · have he : 1 ≤ v.e := not_lt.mp hlt
    obtain ⟨s1, s2, s3, s4, s5, s6⟩ := hs.2 he
    obtain ⟨f1, f2⟩ := hf he
    rw [f1] at s1 s2 s3
    rw [f2] at s4 s5 s6
    rw [mul_one] at s1 s2 s3 s4 s5 s6
    exact ⟨s1, s2, s3, s4, s5, s6⟩

/-- Witness for the amended claim C11: the built-in parameters and the sample
row at the field 10; the built electron speed is the raw speed 4. -/
theorem reference_temperature_identity_witness :
    (0 < [(sample_row : velocity_lookup ℝ)].length
      ∧ (temp_params.default : temp_params ℝ).mue ≠ 0
      ∧ (temp_params.default : temp_params ℝ).be ≠ 0
      ∧ 0 < (temp_params.default : temp_params ℝ).thetae
      ∧ (temp_params.default : temp_params ℝ).muh ≠ 0
      ∧ (temp_params.default : temp_params ℝ).bh ≠ 0
      ∧ 0 < (temp_params.default : temp_params ℝ).thetah)
    ∧ ((build_velo_table realExtern temp_params.default REF_TEMP [sample_row]).getD 0
        velocity_lookup.zero).e100 = 4 := by
  have hp : (temp_params.default : temp_params ℝ).mue ≠ 0
      ∧ (temp_params.default : temp_params ℝ).be ≠ 0
      ∧ 0 < (temp_params.default : temp_params ℝ).thetae
      ∧ (temp_params.default : temp_params ℝ).muh ≠ 0
      ∧ (temp_params.default : temp_params ℝ).bh ≠ 0
      ∧ 0 < (temp_params.default : temp_params ℝ).thetah := by
    simp only [temp_params.default]
    norm_num
  have hlen : 0 < [(sample_row : velocity_lookup ℝ)].length := by simp
  exact ⟨⟨hlen, hp⟩,
    (reference_temperature_identity temp_params.default [sample_row] 0 hlen
      hp.1 hp.2.1 hp.2.2.1 hp.2.2.2.1 hp.2.2.2.2.1 hp.2.2.2.2.2).2.1⟩

/-! ## Anisotropy, direction and rotation -/

/-- Claim C24. The coefficients computed in the anisotropy loop reproduce the
three directional speeds through `a + b en4 + c en6`: `a + b + c = v100`,
`a + b/2 + c/4 = v110`, `a + b/3 + c/9 = v111`, for the electron and for the
hole triple of every row. -/
theorem anisotropy_reproduces_speeds (v : velocity_lookup F) :
    ((aniso_row v).ea + (aniso_row v).eb + (aniso_row v).ec = v.e100
      ∧ (aniso_row v).ea + (aniso_row v).eb / 2 + (aniso_row v).ec / 4 = v.e110
      ∧ (aniso_row v).ea + (aniso_row v).eb / 3 + (aniso_row v).ec / 9 = v.e111)
    ∧ ((aniso_row v).ha + (aniso_row v).hb + (aniso_row v).hc = v.h100
      ∧ (aniso_row v).ha + (aniso_row v).hb / 2 + (aniso_row v).hc / 4 = v.h110
      ∧ (aniso_row v).ha + (aniso_row v).hb / 3 + (aniso_row v).hc / 9 = v.h111)
    ∧ (aniso_row v).e100 = v.e100 ∧ (aniso_row v).e110 = v.e110 ∧ (aniso_row v).e111 = v.e111
    ∧ (aniso_row v).h100 = v.h100 ∧ (aniso_row v).h110 = v.h110
    ∧ (aniso_row v).h111 = v.h111 := by
  refine ⟨⟨?_, ?_, ?_⟩, ⟨?_, ?_, ?_⟩, rfl, rfl, rfl, rfl, rfl, rfl⟩ <;>
    simp only [aniso_row] <;> norm_num <;> ring

/-- The velocity written by the table branch, in terms of the interpolated
coefficients. -/
theorem drift_velocity_empirical_coeffs (q abse : F) (cart_en : point F)
    (setup : MJD_Siggen_Setup F) :
    (drift_velocity_empirical q abse cart_en setup).1
      = ⟨((if q < 0 then -1 else 1 : Int) : F) * cart_en.x *
            ((drift_coeffs q abse setup).1
              + (drift_coeffs q abse setup).2.1
                * (POW4 cart_en.x + POW4 cart_en.y + POW4 cart_en.z)
              + (drift_coeffs q abse setup).2.2.1
                * (POW6 cart_en.x + POW6 cart_en.y + POW6 cart_en.z)
              + (drift_coeffs q abse setup).2.2.2.1 * 4
                * (cart_en.x * cart_en.x - (POW4 cart_en.x + POW4 cart_en.y + POW4 cart_en.z))
              + (drift_coeffs q abse setup).2.2.2.2 * 6
                * (POW4 cart_en.x - (POW6 cart_en.x + POW6 cart_en.y + POW6 cart_en.z))),
         ((if q < 0 then -1 else 1 : Int) : F) * cart_en.y *
            ((drift_coeffs q abse setup).1
              + (drift_coeffs q abse setup).2.1
                * (POW4 cart_en.x + POW4 cart_en.y + POW4 cart_en.z)
              + (drift_coeffs q abse setup).2.2.1
                * (POW6 cart_en.x + POW6 cart_en.y + POW6 cart_en.z)
              + (drift_coeffs q abse setup).2.2.2.1 * 4
                * (cart_en.y * cart_en.y - (POW4 cart_en.x + POW4 cart_en.y + POW4 cart_en.z))
              + (drift_coeffs q abse setup).2.2.2.2 * 6
                * (POW4 cart_en.y - (POW6 cart_en.x + POW6 cart_en.y + POW6 cart_en.z))),
         ((if q < 0 then -1 else 1 : Int) : F) * cart_en.z *
            ((drift_coeffs q abse setup).1
              + (drift_coeffs q abse setup).2.1
                * (POW4 cart_en.x + POW4 cart_en.y + POW4 cart_en.z)
              + (drift_coeffs q abse setup).2.2.1
                * (POW6 cart_en.x + POW6 cart_en.y + POW6 cart_en.z)
              + (drift_coeffs q abse setup).2.2.2.1 * 4
                * (cart_en.z * cart_en.z - (POW4 cart_en.x + POW4 cart_en.y + POW4 cart_en.z))
              + (drift_coeffs q abse setup).2.2.2.2 * 6
                * (POW4 cart_en.z - (POW6 cart_en.x + POW6 cart_en.y + POW6 cart_en.z)))⟩ := by
  unfold drift_velocity_empirical drift_coeffs
  by_cases hq : q > 0
  · simp only [if_pos hq]
  · simp only [if_neg hq]

/-- Claim C25. For a unit field direction `u` the component along `u` of the
velocity written by the table branch of `drift_velocity` is
`sign * (a + b en4 + c en6)`; what the terms in `bp` and `cp` add to the
velocity is perpendicular to `u`. -/
theorem empirical_velocity_along_field (q abse : F) (u : point F) (setup : MJD_Siggen_Setup F)
    (hu : u.x ^ 2 + u.y ^ 2 + u.z ^ 2 = 1) :
    let v := (drift_velocity_empirical q abse u setup).1
    let a := (drift_coeffs q abse setup).1
    let b := (drift_coeffs q abse setup).2.1
    let c := (drift_coeffs q abse setup).2.2.1
    let en4 := u.x ^ 4 + u.y ^ 4 + u.z ^ 4
    let en6 := u.x ^ 6 + u.y ^ 6 + u.z ^ 6
    let sign : F := if q < 0 then -1 else 1
    v.x * u.x + v.y * u.y + v.z * u.z = sign * (a + b * en4 + c * en6)
    ∧ (v.x - sign * (a + b * en4 + c * en6) * u.x) * u.x
      + (v.y - sign * (a + b * en4 + c * en6) * u.y) * u.y
      + (v.z - sign * (a + b * en4 + c * en6) * u.z) * u.z = 0 := by
  intro v a b c en4 en6 sign
  have hv : v = (drift_velocity_empirical q abse u setup).1 := rfl
  rw [drift_velocity_empirical_coeffs] at hv
  have hs : (((if q < 0 then -1 else 1 : Int) : Int) : F) = sign := by
    by_cases hq : q < 0
    · simp [sign, hq]
    · simp [sign, hq]
  rw [hs] at hv
  have hdot : v.x * u.x + v.y * u.y + v.z * u.z = sign * (a + b * en4 + c * en6) := by
    rw [hv]
    simp only [POW4, POW6, a, b, c, en4, en6]
    linear_combination
      (sign * ((drift_coeffs q abse setup).1
        + (drift_coeffs q abse setup).2.1 * (u.x ^ 4 + u.y ^ 4 + u.z ^ 4)
        + (drift_coeffs q abse setup).2.2.1 * (u.x ^ 6 + u.y ^ 6 + u.z ^ 6)
        - 4 * (drift_coeffs q abse setup).2.2.2.1 * (u.x ^ 4 + u.y ^ 4 + u.z ^ 4)
        - 6 * (drift_coeffs q abse setup).2.2.2.2 * (u.x ^ 6 + u.y ^ 6 + u.z ^ 6))) * hu
  refine ⟨hdot, ?_⟩
  linear_combination hdot - (sign * (a + b * en4 + c * en6)) * hu

/-- Witness for claim C25: the unit direction `(3/5, 4/5, 0)` in the example
detector, an electron at the field magnitude 2. -/
theorem empirical_velocity_along_field_witness :
    ((3 / 5 : ℚ) ^ 2 + (4 / 5 : ℚ) ^ 2 + (0 : ℚ) ^ 2 = 1)
    ∧ (drift_velocity_empirical (-1) 2 ⟨3 / 5, 4 / 5, 0⟩ (exSetup 0)).1.x * (3 / 5)
      + (drift_velocity_empirical (-1) 2 ⟨3 / 5, 4 / 5, 0⟩ (exSetup 0)).1.y * (4 / 5)
      + (drift_velocity_empirical (-1) 2 ⟨3 / 5, 4 / 5, 0⟩ (exSetup 0)).1.z * 0
      = -(1924 / 3125) :=
  ⟨by decide!,
   (empirical_velocity_along_field (-1) 2 ⟨3 / 5, 4 / 5, 0⟩ (exSetup 0) (by decide!)).1.trans
     (by decide!)⟩

/-- The analytic branch of `drift_velocity` is the rotation of the local
vector of `find_hole_velo`. -/
theorem drift_velocity_analytic_rotate (X : Extern F) (abse : F) (cart_en : point F)
    (setup : MJD_Siggen_Setup F) :
    drift_velocity_analytic X abse cart_en setup
      = rotate_back X (X.acos cart_en.z) (X.atan2 cart_en.y cart_en.x)
          (find_hole_velo X abse (X.acos cart_en.z) (X.atan2 cart_en.y cart_en.x) setup).2 :=
  rfl

/-- Claim C26. With the real sine and cosine the rotation of the analytic hole
branch keeps the Euclidean norm of every local vector, for all angles, and
maps the radial local vector `(s, 0, 0)` to `s` times the unit field
direction `(sin theta cos phi, sin theta sin phi, cos theta)`. -/
theorem rotate_back_orthogonal (theta phi x y z s : ℝ) :
    (rotate_back realExtern theta phi ⟨x, y, z⟩).x ^ 2
        + (rotate_back realExtern theta phi ⟨x, y, z⟩).y ^ 2
        + (rotate_back realExtern theta phi ⟨x, y, z⟩).z ^ 2 = x ^ 2 + y ^ 2 + z ^ 2
    ∧ Real.sqrt ((rotate_back realExtern theta phi ⟨x, y, z⟩).x ^ 2
        + (rotate_back realExtern theta phi ⟨x, y, z⟩).y ^ 2
        + (rotate_back realExtern theta phi ⟨x, y, z⟩).z ^ 2) = Real.sqrt (x ^ 2 + y ^ 2 + z ^ 2)
    ∧ rotate_back realExtern theta phi ⟨s, 0, 0⟩
        = ⟨s * (Real.sin theta * Real.cos phi), s * (Real.sin theta * Real.sin phi),
           s * Real.cos theta⟩ := by
  have hθ := Real.sin_sq_add_cos_sq theta
  have hφ := Real.sin_sq_add_cos_sq phi
  have hnorm : (rotate_back realExtern theta phi ⟨x, y, z⟩).x ^ 2
        + (rotate_back realExtern theta phi ⟨x, y, z⟩).y ^ 2
        + (rotate_back realExtern theta phi ⟨x, y, z⟩).z ^ 2 = x ^ 2 + y ^ 2 + z ^ 2 := by
    simp only [rotate_back, realExtern]
    linear_combination
      ((Real.sin theta * x + Real.cos theta * y) ^ 2 + z ^ 2) * hφ + (x ^ 2 + y ^ 2) * hθ
  refine ⟨hnorm, by rw [hnorm], ?_⟩
  simp only [rotate_back, realExtern, point.mk.injEq]
  refine ⟨?_, ?_, ?_⟩ <;> ring

/-- A point for which `efield_exists` holds has its truncated index inside
the table. -/
theorem efield_exists_bounds (X : Extern F) (pt : cyl_pt F) (setup : MJD_Siggen_Setup F)
    (h : efield_exists X pt setup = true) :
    0 ≤ float_to_int ((pt.r - setup.rmin) / setup.rstep)
    ∧ float_to_int ((pt.r - setup.rmin) / setup.rstep) + 1 < setup.rlen
    ∧ 0 ≤ float_to_int ((pt.z - setup.zmin) / setup.zstep)
    ∧ float_to_int ((pt.z - setup.zmin) / setup.zstep) + 1 < setup.zlen := by
  unfold efield_exists at h
  by_cases ho : X.outside_detector_cyl pt setup = true
  · simp [ho] at h
  · simp only [ho, Bool.false_eq_true, if_false] at h
    by_cases hb : float_to_int ((pt.r - setup.rmin) / setup.rstep) < 0
        ∨ float_to_int ((pt.r - setup.rmin) / setup.rstep) + 1 ≥ setup.rlen
        ∨ float_to_int ((pt.z - setup.zmin) / setup.zstep) < 0
        ∨ float_to_int ((pt.z - setup.zmin) / setup.zstep) + 1 ≥ setup.zlen
    · rw [if_pos hb] at h
      simp at h
    · simp only [not_or, not_lt, ge_iff_le, not_le] at hb
      exact ⟨hb.1, hb.2.1, hb.2.2.1, hb.2.2.2⟩

/-- Claim C27. When `nearest_field_grid_index` computes a non-negative code (on
a memo miss), the index it returns satisfies `0 ≤ ipt.r`, `ipt.r + 1 < rlen`,
`0 ≤ ipt.z`, `ipt.z + 1 < zlen`: the four corners read by `wpotential` and
`efield` are inside the `rlen x zlen` table. -/
theorem locator_index_in_table (X : Extern F) (pt : cyl_pt F) (ipt : cyl_int_pt)
    (setup : MJD_Siggen_Setup F) (m : LocatorMemo F)
    (hmiss : ¬ (m.last_ret ≠ -99 ∧ pt.r = m.last_pt.r ∧ pt.z = m.last_pt.z))
    (hret : 0 ≤ (nearest_field_grid_index X pt ipt setup m).1) :
    0 ≤ (nearest_field_grid_index X pt ipt setup m).2.1.r
    ∧ (nearest_field_grid_index X pt ipt setup m).2.1.r + 1 < setup.rlen
    ∧ 0 ≤ (nearest_field_grid_index X pt ipt setup m).2.1.z
    ∧ (nearest_field_grid_index X pt ipt setup m).2.1.z + 1 < setup.zlen := by
  unfold nearest_field_grid_index at hret ⊢
  rw [if_neg hmiss] at hret ⊢
  by_cases hout : X.outside_detector_cyl pt setup = true
  · simp only [hout, if_true] at hret
    norm_num at hret
  · simp only [hout, Bool.false_eq_true, if_false] at hret ⊢
    cases hfind : shift_order.find? (fun c => efield_exists X (shifted_pt pt setup c) setup) with
    | none =>
      rw [hfind] at hret
      norm_num at hret
    | some c =>
      have hex : efield_exists X (shifted_pt pt setup c) setup = true := by
        have := List.find?_some hfind
        simpa using this
      simp only []
      exact efield_exists_bounds X (shifted_pt pt setup c) setup hex

/-- Witness for claim C27: the extrapolated point `(r, z) = (2, 1)` of the
example detector gets the index `(1, 1)` in the `3 x 3` table. -/
theorem locator_index_in_table_witness :
    (¬ ((LocatorMemo.init : LocatorMemo ℚ).last_ret ≠ -99
        ∧ (2 : ℚ) = (LocatorMemo.init : LocatorMemo ℚ).last_pt.r
        ∧ (1 : ℚ) = (LocatorMemo.init : LocatorMemo ℚ).last_pt.z)
      ∧ 0 ≤ (nearest_field_grid_index exExtern ⟨2, 0, 1⟩ ⟨7, 7, 7⟩ (exSetup 0)
              LocatorMemo.init).1)
    ∧ (nearest_field_grid_index exExtern ⟨2, 0, 1⟩ ⟨7, 7, 7⟩ (exSetup 0) LocatorMemo.init).2.1.r + 1
        < (exSetup 0).rlen
    ∧ (nearest_field_grid_index exExtern ⟨2, 0, 1⟩ ⟨7, 7, 7⟩ (exSetup 0) LocatorMemo.init).2.1
        = ⟨1, 0, 1⟩ :=
  ⟨by decide!,
   (locator_index_in_table exExtern ⟨2, 0, 1⟩ ⟨7, 7, 7⟩ (exSetup 0) LocatorMemo.init
      (by decide!) (by decide!)).2.1,
   by decide!⟩

/-! ## The bracket scan on an increasing table -/

/-- In a table with increasing fields, a later row has a larger field. -/
theorem v_lookup_increasing (setup : MJD_Siggen_Setup F)
    (hinc : ∀ j : Nat, (j : Int) + 1 < setup.v_lookup_len →
      (v_lookup_at setup j).e < (v_lookup_at setup (j + 1)).e)
    (j1 j2 : Nat) (h12 : j1 < j2) (h2 : (j2 : Int) < setup.v_lookup_len) :
    (v_lookup_at setup j1).e < (v_lookup_at setup j2).e := by
  induction j2 with
  | zero => omega
  | succ n ih =>
    have hstep := hinc n (by push_cast at h2; omega)
    by_cases hn : j1 = n
    · subst hn
      exact hstep
    · exact lt_trans (ih (by omega) (by push_cast at h2; omega)) hstep

/-- Claim C29. For a table of length at least 2 with strictly increasing
fields the index `i` selected by the scan of `drift_velocity` satisfies
`0 ≤ i ≤ len - 2`; for `e[0] ≤ abse ≤ e[len-1]` it brackets the field,
`e[i] ≤ abse ≤ e[i+1]`, and the fraction `f` lies in `[0, 1]`; and when
`abse` equals the tabulated field `e[k]` the interpolated coefficients
`a, b, c, bp, cp` are those stored in row `k`. -/
theorem bracket_scan_properties (q abse : F) (setup : MJD_Siggen_Setup F)
    (hlen : 2 ≤ setup.v_lookup_len)
    (hinc : ∀ j : Nat, (j : Int) + 1 < setup.v_lookup_len →
      (v_lookup_at setup j).e < (v_lookup_at setup (j + 1)).e) :
    (0 ≤ (bracket_index setup abse : Int)
      ∧ (bracket_index setup abse : Int) ≤ setup.v_lookup_len - 2)
    ∧ ((v_lookup_at setup 0).e ≤ abse →
        abse ≤ (v_lookup_at setup (setup.v_lookup_len - 1).toNat).e →
        (v_lookup_at setup (bracket_index setup abse)).e ≤ abse
        ∧ abse ≤ (v_lookup_at setup (bracket_index setup abse + 1)).e
        ∧ 0 ≤ drift_fraction abse setup ∧ drift_fraction abse setup ≤ 1)
    ∧ (∀ k : Nat, (k : Int) < setup.v_lookup_len → abse = (v_lookup_at setup k).e →
        drift_coeffs q abse setup = stored_coeffs q (v_lookup_at setup k)) := by
  obtain ⟨b1, b2, b3⟩ := bracket_index_is_bracket setup abse hlen
  have hden : (v_lookup_at setup (bracket_index setup abse)).e
      < (v_lookup_at setup (bracket_index setup abse + 1)).e := hinc _ (by omega)
  refine ⟨⟨by omega, b1⟩, ?_, ?_⟩
  · intro hlo hhi
    have hup : abse ≤ (v_lookup_at setup (bracket_index setup abse + 1)).e := by
      rcases b2 with h | h
      · exact h
      · have hidx : (setup.v_lookup_len - 1).toNat = bracket_index setup abse + 1 := by omega
        rw [hidx] at hhi
        exact hhi
    have hdown : (v_lookup_at setup (bracket_index setup abse)).e ≤ abse := by
      cases hi : bracket_index setup abse with
      | zero => exact hlo
      | succ n =>
        have := b3 n (by omega)
        exact le_of_lt (not_le.mp this)
    refine ⟨hdown, hup, ?_, ?_⟩
    · unfold drift_fraction
      exact div_nonneg (by linarith) (by linarith)
    · unfold drift_fraction
      rw [div_le_one (by linarith)]
      linarith
  · intro k hk hE
    have hbr : is_bracket setup abse (k - 1) := by
      refine ⟨by omega, ?_, ?_⟩
      · left
        by_cases hk0 : k = 0
        · subst hk0
          rw [hE]
          exact le_of_lt (hinc 0 (by omega))
        · have hkk : k - 1 + 1 = k := by omega
          rw [hkk, hE]
      · intro j hj
        rw [hE]
        exact not_le.mpr (v_lookup_increasing setup hinc (j + 1) k (by omega) hk)
    have hi : bracket_index setup abse = k - 1 :=
      is_bracket_unique setup abse _ _ (bracket_index_is_bracket setup abse hlen) hbr
    unfold drift_coeffs stored_coeffs
    simp only [hi]
    by_cases hk0 : k = 0
    · subst hk0
      have hf : (abse - (v_lookup_at setup (0 - 1)).e)
          / ((v_lookup_at setup (0 - 1 + 1)).e - (v_lookup_at setup (0 - 1)).e) = 0 := by
        rw [hE]
        simp
      rw [hf]
      simp
    · have hkk : k - 1 + 1 = k := by omega
      have hlt : (v_lookup_at setup (k - 1)).e < (v_lookup_at setup k).e :=
        v_lookup_increasing setup hinc (k - 1) k (by omega) hk
      have hf : (abse - (v_lookup_at setup (k - 1)).e)
          / ((v_lookup_at setup (k - 1 + 1)).e - (v_lookup_at setup (k - 1)).e) = 1 := by
        rw [hkk, hE]
        exact div_self (by linarith)
      rw [hf, hkk]
      simp

/-- Witness for claim C29: the example table (fields 0, 10, 20) at the
tabulated field 10, for an electron. -/
theorem bracket_scan_properties_witness :
    (2 ≤ (exSetup 0).v_lookup_len
      ∧ (∀ j : Nat, j < 2 → (v_lookup_at (exSetup 0) j).e < (v_lookup_at (exSetup 0) (j + 1)).e)
      ∧ (1 : Int) < (exSetup 0).v_lookup_len
      ∧ (10 : ℚ) = (v_lookup_at (exSetup 0) 1).e)
    ∧ drift_coeffs (-1) 10 (exSetup 0) = (-1, 11, -6, 11 / 2, -3) := by
  have hinc : ∀ j : Nat, (j : Int) + 1 < (exSetup 0).v_lookup_len →
      (v_lookup_at (exSetup 0) j).e < (v_lookup_at (exSetup 0) (j + 1)).e := by
    intro j hj
    have hj2 : j < 2 := by
      have h3 : (exSetup 0).v_lookup_len = 3 := rfl
      omega
    interval_cases j
    · decide!
    · decide!
  exact ⟨by decide!,
    ((bracket_scan_properties (-1) 10 (exSetup 0) (by decide!) hinc).2.2 1 (by decide!)
      (by decide!)).trans (by decide!)⟩

/-! ## Indices on the impurity axes -/

/-- The function `get_efld_grad` reads the tables at the index pairs of
`efld_grad_indices`, weighted by `imp_weights`. -/
theorem get_efld_grad_indices (row col : Int) (setup : MJD_Siggen_Setup F) :
    get_efld_grad row col setup
      = ((efld_grad_indices setup).zip
          [imp_weights setup 0 0, imp_weights setup 0 1,
           imp_weights setup 1 0, imp_weights setup 1 1]).foldl
          (fun e p =>
            { e with
              r := e.r + p.2 * get_efld_r_by_index row col p.1.1 p.1.2 setup
              z := e.z + p.2 * get_efld_z_by_index row col p.1.1 p.1.2 setup })
          ⟨0, 0, 0⟩ := rfl

/-- With positive steps and both setpoints at least one step below the upper
end of their tabulated range, the four index pairs read by `get_efld_grad` are
inside the `num_grads x num_imps` tables. -/
theorem efld_grad_indices_interior (setup : MJD_Siggen_Setup F)
    (hgs : 0 < setup.imp_grad_step) (his : 0 < setup.avg_imp_step)
    (hg1 : setup.min_imp_grad ≤ setup.imp_grad)
    (hg2 : setup.imp_grad < setup.min_imp_grad + ((setup.num_grads : F) - 1) * setup.imp_grad_step)
    (hi1 : setup.min_avg_imp ≤ setup.avg_imp)
    (hi2 : setup.avg_imp < setup.min_avg_imp + ((setup.num_imps : F) - 1) * setup.avg_imp_step) :
    ∀ p ∈ efld_grad_indices setup,
      0 ≤ p.1 ∧ p.1 < setup.num_grads ∧ 0 ≤ p.2 ∧ p.2 < setup.num_imps := by
  have key : ∀ (x lo step : F) (n : Int), 0 < step → lo ≤ x → x < lo + ((n : F) - 1) * step →
      0 ≤ float_to_int ((x - lo) / step) ∧ float_to_int ((x - lo) / step) + 1 < n := by
    intro x lo step n hs h1 h2
    have hq0 : 0 ≤ (x - lo) / step := div_nonneg (by linarith) (le_of_lt hs)
    have hq1 : (x - lo) / step < (n : F) - 1 := by
      rw [div_lt_iff₀ hs]
      linarith
    unfold float_to_int
    rw [if_pos hq0]
    refine ⟨Int.floor_nonneg.mpr hq0, ?_⟩
    have hfl : (⌊(x - lo) / step⌋ : F) < ((n - 1 : Int) : F) := by
      push_cast
      exact lt_of_le_of_lt (Int.floor_le _) hq1
    have := Int.cast_lt.mp hfl
    omega
  obtain ⟨g0, g1⟩ := key setup.imp_grad setup.min_imp_grad setup.imp_grad_step setup.num_grads
    hgs hg1 hg2
  obtain ⟨i0, i1⟩ := key setup.avg_imp setup.min_avg_imp setup.avg_imp_step setup.num_imps
    his hi1 hi2
  intro p hp
  simp only [efld_grad_indices, List.flatMap_cons, List.flatMap_nil, List.map_cons, List.map_nil,
    List.append_nil, List.cons_append, List.nil_append, List.mem_cons, List.mem_singleton,
    List.not_mem_nil, or_false] at hp
  rcases hp with h | h | h | h <;> rw [h] <;> simp <;> omega

/-- Claim C21, evaluated: in the example the gradient setpoint 1 is the upper
end `min_imp_grad + (num_grads - 1) * imp_grad_step` of the tabulated range
(two gradient tables, step 1) and the impurity setpoint 0 the lower end of
its range; `get_efld_grad` then reads the gradient indices 1 and 2, and 2 is
not below `num_grads = 2`. With a single gradient table and a single impurity
table the indices read are 0 and 1 on both axes. -/
theorem get_efld_grad_reads_past_last_table :
    (exSetupNode.min_imp_grad ≤ exSetupNode.imp_grad
      ∧ exSetupNode.imp_grad
          ≤ exSetupNode.min_imp_grad + (exSetupNode.num_grads - 1) * exSetupNode.imp_grad_step
      ∧ exSetupNode.min_avg_imp ≤ exSetupNode.avg_imp
      ∧ exSetupNode.avg_imp
          ≤ exSetupNode.min_avg_imp + (exSetupNode.num_imps - 1) * exSetupNode.avg_imp_step)
    ∧ exSetupNode.num_grads = 2
    ∧ efld_grad_indices exSetupNode = [(1, 0), (1, 1), (2, 0), (2, 1)]
    ∧ ¬ (∀ p ∈ efld_grad_indices exSetupNode, p.1 < exSetupNode.num_grads)
    ∧ (exSetupFlat.num_grads = 1 ∧ exSetupFlat.num_imps = 1
      ∧ efld_grad_indices exSetupFlat = [(0, 0), (0, 1), (1, 0), (1, 1)]) := by
  decide!

/-! ## The number of rows of the table read from a file -/

/-- Claim C30, evaluated: the example file has three usable 7-field data
rows. When the data ends at the end of the file or at an `e` line,
`setup_velo` succeeds with `v_lookup_len = 3`. When the data ends at a line
that does not convert as 7 numbers, `setup_velo` succeeds with
`v_lookup_len = 4`, the fourth row being built from the content of the static
buffer; with one usable row followed by such a line it succeeds with
`v_lookup_len = 2`. -/
theorem setup_velo_counts_unparsed_line :
    ((exFile.filter (fun l => decide (sscanf_count 7 l.fields = 7))).length = 3
      ∧ (setup_velo exExtern (some exFile) exBuf (exSetup 0)).1 = 0
      ∧ (setup_velo exExtern (some exFile) exBuf (exSetup 0)).2.1.v_lookup_len = 3)
    ∧ ((exFileParams.filter (fun l => decide (sscanf_count 7 l.fields = 7))).length = 3
      ∧ (setup_velo exExtern (some exFileParams) exBuf (exSetup 0)).1 = 0
      ∧ (setup_velo exExtern (some exFileParams) exBuf (exSetup 0)).2.1.v_lookup_len = 3)
    ∧ ((exFileBadTail.filter (fun l => decide (sscanf_count 7 l.fields = 7))).length = 3
      ∧ (setup_velo exExtern (some exFileBadTail) exBuf (exSetup 0)).1 = 0
      ∧ (setup_velo exExtern (some exFileBadTail) exBuf (exSetup 0)).2.1.v_lookup_len = 4
      ∧ (setup_velo exExtern (some exFileBadTail) exBuf (exSetup 0)).2.1.v_lookup.length = 4)
    ∧ ((exFileOneRowBadTail.filter (fun l => decide (sscanf_count 7 l.fields = 7))).length = 1
      ∧ (setup_velo exExtern (some exFileOneRowBadTail) exBuf (exSetup 0)).1 = 0
      ∧ (setup_velo exExtern (some exFileOneRowBadTail) exBuf (exSetup 0)).2.1.v_lookup_len = 2) := by
  decide!

/-! ## Monotonicity of the cumulative integral -/

/-- In the table that the cumulative stage makes of `A` the cumulative
coefficients of row 0 are zero and those of a row `k ≥ 1` are the
claim-worded trapezoidal quotients. -/
theorem cumul_coeffs_spec (A : List (velocity_lookup F)) (i : Nat) (hlen : i < A.length) :
    ((cumul_coeffs A).getD 0 velocity_lookup.zero).ebp = 0
    ∧ ((cumul_coeffs A).getD 0 velocity_lookup.zero).ecp = 0
    ∧ ((cumul_coeffs A).getD 0 velocity_lookup.zero).hbp = 0
    ∧ ((cumul_coeffs A).getD 0 velocity_lookup.zero).hcp = 0
    ∧ (1 ≤ i →
      ((cumul_coeffs A).getD i velocity_lookup.zero).ebp
          = trap_spec (cumul_coeffs A) velocity_lookup.eb i
      ∧ ((cumul_coeffs A).getD i velocity_lookup.zero).ecp
          = trap_spec (cumul_coeffs A) velocity_lookup.ec i
      ∧ ((cumul_coeffs A).getD i velocity_lookup.zero).hbp
          = trap_spec (cumul_coeffs A) velocity_lookup.hb i
      ∧ ((cumul_coeffs A).getD i velocity_lookup.zero).hcp
          = trap_spec (cumul_coeffs A) velocity_lookup.hc i) := by
  obtain ⟨c1, c2, c3, c4⟩ := cumul_coeffs_columns A
  have hclear : ∀ k, clear_cumul ((cumul_coeffs A).getD k velocity_lookup.zero)
      = clear_cumul (A.getD k velocity_lookup.zero) := fun k => cumul_coeffs_clear A k
  have he : ∀ k, ((cumul_coeffs A).getD k velocity_lookup.zero).e
      = (A.getD k velocity_lookup.zero).e :=
    fun k => (congrArg velocity_lookup.e (hclear k) :)
  have g1 : ∀ k, ((cumul_coeffs A).getD k velocity_lookup.zero).ebp
      = (trap_column A velocity_lookup.eb).getD k 0 := by
    intro k
    rw [← c1]
    exact (getD_map_default velocity_lookup.ebp (cumul_coeffs A) k velocity_lookup.zero).symm
  have g2 : ∀ k, ((cumul_coeffs A).getD k velocity_lookup.zero).ecp
      = (trap_column A velocity_lookup.ec).getD k 0 := by
    intro k
    rw [← c2]
    exact (getD_map_default velocity_lookup.ecp (cumul_coeffs A) k velocity_lookup.zero).symm
  have g3 : ∀ k, ((cumul_coeffs A).getD k velocity_lookup.zero).hbp
      = (trap_column A velocity_lookup.hb).getD k 0 := by
    intro k
    rw [← c3]
    exact (getD_map_default velocity_lookup.hbp (cumul_coeffs A) k velocity_lookup.zero).symm
  have g4 : ∀ k, ((cumul_coeffs A).getD k velocity_lookup.zero).hcp
      = (trap_column A velocity_lookup.hc).getD k 0 := by
    intro k
    rw [← c4]
    exact (getD_map_default velocity_lookup.hcp (cumul_coeffs A) k velocity_lookup.zero).symm
  have hzero : (trap_column A velocity_lookup.eb).getD 0 0 = 0
      ∧ (trap_column A velocity_lookup.ec).getD 0 0 = 0
      ∧ (trap_column A velocity_lookup.hb).getD 0 0 = 0
      ∧ (trap_column A velocity_lookup.hc).getD 0 0 = 0 := by
    cases A with
    | nil => simp at hlen
    | cons v rest => exact ⟨rfl, rfl, rfl, rfl⟩
  refine ⟨(g1 0).trans hzero.1, (g2 0).trans hzero.2.1, (g3 0).trans hzero.2.2.1,
    (g4 0).trans hzero.2.2.2, ?_⟩
  intro h1
  rw [g1, g2, g3, g4]
  rw [trap_spec_congr (cumul_coeffs A) A velocity_lookup.eb i he
        (fun k => (congrArg velocity_lookup.eb (hclear k) :)),
      trap_spec_congr (cumul_coeffs A) A velocity_lookup.ec i he
        (fun k => (congrArg velocity_lookup.ec (hclear k) :)),
      trap_spec_congr (cumul_coeffs A) A velocity_lookup.hb i he
        (fun k => (congrArg velocity_lookup.hb (hclear k) :)),
      trap_spec_congr (cumul_coeffs A) A velocity_lookup.hc i he
        (fun k => (congrArg velocity_lookup.hc (hclear k) :))]
  exact ⟨trap_column_getD A velocity_lookup.eb rfl i h1 hlen,
    trap_column_getD A velocity_lookup.ec rfl i h1 hlen,
    trap_column_getD A velocity_lookup.hb rfl i h1 hlen,
    trap_column_getD A velocity_lookup.hc rfl i h1 hlen⟩

/-- The trapezoidal sum up to row `i + 1` is the sum up to row `i` plus the
trapezoid between the two rows. -/
theorem trap_sum_succ (t : List (velocity_lookup F)) (b : velocity_lookup F → F) (i : Nat) :
    trap_sum t b (i + 1) = trap_sum t b i
      + ((t.getD (i + 1) velocity_lookup.zero).e - (t.getD i velocity_lookup.zero).e)
        * (b (t.getD i velocity_lookup.zero) + b (t.getD (i + 1) velocity_lookup.zero)) / 2 := by
  unfold trap_sum
  rw [Finset.sum_Icc_succ_top (by omega)]
  rfl

/-- For a table with increasing non-negative fields, a non-negative column
`b`, and a column `bp` that is zero in row 0 and the claim-worded trapezoidal
quotient in the rows after it: the product `e * bp` is the trapezoidal sum,
it does not decrease from a row to the next, and `bp` is non-negative. -/
theorem trap_column_monotone (t : List (velocity_lookup F)) (b bp : velocity_lookup F → F)
    (h0 : 0 ≤ (t.getD 0 velocity_lookup.zero).e)
    (hinc : ∀ k, k + 1 < t.length →
      (t.getD k velocity_lookup.zero).e < (t.getD (k + 1) velocity_lookup.zero).e)
    (hb : ∀ k, k < t.length → 0 ≤ b (t.getD k velocity_lookup.zero))
    (hbp0 : bp (t.getD 0 velocity_lookup.zero) = 0)
    (hbp : ∀ k, 1 ≤ k → k < t.length →
      bp (t.getD k velocity_lookup.zero) = trap_spec t b k)
    (i : Nat) (h : i + 1 < t.length) :
    (t.getD i velocity_lookup.zero).e * bp (t.getD i velocity_lookup.zero)
      ≤ (t.getD (i + 1) velocity_lookup.zero).e * bp (t.getD (i + 1) velocity_lookup.zero)
    ∧ (t.getD (i + 1) velocity_lookup.zero).e * bp (t.getD (i + 1) velocity_lookup.zero)
      = trap_sum t b (i + 1)
    ∧ 0 ≤ bp (t.getD i velocity_lookup.zero)
    ∧ 0 ≤ bp (t.getD (i + 1) velocity_lookup.zero) := by
  have hpos : ∀ k, k + 1 < t.length → 0 < (t.getD (k + 1) velocity_lookup.zero).e := by
    intro k
    induction k with
    | zero => exact fun hk => lt_of_le_of_lt h0 (hinc 0 hk)
    | succ n ih => exact fun hk => lt_trans (ih (by omega)) (hinc (n + 1) hk)
  have hnn : ∀ k, k < t.length → 0 ≤ (t.getD k velocity_lookup.zero).e := by
    intro k hk
    cases k with
    | zero => exact h0
    | succ n => exact le_of_lt (hpos n hk)
  have hsum : ∀ k, k < t.length → 0 ≤ trap_sum t b k := by
    intro k
    induction k with
    | zero =>
      intro _
      simp [trap_sum]
    | succ n ih =>
      intro hk
      rw [trap_sum_succ]
      have h1 := ih (by omega)
      have h2 := hinc n hk
      have h3 := hb n (by omega)
      have h4 := hb (n + 1) hk
      have h5 : 0 ≤ ((t.getD (n + 1) velocity_lookup.zero).e - (t.getD n velocity_lookup.zero).e)
          * (b (t.getD n velocity_lookup.zero) + b (t.getD (n + 1) velocity_lookup.zero)) / 2 :=
        div_nonneg (mul_nonneg (by linarith) (by linarith)) (by norm_num)
      linarith
  have hprod : ∀ k, k < t.length →
      (t.getD k velocity_lookup.zero).e * bp (t.getD k velocity_lookup.zero) = trap_sum t b k := by
    intro k hk
    cases k with
    | zero =>
      rw [hbp0]
      simp [trap_sum]
    | succ n =>
      rw [hbp (n + 1) (by omega) hk]
      unfold trap_spec
      exact mul_div_cancel₀ _ (ne_of_gt (hpos n hk))
  have hbpnn : ∀ k, k < t.length → 0 ≤ bp (t.getD k velocity_lookup.zero) := by
    intro k hk
    cases k with
    | zero => rw [hbp0]
    | succ n =>
      rw [hbp (n + 1) (by omega) hk]
      exact div_nonneg (hsum (n + 1) hk) (le_of_lt (hpos n hk))
  refine ⟨?_, hprod (i + 1) h, hbpnn i (by omega), hbpnn (i + 1) h⟩
  rw [hprod i (by omega), hprod (i + 1) h, trap_sum_succ]
  have h2 := hinc i h
  have h3 := hb i (by omega)
  have h4 := hb (i + 1) h
  have h5 : 0 ≤ ((t.getD (i + 1) velocity_lookup.zero).e - (t.getD i velocity_lookup.zero).e)
      * (b (t.getD i velocity_lookup.zero) + b (t.getD (i + 1) velocity_lookup.zero)) / 2 :=
    div_nonneg (mul_nonneg (by linarith) (by linarith)) (by norm_num)
  linarith

/-- Counterexample to claim C22 as worded: the table built at 77 K from raw
rows at the fields 1, 2, 3 with `<110>` electron speeds 1/4, 1/8, 0 has the
non-negative coefficients `eb = 4, 2, 0` and the cumulative coefficients
`ebp = 0, 3/2, 4/3`: `ebp` falls from row 1 to row 2. -/
theorem cumulative_coefficient_not_monotone :
    (build_velo_table exExtern temp_params.default 77 exRawDip).map
        (fun v => (v.e, v.eb, v.ebp))
      = [(1, 4, 0), (2, 2, 3 / 2), (3, 0, 4 / 3)]
    ∧ ¬ (((build_velo_table exExtern temp_params.default 77 exRawDip).getD 1
            velocity_lookup.zero).ebp
          ≤ ((build_velo_table exExtern temp_params.default 77 exRawDip).getD 2
            velocity_lookup.zero).ebp) := by
  decide!

/-- Claim C22, amended. In a built table with strictly increasing fields that
start at a non-negative value, for each of the four coefficient columns
(`eb`, `ec`, `hb`, `hc`) that is non-negative at every row: the running
integral `e[i] * bp[i]` (the trapezoidal sum up to row `i`) is non-decreasing,
`e[i] * bp[i] ≤ e[i+1] * bp[i+1]`, and the cumulative coefficient itself is
non-negative at both rows. -/
theorem cumulative_integral_monotone (X : Extern F) (p : temp_params F) (T : F)
    (raw : List (velocity_lookup F)) (i : Nat)
    (h : i + 1 < (build_velo_table X p T raw).length)
    (h0 : 0 ≤ ((build_velo_table X p T raw).getD 0 velocity_lookup.zero).e)
    (hinc : ∀ k, k + 1 < (build_velo_table X p T raw).length →
      ((build_velo_table X p T raw).getD k velocity_lookup.zero).e
        < ((build_velo_table X p T raw).getD (k + 1) velocity_lookup.zero).e) :
    let t := build_velo_table X p T raw
    ((∀ k, k < t.length → 0 ≤ (t.getD k velocity_lookup.zero).eb) →
      (t.getD i velocity_lookup.zero).e * (t.getD i velocity_lookup.zero).ebp
        ≤ (t.getD (i + 1) velocity_lookup.zero).e * (t.getD (i + 1) velocity_lookup.zero).ebp
      ∧ (t.getD (i + 1) velocity_lookup.zero).e * (t.getD (i + 1) velocity_lookup.zero).ebp
        = trap_sum t velocity_lookup.eb (i + 1)
      ∧ 0 ≤ (t.getD i velocity_lookup.zero).ebp ∧ 0 ≤ (t.getD (i + 1) velocity_lookup.zero).ebp)
    ∧ ((∀ k, k < t.length → 0 ≤ (t.getD k velocity_lookup.zero).ec) →
      (t.getD i velocity_lookup.zero).e * (t.getD i velocity_lookup.zero).ecp
        ≤ (t.getD (i + 1) velocity_lookup.zero).e * (t.getD (i + 1) velocity_lookup.zero).ecp
      ∧ (t.getD (i + 1) velocity_lookup.zero).e * (t.getD (i + 1) velocity_lookup.zero).ecp
        = trap_sum t velocity_lookup.ec (i + 1)
      ∧ 0 ≤ (t.getD i velocity_lookup.zero).ecp ∧ 0 ≤ (t.getD (i + 1) velocity_lookup.zero).ecp)
    ∧ ((∀ k, k < t.length → 0 ≤ (t.getD k velocity_lookup.zero).hb) →
      (t.getD i velocity_lookup.zero).e * (t.getD i velocity_lookup.zero).hbp
        ≤ (t.getD (i + 1) velocity_lookup.zero).e * (t.getD (i + 1) velocity_lookup.zero).hbp
      ∧ (t.getD (i + 1) velocity_lookup.zero).e * (t.getD (i + 1) velocity_lookup.zero).hbp
        = trap_sum t velocity_lookup.hb (i + 1)
      ∧ 0 ≤ (t.getD i velocity_lookup.zero).hbp ∧ 0 ≤ (t.getD (i + 1) velocity_lookup.zero).hbp)
    ∧ ((∀ k, k < t.length → 0 ≤ (t.getD k velocity_lookup.zero).hc) →
      (t.getD i velocity_lookup.zero).e * (t.getD i velocity_lookup.zero).hcp
        ≤ (t.getD (i + 1) velocity_lookup.zero).e * (t.getD (i + 1) velocity_lookup.zero).hcp
      ∧ (t.getD (i + 1) velocity_lookup.zero).e * (t.getD (i + 1) velocity_lookup.zero).hcp
        = trap_sum t velocity_lookup.hc (i + 1)
      ∧ 0 ≤ (t.getD i velocity_lookup.zero).hcp ∧ 0 ≤ (t.getD (i + 1) velocity_lookup.zero).hcp) := by
  intro t
  have ht : t = cumul_coeffs
      (aniso_coeffs (temp_correct_h X p T (temp_correct_e X p T raw))) := rfl
  generalize aniso_coeffs (temp_correct_h X p T (temp_correct_e X p T raw)) = A at ht
  have hA : ∀ k, k < t.length → k < A.length := by
    intro k hk
    rw [ht, cumul_coeffs_length] at hk
    exact hk
  have hz := cumul_coeffs_spec A 0 (hA 0 (by have : i + 1 < t.length := h; omega))
  rw [← ht] at hz
  have hs : ∀ k, 1 ≤ k → k < t.length →
      (t.getD k velocity_lookup.zero).ebp = trap_spec t velocity_lookup.eb k
      ∧ (t.getD k velocity_lookup.zero).ecp = trap_spec t velocity_lookup.ec k
      ∧ (t.getD k velocity_lookup.zero).hbp = trap_spec t velocity_lookup.hb k
      ∧ (t.getD k velocity_lookup.zero).hcp = trap_spec t velocity_lookup.hc k := by
    intro k h1 hk
    have := (cumul_coeffs_spec A k (hA k hk)).2.2.2.2 h1
    rw [← ht] at this
    exact this
  refine ⟨fun hb => ?_, fun hb => ?_, fun hb => ?_, fun hb => ?_⟩
  · exact trap_column_monotone t velocity_lookup.eb velocity_lookup.ebp h0 hinc hb hz.1
      (fun k h1 hk => (hs k h1 hk).1) i h
  · exact trap_column_monotone t velocity_lookup.ec velocity_lookup.ecp h0 hinc hb hz.2.1
      (fun k h1 hk => (hs k h1 hk).2.1) i h
  · exact trap_column_monotone t velocity_lookup.hb velocity_lookup.hbp h0 hinc hb hz.2.2.1
      (fun k h1 hk => (hs k h1 hk).2.2.1) i h
  · exact trap_column_monotone t velocity_lookup.hc velocity_lookup.hcp h0 hinc hb hz.2.2.2.1
      (fun k h1 hk => (hs k h1 hk).2.2.2) i h

/-- Witness for claim C22: rows 1 and 2 of the table of the counterexample,
where `ebp` falls from 3/2 to 4/3 while `e * ebp` rises from 3 to 4. -/
theorem cumulative_integral_monotone_witness :
    (1 + 1 < (build_velo_table exExtern temp_params.default 77 exRawDip).length
      ∧ 0 ≤ ((build_velo_table exExtern temp_params.default 77 exRawDip).getD 0
              velocity_lookup.zero).e)
    ∧ ((build_velo_table exExtern temp_params.default 77 exRawDip).getD 1 velocity_lookup.zero).e
        * ((build_velo_table exExtern temp_params.default 77 exRawDip).getD 1
            velocity_lookup.zero).ebp = 3
    ∧ ((build_velo_table exExtern temp_params.default 77 exRawDip).getD 2 velocity_lookup.zero).e
        * ((build_velo_table exExtern temp_params.default 77 exRawDip).getD 2
            velocity_lookup.zero).ebp = 4
    ∧ ((build_velo_table exExtern temp_params.default 77 exRawDip).getD 1 velocity_lookup.zero).e
        * ((build_velo_table exExtern temp_params.default 77 exRawDip).getD 1
            velocity_lookup.zero).ebp
      ≤ ((build_velo_table exExtern temp_params.default 77 exRawDip).getD (1 + 1)
            velocity_lookup.zero).e
        * ((build_velo_table exExtern temp_params.default 77 exRawDip).getD (1 + 1)
            velocity_lookup.zero).ebp := by
  have hlen : (build_velo_table exExtern temp_params.default 77 exRawDip).length = 3 := by
    decide!
  have hinc : ∀ k, k + 1 < (build_velo_table exExtern temp_params.default 77 exRawDip).length →
      ((build_velo_table exExtern temp_params.default 77 exRawDip).getD k velocity_lookup.zero).e
        < ((build_velo_table exExtern temp_params.default 77 exRawDip).getD (k + 1)
            velocity_lookup.zero).e := by
    intro k hk
    rw [hlen] at hk
    have hk2 : k < 2 := by omega
    interval_cases k
    · decide!
    · decide!
  have hb : ∀ k, k < (build_velo_table exExtern temp_params.default 77 exRawDip).length →
      0 ≤ ((build_velo_table exExtern temp_params.default 77 exRawDip).getD k
            velocity_lookup.zero).eb := by
    intro k hk
    rw [hlen] at hk
    interval_cases k
    · decide!
    · decide!
    · decide!
  exact ⟨⟨by decide!, by decide!⟩, by decide!, by decide!,
    ((cumulative_integral_monotone exExtern temp_params.default 77 exRawDip 1 (by decide!)
      (by decide!) hinc).1 hb).1⟩

/-! ## Interior points -/

/-- On a memo miss with code 0 the index returned by the locator is the
truncated grid index of the point itself. -/
theorem locator_interior_index (X : Extern F) (pt : cyl_pt F) (ipt : cyl_int_pt)
    (setup : MJD_Siggen_Setup F) (m : LocatorMemo F)
    (hmiss : ¬ (m.last_ret ≠ -99 ∧ pt.r = m.last_pt.r ∧ pt.z = m.last_pt.z))
    (h0 : (nearest_field_grid_index X pt ipt setup m).1 = 0) :
    (nearest_field_grid_index X pt ipt setup m).2.1
      = ⟨float_to_int ((pt.r - setup.rmin) / setup.rstep), 0,
         float_to_int ((pt.z - setup.zmin) / setup.zstep)⟩ := by
  unfold nearest_field_grid_index at h0 ⊢
  rw [if_neg hmiss] at h0 ⊢
  by_cases hout : X.outside_detector_cyl pt setup = true
  · simp only [hout, if_true] at h0
    norm_num at h0
  · simp only [hout, Bool.false_eq_true, if_false] at h0 ⊢
    cases hfind : shift_order.find? (fun c => efield_exists X (shifted_pt pt setup c) setup) with
    | none =>
      rw [hfind] at h0
      norm_num at h0
    | some c =>
      rw [hfind] at h0
      simp only at h0 ⊢
      have hc : c.2 = 0 ∧ c.1 = 0 := by
        by_contra hne
        rw [if_neg hne] at h0
        norm_num at h0
      have hc0 : c = (0, 0) := Prod.ext hc.2 hc.1
      subst hc0
      rw [shifted_pt_zero]

/-- Truncation of a non-negative value leaves a fractional part in `[0, 1)`. -/
theorem float_to_int_fract (x : F) (hx : 0 ≤ x) :
    0 ≤ x - (float_to_int x : F) ∧ x - (float_to_int x : F) < 1 := by
  unfold float_to_int
  rw [if_pos hx]
  have h1 := Int.floor_le x
  have h2 := Int.lt_floor_add_one x
  constructor <;> linarith

/-- A bilinear blend with fractions in `[0, 1]` lies between the minimum and
the maximum of the four values. -/
theorem bilinear_between (r z s00 s01 s10 s11 : F) (hr0 : 0 ≤ r) (hr1 : r ≤ 1)
    (hz0 : 0 ≤ z) (hz1 : z ≤ 1) :
    min (min s00 s01) (min s10 s11)
      ≤ (1 - r) * (1 - z) * s00 + (1 - r) * z * s01 + r * (1 - z) * s10 + r * z * s11
    ∧ (1 - r) * (1 - z) * s00 + (1 - r) * z * s01 + r * (1 - z) * s10 + r * z * s11
      ≤ max (max s00 s01) (max s10 s11) := by
  have w00 : 0 ≤ (1 - r) * (1 - z) := mul_nonneg (by linarith) (by linarith)
  have w01 : 0 ≤ (1 - r) * z := mul_nonneg (by linarith) hz0
  have w10 : 0 ≤ r * (1 - z) := mul_nonneg hr0 (by linarith)
  have w11 : 0 ≤ r * z := mul_nonneg hr0 hz0
  constructor
  · have l00 : min (min s00 s01) (min s10 s11) ≤ s00 :=
      le_trans (min_le_left _ _) (min_le_left _ _)
    have l01 : min (min s00 s01) (min s10 s11) ≤ s01 :=
      le_trans (min_le_left _ _) (min_le_right _ _)
    have l10 : min (min s00 s01) (min s10 s11) ≤ s10 :=
      le_trans (min_le_right _ _) (min_le_left _ _)
    have l11 : min (min s00 s01) (min s10 s11) ≤ s11 :=
      le_trans (min_le_right _ _) (min_le_right _ _)
    generalize min (min s00 s01) (min s10 s11) = lo at l00 l01 l10 l11 ⊢
    have e00 := mul_nonneg w00 (sub_nonneg.mpr l00)
    have e01 := mul_nonneg w01 (sub_nonneg.mpr l01)
    have e10 := mul_nonneg w10 (sub_nonneg.mpr l10)
    have e11 := mul_nonneg w11 (sub_nonneg.mpr l11)
    nlinarith [e00, e01, e10, e11]
  · have l00 : s00 ≤ max (max s00 s01) (max s10 s11) :=
      le_trans (le_max_left _ _) (le_max_left _ _)
    have l01 : s01 ≤ max (max s00 s01) (max s10 s11) :=
      le_trans (le_max_right _ _) (le_max_left _ _)
    have l10 : s10 ≤ max (max s00 s01) (max s10 s11) :=
      le_trans (le_max_left _ _) (le_max_right _ _)
    have l11 : s11 ≤ max (max s00 s01) (max s10 s11) :=
      le_trans (le_max_right _ _) (le_max_right _ _)
    generalize max (max s00 s01) (max s10 s11) = hi at l00 l01 l10 l11 ⊢
    have e00 := mul_nonneg w00 (sub_nonneg.mpr l00)
    have e01 := mul_nonneg w01 (sub_nonneg.mpr l01)
    have e10 := mul_nonneg w10 (sub_nonneg.mpr l10)
    have e11 := mul_nonneg w11 (sub_nonneg.mpr l11)
    nlinarith [e00, e01, e10, e11]

/-- A product of two values in `[0, 1]` lies in `[0, 1]`. -/
theorem unit_product_bounds (a b : F) (ha0 : 0 ≤ a) (ha1 : a ≤ 1) (hb0 : 0 ≤ b) (hb1 : b ≤ 1) :
    0 ≤ a * b ∧ a * b ≤ 1 := by
  refine ⟨mul_nonneg ha0 hb0, ?_⟩
  have h1 : a * b ≤ 1 * b := mul_le_mul_of_nonneg_right ha1 hb0
  linarith

/-- The four weights of `grid_weights` as products of the fractional offsets. -/
theorem grid_weights_eq (pt : cyl_pt F) (ipt : cyl_int_pt) (setup : MJD_Siggen_Setup F) :
    grid_weights pt ipt setup 0 0
        = (1 - ((pt.r - setup.rmin) / setup.rstep - ipt.r))
          * (1 - ((pt.z - setup.zmin) / setup.zstep - ipt.z))
    ∧ grid_weights pt ipt setup 0 1
        = (1 - ((pt.r - setup.rmin) / setup.rstep - ipt.r))
          * ((pt.z - setup.zmin) / setup.zstep - ipt.z)
    ∧ grid_weights pt ipt setup 1 0
        = ((pt.r - setup.rmin) / setup.rstep - ipt.r)
          * (1 - ((pt.z - setup.zmin) / setup.zstep - ipt.z))
    ∧ grid_weights pt ipt setup 1 1
        = ((pt.r - setup.rmin) / setup.rstep - ipt.r)
          * ((pt.z - setup.zmin) / setup.zstep - ipt.z) := by
  have h10 : (1.0 : F) = 1 := by norm_num
  simp [grid_weights, h10]

/-- The value that `wpotential` writes when the locator code is not
negative: the four samples around the returned index, weighted by
`grid_weights`. -/
theorem wpotential_value (X : Extern F) (pt : point F) (wp : F) (setup : MJD_Siggen_Setup F)
    (m : LocatorMemo F) (cyl0 : cyl_pt F) (ipt0 : cyl_int_pt)
    (h : ¬ (nearest_field_grid_index X ⟨X.sqrt (pt.x * pt.x + pt.y * pt.y), cyl0.phi, pt.z⟩
              ipt0 setup m).1 < 0) :
    (wpotential X pt wp setup m cyl0 ipt0).1 = 0
    ∧ (wpotential X pt wp setup m cyl0 ipt0).2.1
      = grid_weights ⟨X.sqrt (pt.x * pt.x + pt.y * pt.y), cyl0.phi, pt.z⟩
            (nearest_field_grid_index X ⟨X.sqrt (pt.x * pt.x + pt.y * pt.y), cyl0.phi, pt.z⟩
              ipt0 setup m).2.1 setup 0 0
          * get_wpot_by_index
              ((nearest_field_grid_index X ⟨X.sqrt (pt.x * pt.x + pt.y * pt.y), cyl0.phi, pt.z⟩
                ipt0 setup m).2.1.r + 0)
              ((nearest_field_grid_index X ⟨X.sqrt (pt.x * pt.x + pt.y * pt.y), cyl0.phi, pt.z⟩
                ipt0 setup m).2.1.z + 0) setup
        + grid_weights ⟨X.sqrt (pt.x * pt.x + pt.y * pt.y), cyl0.phi, pt.z⟩
            (nearest_field_grid_index X ⟨X.sqrt (pt.x * pt.x + pt.y * pt.y), cyl0.phi, pt.z⟩
              ipt0 setup m).2.1 setup 0 1
          * get_wpot_by_index
              ((nearest_field_grid_index X ⟨X.sqrt (pt.x * pt.x + pt.y * pt.y), cyl0.phi, pt.z⟩
                ipt0 setup m).2.1.r + 0)
              ((nearest_field_grid_index X ⟨X.sqrt (pt.x * pt.x + pt.y * pt.y), cyl0.phi, pt.z⟩
                ipt0 setup m).2.1.z + 1) setup
        + grid_weights ⟨X.sqrt (pt.x * pt.x + pt.y * pt.y), cyl0.phi, pt.z⟩
            (nearest_field_grid_index X ⟨X.sqrt (pt.x * pt.x + pt.y * pt.y), cyl0.phi, pt.z⟩
              ipt0 setup m).2.1 setup 1 0
          * get_wpot_by_index
              ((nearest_field_grid_index X ⟨X.sqrt (pt.x * pt.x + pt.y * pt.y), cyl0.phi, pt.z⟩
                ipt0 setup m).2.1.r + 1)
              ((nearest_field_grid_index X ⟨X.sqrt (pt.x * pt.x + pt.y * pt.y), cyl0.phi, pt.z⟩
                ipt0 setup m).2.1.z + 0) setup
        + grid_weights ⟨X.sqrt (pt.x * pt.x + pt.y * pt.y), cyl0.phi, pt.z⟩
            (nearest_field_grid_index X ⟨X.sqrt (pt.x * pt.x + pt.y * pt.y), cyl0.phi, pt.z⟩
              ipt0 setup m).2.1 setup 1 1
          * get_wpot_by_index
              ((nearest_field_grid_index X ⟨X.sqrt (pt.x * pt.x + pt.y * pt.y), cyl0.phi, pt.z⟩
                ipt0 setup m).2.1.r + 1)
              ((nearest_field_grid_index X ⟨X.sqrt (pt.x * pt.x + pt.y * pt.y), cyl0.phi, pt.z⟩
                ipt0 setup m).2.1.z + 1) setup := by
  unfold wpotential
  simp only []
  rw [if_neg h]
  constructor
  · trivial
  · simp only [List.foldl]
    norm_num

/-- Counterexample to claim C28 as worded: `wpotential` is called at the
point `(x, y, z) = (1, 0, 1)` first for the example setup of unit step, then
for the setup of step 1/4 on the same crystal. The second call finds the
point in the memo: the locator returns the code 0 with the index `(1, 1)` of
the first grid, for a point with `r ≥ rmin`, `z ≥ zmin` and positive steps.
The fractional offsets are then 3, the weight `w[0][1]` is -6, and the value
written, 1209/50, is above the largest of the four samples (9/4, 64/25,
841/100, 9) that are read; with an empty memo the value is 36. -/
theorem stale_memo_extrapolates :
    (0 < exSetupFine.rstep ∧ 0 < exSetupFine.zstep
      ∧ exSetupFine.rmin ≤ exExtern.sqrt (1 * 1 + 0 * 0) ∧ exSetupFine.zmin ≤ 1)
    ∧ exExtern.sqrt (1 * 1 + 0 * 0) = 1
    ∧ (nearest_field_grid_index exExtern ⟨1, 0, 1⟩ ⟨0, 0, 0⟩ exSetupFine
        (wpotential exExtern ⟨1, 0, 1⟩ 0 (exSetup 0) LocatorMemo.init ⟨0, 0, 0⟩ ⟨0, 0, 0⟩).2.2).1 = 0
    ∧ (nearest_field_grid_index exExtern ⟨1, 0, 1⟩ ⟨0, 0, 0⟩ exSetupFine
        (wpotential exExtern ⟨1, 0, 1⟩ 0 (exSetup 0) LocatorMemo.init ⟨0, 0, 0⟩ ⟨0, 0, 0⟩).2.2).2.1
        = ⟨1, 0, 1⟩
    ∧ ((1 : ℚ) - exSetupFine.rmin) / exSetupFine.rstep - ((1 : Int) : ℚ) = 3
    ∧ ((1 : ℚ) - exSetupFine.zmin) / exSetupFine.zstep - ((1 : Int) : ℚ) = 3
    ∧ grid_weights ⟨1, 0, 1⟩ ⟨1, 0, 1⟩ exSetupFine 0 1 = -6
    ∧ [get_wpot_by_index 1 1 exSetupFine, get_wpot_by_index 1 2 exSetupFine,
       get_wpot_by_index 2 1 exSetupFine, get_wpot_by_index 2 2 exSetupFine]
        = [9 / 4, 64 / 25, 841 / 100, 9]
    ∧ (wpotential exExtern ⟨1, 0, 1⟩ 0 exSetupFine
        (wpotential exExtern ⟨1, 0, 1⟩ 0 (exSetup 0) LocatorMemo.init ⟨0, 0, 0⟩ ⟨0, 0, 0⟩).2.2
        ⟨0, 0, 0⟩ ⟨0, 0, 0⟩).1 = 0
    ∧ (wpotential exExtern ⟨1, 0, 1⟩ 0 exSetupFine
        (wpotential exExtern ⟨1, 0, 1⟩ 0 (exSetup 0) LocatorMemo.init ⟨0, 0, 0⟩ ⟨0, 0, 0⟩).2.2
        ⟨0, 0, 0⟩ ⟨0, 0, 0⟩).2.1 = 1209 / 50
    ∧ (wpotential exExtern ⟨1, 0, 1⟩ 0 exSetupFine LocatorMemo.init ⟨0, 0, 0⟩ ⟨0, 0, 0⟩).2.1
        = 36 := by
  decide!

/-- Claim C28, amended: on a memo miss. For positive grid steps and a point
with `r ≥ rmin` and `z ≥ zmin` that the locator, on a memo miss, classifies
with the code 0: the fractional offsets used by `grid_weights` lie in
`[0, 1)`, the four weights lie in `[0, 1]`, and `wpotential` returns 0 and
writes a value between the minimum and the maximum of the four
weighting-potential samples around the returned index. -/
theorem interior_is_interpolated (X : Extern F) (pt : point F) (wp : F)
    (setup : MJD_Siggen_Setup F) (m : LocatorMemo F) (cyl0 : cyl_pt F) (ipt0 : cyl_int_pt)
    (hr : 0 < setup.rstep) (hz : 0 < setup.zstep)
    (hmiss : ¬ (m.last_ret ≠ -99 ∧ X.sqrt (pt.x * pt.x + pt.y * pt.y) = m.last_pt.r
                ∧ pt.z = m.last_pt.z))
    (hrmin : setup.rmin ≤ X.sqrt (pt.x * pt.x + pt.y * pt.y)) (hzmin : setup.zmin ≤ pt.z)
    (h0 : (nearest_field_grid_index X ⟨X.sqrt (pt.x * pt.x + pt.y * pt.y), cyl0.phi, pt.z⟩
            ipt0 setup m).1 = 0) :
    let cyl : cyl_pt F := ⟨X.sqrt (pt.x * pt.x + pt.y * pt.y), cyl0.phi, pt.z⟩
    let loc := nearest_field_grid_index X cyl ipt0 setup m
    let f_r := (cyl.r - setup.rmin) / setup.rstep - loc.2.1.r
    let f_z := (cyl.z - setup.zmin) / setup.zstep - loc.2.1.z
    (0 ≤ f_r ∧ f_r < 1 ∧ 0 ≤ f_z ∧ f_z < 1)
    ∧ (∀ i j : Fin 2, 0 ≤ grid_weights cyl loc.2.1 setup i j
        ∧ grid_weights cyl loc.2.1 setup i j ≤ 1)
    ∧ (wpotential X pt wp setup m cyl0 ipt0).1 = 0
    ∧ min (min (get_wpot_by_index (loc.2.1.r + 0) (loc.2.1.z + 0) setup)
              (get_wpot_by_index (loc.2.1.r + 0) (loc.2.1.z + 1) setup))
          (min (get_wpot_by_index (loc.2.1.r + 1) (loc.2.1.z + 0) setup)
              (get_wpot_by_index (loc.2.1.r + 1) (loc.2.1.z + 1) setup))
        ≤ (wpotential X pt wp setup m cyl0 ipt0).2.1
    ∧ (wpotential X pt wp setup m cyl0 ipt0).2.1
        ≤ max (max (get_wpot_by_index (loc.2.1.r + 0) (loc.2.1.z + 0) setup)
                  (get_wpot_by_index (loc.2.1.r + 0) (loc.2.1.z + 1) setup))
              (max (get_wpot_by_index (loc.2.1.r + 1) (loc.2.1.z + 0) setup)
                  (get_wpot_by_index (loc.2.1.r + 1) (loc.2.1.z + 1) setup)) := by
  intro cyl loc f_r f_z
  have hidx : loc.2.1 = ⟨float_to_int ((cyl.r - setup.rmin) / setup.rstep), 0,
      float_to_int ((cyl.z - setup.zmin) / setup.zstep)⟩ :=
    locator_interior_index X cyl ipt0 setup m hmiss h0
  have hqr : 0 ≤ (cyl.r - setup.rmin) / setup.rstep :=
    div_nonneg (sub_nonneg.mpr hrmin) (le_of_lt hr)
  have hqz : 0 ≤ (cyl.z - setup.zmin) / setup.zstep :=
    div_nonneg (sub_nonneg.mpr hzmin) (le_of_lt hz)
  have hfr : f_r = (cyl.r - setup.rmin) / setup.rstep
      - (float_to_int ((cyl.r - setup.rmin) / setup.rstep) : F) := by
    show (cyl.r - setup.rmin) / setup.rstep - ((loc.2.1.r : Int) : F) = _
    rw [hidx]
  have hfz : f_z = (cyl.z - setup.zmin) / setup.zstep
      - (float_to_int ((cyl.z - setup.zmin) / setup.zstep) : F) := by
    show (cyl.z - setup.zmin) / setup.zstep - ((loc.2.1.z : Int) : F) = _
    rw [hidx]
  obtain ⟨r0, r1⟩ := float_to_int_fract _ hqr
  obtain ⟨z0, z1⟩ := float_to_int_fract _ hqz
  rw [← hfr] at r0 r1
  rw [← hfz] at z0 z1
  obtain ⟨w00, w01, w10, w11⟩ := grid_weights_eq cyl loc.2.1 setup
  have hw00 : grid_weights cyl loc.2.1 setup 0 0 = (1 - f_r) * (1 - f_z) := w00
  have hw01 : grid_weights cyl loc.2.1 setup 0 1 = (1 - f_r) * f_z := w01
  have hw10 : grid_weights cyl loc.2.1 setup 1 0 = f_r * (1 - f_z) := w10
  have hw11 : grid_weights cyl loc.2.1 setup 1 1 = f_r * f_z := w11
  have hneg : ¬ (nearest_field_grid_index X ⟨X.sqrt (pt.x * pt.x + pt.y * pt.y), cyl0.phi, pt.z⟩
      ipt0 setup m).1 < 0 := by
    rw [h0]
    norm_num
  obtain ⟨hcode, hval⟩ := wpotential_value X pt wp setup m cyl0 ipt0 hneg
  have hval1 : (wpotential X pt wp setup m cyl0 ipt0).2.1
      = (1 - f_r) * (1 - f_z) * get_wpot_by_index (loc.2.1.r + 0) (loc.2.1.z + 0) setup
        + (1 - f_r) * f_z * get_wpot_by_index (loc.2.1.r + 0) (loc.2.1.z + 1) setup
        + f_r * (1 - f_z) * get_wpot_by_index (loc.2.1.r + 1) (loc.2.1.z + 0) setup
        + f_r * f_z * get_wpot_by_index (loc.2.1.r + 1) (loc.2.1.z + 1) setup := by
    rw [← hw00, ← hw01, ← hw10, ← hw11]
    exact hval
  refine ⟨⟨r0, r1, z0, z1⟩, ?_, hcode, ?_⟩
  · intro i j
    fin_cases i <;> fin_cases j
    · show 0 ≤ grid_weights cyl loc.2.1 setup 0 0 ∧ grid_weights cyl loc.2.1 setup 0 0 ≤ 1
      rw [hw00]
      exact unit_product_bounds _ _ (sub_nonneg.mpr (le_of_lt r1)) (sub_le_self 1 r0)
        (sub_nonneg.mpr (le_of_lt z1)) (sub_le_self 1 z0)
    · show 0 ≤ grid_weights cyl loc.2.1 setup 0 1 ∧ grid_weights cyl loc.2.1 setup 0 1 ≤ 1
      rw [hw01]
      exact unit_product_bounds _ _ (sub_nonneg.mpr (le_of_lt r1)) (sub_le_self 1 r0)
        z0 (le_of_lt z1)
    · show 0 ≤ grid_weights cyl loc.2.1 setup 1 0 ∧ grid_weights cyl loc.2.1 setup 1 0 ≤ 1
      rw [hw10]
      exact unit_product_bounds _ _ r0 (le_of_lt r1)
        (sub_nonneg.mpr (le_of_lt z1)) (sub_le_self 1 z0)
    · show 0 ≤ grid_weights cyl loc.2.1 setup 1 1 ∧ grid_weights cyl loc.2.1 setup 1 1 ≤ 1
      rw [hw11]
      exact unit_product_bounds _ _ r0 (le_of_lt r1)
        z0 (le_of_lt z1)
  · rw [hval1]
    exact bilinear_between f_r f_z _ _ _ _ r0 (le_of_lt r1) z0 (le_of_lt z1)

/-- Witness for claim C28: the point `(x, y, z) = (1, 0, 1/2)` of the example
detector, with an empty memo: the index is `(1, 0)`, the samples around it
are 4/10, 5/10, 8/10, 9/10 and the value written is 9/20. -/
theorem interior_is_interpolated_witness :
    (0 < (exSetup 0).rstep ∧ 0 < (exSetup 0).zstep
      ∧ ¬ ((LocatorMemo.init : LocatorMemo ℚ).last_ret ≠ -99
          ∧ exExtern.sqrt (1 * 1 + 0 * 0) = (LocatorMemo.init : LocatorMemo ℚ).last_pt.r
          ∧ (1 / 2 : ℚ) = (LocatorMemo.init : LocatorMemo ℚ).last_pt.z)
      ∧ (exSetup 0).rmin ≤ exExtern.sqrt (1 * 1 + 0 * 0) ∧ (exSetup 0).zmin ≤ 1 / 2
      ∧ (nearest_field_grid_index exExtern ⟨exExtern.sqrt (1 * 1 + 0 * 0), 0, 1 / 2⟩ ⟨0, 0, 0⟩
          (exSetup 0) LocatorMemo.init).1 = 0)
    ∧ (wpotential exExtern ⟨1, 0, 1 / 2⟩ 0 (exSetup 0) LocatorMemo.init ⟨0, 0, 0⟩ ⟨0, 0, 0⟩).2.1
        = 9 / 20
    ∧ (wpotential exExtern ⟨1, 0, 1 / 2⟩ 0 (exSetup 0) LocatorMemo.init ⟨0, 0, 0⟩ ⟨0, 0, 0⟩).1 = 0 :=
  ⟨by decide!, by decide!,
   (interior_is_interpolated exExtern ⟨1, 0, 1 / 2⟩ 0 (exSetup 0) LocatorMemo.init ⟨0, 0, 0⟩
      ⟨0, 0, 0⟩ (by decide!) (by decide!) (by decide!) (by decide!) (by decide!)
      (by decide!)).2.2.1⟩

/-! ## Monotonicity of the temperature correction -/

/-- The temperature loops of `setup_velo` scale the speeds of every row with
`e ≥ 1` by `temp_factor` at the parameters of the species. -/
theorem temp_correct_factor (X : Extern F) (p : temp_params F) (T : F)
    (t : List (velocity_lookup F)) :
    temp_correct_e X p T t
        = t.map (fun v => if v.e < 1 then v else
            { v with
              e100 := v.e100 * temp_factor X p.mue p.pwre p.be p.thetae T v.e
              e110 := v.e110 * temp_factor X p.mue p.pwre p.be p.thetae T v.e
              e111 := v.e111 * temp_factor X p.mue p.pwre p.be p.thetae T v.e })
    ∧ temp_correct_h X p T t
        = t.map (fun v => if v.e < 1 then v else
            { v with
              h100 := v.h100 * temp_factor X p.muh p.pwrh p.bh p.thetah T v.e
              h110 := v.h110 * temp_factor X p.muh p.pwrh p.bh p.thetah T v.e
              h111 := v.h111 * temp_factor X p.muh p.pwrh p.bh p.thetah T v.e }) :=
  ⟨rfl, rfl⟩

/-- The factor of the temperature loops is the claim-worded factor `f(e)`. -/
theorem temp_factor_eq_spec (X : Extern F) (mu pwr b theta T e : F) :
    temp_factor X mu pwr b theta T e = spec_f X mu pwr b theta T e :=
  velo_factor_eq_spec X mu pwr b theta T e

/-- The real hyperbolic tangent is monotone. -/
theorem real_tanh_mono (x y : ℝ) (h : x ≤ y) : Real.tanh x ≤ Real.tanh y := by
  rw [Real.tanh_eq_sinh_div_cosh, Real.tanh_eq_sinh_div_cosh,
    div_le_div_iff₀ (Real.cosh_pos x) (Real.cosh_pos y)]
  have hs : 0 ≤ Real.sinh (y - x) := Real.sinh_nonneg_iff.mpr (sub_nonneg.mpr h)
  rw [Real.sinh_sub] at hs
  linarith

/-- The saturation curve `v (e / (v / m)) / sqrt (1 + (e / (v / m))^2)` at a
positive field grows with the mobility `m` and with the saturation velocity
`v`. -/
theorem sat_curve_mono (e m1 v1 m2 v2 : ℝ) (he : 0 < e) (hm2 : 0 < m2) (hm : m2 ≤ m1)
    (hv2 : 0 < v2) (hv : v2 ≤ v1) :
    v2 * (e / (v2 / m2)) / Real.sqrt (1 + (e / (v2 / m2)) ^ 2)
      ≤ v1 * (e / (v1 / m1)) / Real.sqrt (1 + (e / (v1 / m1)) ^ 2) := by
  have key : ∀ m v : ℝ, 0 < m → 0 < v →
      v * (e / (v / m)) / Real.sqrt (1 + (e / (v / m)) ^ 2)
        = e * m * v / Real.sqrt (v ^ 2 + (e * m) ^ 2) := by
    intro m v hm0 hv0
    have h1 : e / (v / m) = e * m / v := by
      field_simp
    have h2 : 1 + (e * m / v) ^ 2 = (v ^ 2 + (e * m) ^ 2) / v ^ 2 := by
      field_simp
    have hs : 0 < Real.sqrt (v ^ 2 + (e * m) ^ 2) := Real.sqrt_pos.mpr (by positivity)
    rw [h1, h2, Real.sqrt_div (by positivity), Real.sqrt_sq (le_of_lt hv0)]
    field_simp
  have hm1 : 0 < m1 := lt_of_lt_of_le hm2 hm
  have hv1 : 0 < v1 := lt_of_lt_of_le hv2 hv
  rw [key m2 v2 hm2 hv2, key m1 v1 hm1 hv1]
  have hs1 : 0 < Real.sqrt (v1 ^ 2 + (e * m1) ^ 2) := Real.sqrt_pos.mpr (by positivity)
  have hs2 : 0 < Real.sqrt (v2 ^ 2 + (e * m2) ^ 2) := Real.sqrt_pos.mpr (by positivity)
  rw [div_le_div_iff₀ hs2 hs1]
  have hq1 : Real.sqrt (v1 ^ 2 + (e * m1) ^ 2) ^ 2 = v1 ^ 2 + (e * m1) ^ 2 :=
    Real.sq_sqrt (by positivity)
  have hq2 : Real.sqrt (v2 ^ 2 + (e * m2) ^ 2) ^ 2 = v2 ^ 2 + (e * m2) ^ 2 :=
    Real.sq_sqrt (by positivity)
  have hmm : m2 ^ 2 ≤ m1 ^ 2 := pow_le_pow_left₀ (le_of_lt hm2) hm 2
  have hvv : v2 ^ 2 ≤ v1 ^ 2 := pow_le_pow_left₀ (le_of_lt hv2) hv 2
  have hA : 0 ≤ e ^ 2 * v1 ^ 2 * v2 ^ 2 * (m1 ^ 2 - m2 ^ 2) :=
    mul_nonneg (by positivity) (sub_nonneg.mpr hmm)
  have hB : 0 ≤ e ^ 4 * m1 ^ 2 * m2 ^ 2 * (v1 ^ 2 - v2 ^ 2) :=
    mul_nonneg (by positivity) (sub_nonneg.mpr hvv)
  have hsq : (e * m2 * v2 * Real.sqrt (v1 ^ 2 + (e * m1) ^ 2)) ^ 2
      ≤ (e * m1 * v1 * Real.sqrt (v2 ^ 2 + (e * m2) ^ 2)) ^ 2 := by
    rw [mul_pow _ (Real.sqrt _), mul_pow _ (Real.sqrt _), hq1, hq2]
    have hd : (e * m1 * v1) ^ 2 * (v2 ^ 2 + (e * m2) ^ 2)
        - (e * m2 * v2) ^ 2 * (v1 ^ 2 + (e * m1) ^ 2)
        = e ^ 2 * v1 ^ 2 * v2 ^ 2 * (m1 ^ 2 - m2 ^ 2)
          + e ^ 4 * m1 ^ 2 * m2 ^ 2 * (v1 ^ 2 - v2 ^ 2) := by ring
    linarith
  exact le_of_pow_le_pow_left₀ two_ne_zero
    (mul_nonneg (by positivity) (le_of_lt hs2)) hsq

/-- Over the reals, for `mu > 0`, `b > 0`, `theta > 0` and `pwr ≤ 0` the
saturation curve at a positive field does not grow with the temperature. -/
theorem spec_curve_real_antitone (mu pwr b theta e T1 T2 : ℝ) (hmu : 0 < mu) (hb : 0 < b)
    (hth : 0 < theta) (hpwr : pwr ≤ 0) (he : 0 < e) (hT1 : 0 < T1) (h12 : T1 ≤ T2) :
    spec_curve realExtern mu pwr b theta T2 e ≤ spec_curve realExtern mu pwr b theta T1 e := by
  have hT2 : 0 < T2 := lt_of_lt_of_le hT1 h12
  have hm : mu * T2 ^ pwr ≤ mu * T1 ^ pwr :=
    mul_le_mul_of_nonneg_left (Real.rpow_le_rpow_of_exponent_nonpos hT1 h12 hpwr) (le_of_lt hmu)
  have hm2 : 0 < mu * T2 ^ pwr := mul_pos hmu (Real.rpow_pos_of_pos hT2 pwr)
  have harg : theta / (2 * T2) ≤ theta / (2 * T1) :=
    div_le_div_of_nonneg_left (le_of_lt hth) (by positivity) (by linarith)
  have hv : b * Real.sqrt (Real.tanh (theta / (2 * T2)))
      ≤ b * Real.sqrt (Real.tanh (theta / (2 * T1))) :=
    mul_le_mul_of_nonneg_left (Real.sqrt_le_sqrt (real_tanh_mono _ _ harg)) (le_of_lt hb)
  have htanh : 0 < Real.tanh (theta / (2 * T2)) := by
    rw [Real.tanh_eq_sinh_div_cosh]
    exact div_pos (Real.sinh_pos_iff.mpr (by positivity)) (Real.cosh_pos _)
  have hv2 : 0 < b * Real.sqrt (Real.tanh (theta / (2 * T2))) :=
    mul_pos hb (Real.sqrt_pos.mpr htanh)
  exact sat_curve_mono e _ _ _ _ he hm2 hm hv2 hv

/-- Over the reals, for `mu > 0`, `b > 0`, `theta > 0`, `T > 0` and `e > 0`
the saturation curve is positive. -/
theorem spec_curve_real_pos (mu pwr b theta T e : ℝ) (hmu : 0 < mu) (hb : 0 < b)
    (hth : 0 < theta) (hT : 0 < T) (he : 0 < e) :
    0 < spec_curve realExtern mu pwr b theta T e := by
  have htanh : 0 < Real.tanh (theta / (2 * T)) := by
    rw [Real.tanh_eq_sinh_div_cosh]
    exact div_pos (Real.sinh_pos_iff.mpr (by positivity)) (Real.cosh_pos _)
  have hv : 0 < b * Real.sqrt (Real.tanh (theta / (2 * T))) :=
    mul_pos hb (Real.sqrt_pos.mpr htanh)
  have hm : 0 < mu * T ^ pwr := mul_pos hmu (Real.rpow_pos_of_pos hT pwr)
  have hden : 0 < Real.sqrt (1 + (e / (b * Real.sqrt (Real.tanh (theta / (2 * T)))
      / (mu * T ^ pwr))) ^ 2) := Real.sqrt_pos.mpr (by positivity)
  exact div_pos (mul_pos hv (div_pos he (div_pos hv hm))) hden

/-- Claim C23. With the real `sqrt`, `tanh` and `pow`, for model parameters
with `mu > 0`, `b > 0`, `theta > 0` and `pwr ≤ 0` and a field `e ≥ 1`, the
factor `f(e)` of the temperature loops does not grow with the crystal
temperature over `[40, 120]`: `f` at `T2` is at most `f` at `T1` for
`40 ≤ T1 ≤ T2 ≤ 120`; so `f(e) ≥ 1` for `T ≤ 77` and `f(e) ≤ 1` for
`T ≥ 77`. -/
theorem temperature_factor_monotone (mu pwr b theta e T1 T2 : ℝ) (hmu : 0 < mu) (hb : 0 < b)
    (hth : 0 < theta) (hpwr : pwr ≤ 0) (he : 1 ≤ e)
    (h1 : 40 ≤ T1) (h12 : T1 ≤ T2) (h2 : T2 ≤ 120) :
    temp_factor realExtern mu pwr b theta T2 e ≤ temp_factor realExtern mu pwr b theta T1 e
    ∧ (T1 ≤ 77 → 1 ≤ temp_factor realExtern mu pwr b theta T1 e)
    ∧ (77 ≤ T2 → temp_factor realExtern mu pwr b theta T2 e ≤ 1) := by
  have he0 : 0 < e := lt_of_lt_of_le zero_lt_one he
  have hT1 : 0 < T1 := by linarith
  have href : 0 < spec_curve realExtern mu pwr b theta 77 e :=
    spec_curve_real_pos mu pwr b theta 77 e hmu hb hth (by norm_num) he0
  rw [temp_factor_eq_spec, temp_factor_eq_spec]
  unfold spec_f
  refine ⟨?_, ?_, ?_⟩
  · exact div_le_div_of_nonneg_right
      (spec_curve_real_antitone mu pwr b theta e T1 T2 hmu hb hth hpwr he0 hT1 h12) (le_of_lt href)
  · intro h77
    rw [le_div_iff₀ href, one_mul]
    exact spec_curve_real_antitone mu pwr b theta e T1 77 hmu hb hth hpwr he0 hT1 h77
  · intro h77
    rw [div_le_iff₀ href, one_mul]
    exact spec_curve_real_antitone mu pwr b theta e 77 T2 hmu hb hth hpwr he0 (by norm_num) h77

/-- Witness for claim C23: the built-in electron parameters at the field 10,
for the temperatures 77 K and 100 K. -/
theorem temperature_factor_monotone_witness :
    (0 < (temp_params.default : temp_params ℝ).mue
      ∧ 0 < (temp_params.default : temp_params ℝ).be
      ∧ 0 < (temp_params.default : temp_params ℝ).thetae
      ∧ (temp_params.default : temp_params ℝ).pwre ≤ 0
      ∧ (1 : ℝ) ≤ 10 ∧ (40 : ℝ) ≤ 77 ∧ (77 : ℝ) ≤ 100 ∧ (100 : ℝ) ≤ 120)
    ∧ temp_factor realExtern (temp_params.default : temp_params ℝ).mue
          (temp_params.default : temp_params ℝ).pwre (temp_params.default : temp_params ℝ).be
          (temp_params.default : temp_params ℝ).thetae 100 10
        ≤ temp_factor realExtern (temp_params.default : temp_params ℝ).mue
          (temp_params.default : temp_params ℝ).pwre (temp_params.default : temp_params ℝ).be
          (temp_params.default : temp_params ℝ).thetae 77 10 := by
  have hp : 0 < (temp_params.default : temp_params ℝ).mue
      ∧ 0 < (temp_params.default : temp_params ℝ).be
      ∧ 0 < (temp_params.default : temp_params ℝ).thetae
      ∧ (temp_params.default : temp_params ℝ).pwre ≤ 0 := by
    simp only [temp_params.default]
    norm_num
  have hn : (1 : ℝ) ≤ 10 ∧ (40 : ℝ) ≤ 77 ∧ (77 : ℝ) ≤ 100 ∧ (100 : ℝ) ≤ 120 := by norm_num
  exact ⟨⟨hp.1, hp.2.1, hp.2.2.1, hp.2.2.2, hn⟩,
    (temperature_factor_monotone _ _ _ _ 10 77 100 hp.1 hp.2.1 hp.2.2.1 hp.2.2.2
      hn.1 hn.2.1 hn.2.2.1 hn.2.2.2).1⟩

/-! ## The analytic hole model along a cubic axis -/

/-- On a memo miss for a point inside the crystal for which `efield_exists`
holds, the locator returns the code 0 and the truncated grid index of the
point. -/
theorem locator_interior_of_exists (X : Extern F) (pt : cyl_pt F) (ipt : cyl_int_pt)
    (setup : MJD_Siggen_Setup F) (m : LocatorMemo F)
    (hmiss : ¬ (m.last_ret ≠ -99 ∧ pt.r = m.last_pt.r ∧ pt.z = m.last_pt.z))
    (hin : X.outside_detector_cyl pt setup = false)
    (hex : efield_exists X ⟨pt.r, 0, pt.z⟩ setup = true) :
    (nearest_field_grid_index X pt ipt setup m).1 = 0
    ∧ (nearest_field_grid_index X pt ipt setup m).2.1
      = ⟨float_to_int ((pt.r - setup.rmin) / setup.rstep), 0,
         float_to_int ((pt.z - setup.zmin) / setup.zstep)⟩ := by
  have hex0 : efield_exists X (shifted_pt pt setup (0, 0)) setup = true := by
    rw [shifted_pt_zero]
    exact hex
  have hfind : shift_order.find? (fun c => efield_exists X (shifted_pt pt setup c) setup)
      = some (0, 0) := by
    simp only [shift_order, List.find?, hex0]
  unfold nearest_field_grid_index
  rw [if_neg hmiss]
  simp only [hin, Bool.false_eq_true, if_false, hfind]
  rw [shifted_pt_zero]
  simp

/-- Claim C31. For a math library with `sin 0 = 0`, `cos 0 = 1`, `acos 1 = 0`
and `pow(0, n) = 0` for `n = 2, 3, 4` (as the real functions and the C
library have it): at `theta = 0` and any `phi`, `find_hole_velo` writes the
local vector `(v100, 0, 0)` whatever the `k0` parameters are, with the return
code 1 when `v100 ≠ 0`; the rotation of `drift_velocity` turns it into
`(0, 0, v100)` for a field direction with `z` component 1; so `drift_velocity`
for a unit hole with `velocity_type = 1` at a located point with such a field
returns 0 and writes `(0, 0, v100)`; and `v100` is
`mu0 * E / pow(1 + pow(E / E0, beta), 1 / beta) * 10 * 1e-9` with the `<100>`
parameters. -/
theorem hole_model_along_axis (X : Extern F) (pt : point F) (velo : vector F)
    (setup : MJD_Siggen_Setup F) (m : LocatorMemo F) (ipt0 : cyl_int_pt)
    (hsin : X.sin 0 = 0) (hcos : X.cos 0 = 1) (hacos : X.acos 1 = 0)
    (hpow2 : X.pow 0 2 = 0) (hpow3 : X.pow 0 3 = 0) (hpow4 : X.pow 0 4 = 0) :
    (∀ field phi : F,
      (find_hole_velo X field 0 phi setup).2
          = ⟨drift_velo_model X field setup.v_params.h_100_mu0 setup.v_params.h_100_beta
              setup.v_params.h_100_e0, 0, 0⟩
      ∧ (drift_velo_model X field setup.v_params.h_100_mu0 setup.v_params.h_100_beta
              setup.v_params.h_100_e0 ≠ 0 →
          (find_hole_velo X field 0 phi setup).1 = 1))
    ∧ (∀ (abse : F) (cart_en : point F), cart_en.z = 1 →
      drift_velocity_analytic X abse cart_en setup
        = ⟨0, 0, drift_velo_model X abse setup.v_params.h_100_mu0 setup.v_params.h_100_beta
              setup.v_params.h_100_e0⟩)
    ∧ (0 ≤ (nearest_field_grid_index X (drift_cyl X pt) ipt0 setup m).1 →
      setup.velocity_type = 1 →
      (drift_field X pt (nearest_field_grid_index X (drift_cyl X pt) ipt0 setup m).2.1 setup).2.z
          = 1 →
      (drift_velocity X pt 1 velo setup m ipt0).1 = 0
      ∧ (drift_velocity X pt 1 velo setup m ipt0).2.1
        = ⟨0, 0, drift_velo_model X
            (drift_field X pt (nearest_field_grid_index X (drift_cyl X pt) ipt0 setup m).2.1
              setup).1
            setup.v_params.h_100_mu0 setup.v_params.h_100_beta setup.v_params.h_100_e0⟩)
    ∧ (∀ E mu_0 beta E_0 : F,
      drift_velo_model X E mu_0 beta E_0
        = mu_0 * E / X.pow (1 + X.pow (E / E_0) beta) (1 / beta) * 10 * 1e-9) := by
  have h1 : ∀ field phi : F,
      (find_hole_velo X field 0 phi setup).2
          = ⟨drift_velo_model X field setup.v_params.h_100_mu0 setup.v_params.h_100_beta
              setup.v_params.h_100_e0, 0, 0⟩
      ∧ (drift_velo_model X field setup.v_params.h_100_mu0 setup.v_params.h_100_beta
              setup.v_params.h_100_e0 ≠ 0 →
          (find_hole_velo X field 0 phi setup).1 = 1) := by
    intro field phi
    unfold find_hole_velo
    by_cases hv : drift_velo_model X field setup.v_params.h_100_mu0 setup.v_params.h_100_beta
        setup.v_params.h_100_e0 = 0
    · simp only [hv, if_true, ne_eq, not_true_eq_false, false_implies, and_true]
    · simp only [if_neg hv, mul_zero, hsin, hcos, hpow2, hpow3, hpow4, zero_mul, add_zero,
        sub_zero, mul_one, ne_eq, hv, not_false_eq_true, true_implies, and_true, if_false,
        and_self]
  have h2 : ∀ (abse : F) (cart_en : point F), cart_en.z = 1 →
      drift_velocity_analytic X abse cart_en setup
        = ⟨0, 0, drift_velo_model X abse setup.v_params.h_100_mu0 setup.v_params.h_100_beta
              setup.v_params.h_100_e0⟩ := by
    intro abse cart_en hz
    unfold drift_velocity_analytic
    simp only [hz, hacos, (h1 abse _).1, hsin, hcos, mul_zero, zero_mul, add_zero, sub_zero,
      one_mul]
  refine ⟨h1, h2, ?_, ?_⟩
  · intro hloc hvt hz
    unfold drift_velocity
    simp only [if_neg (not_lt.mpr hloc), hvt, and_self, if_true, true_and]
    exact h2 _ _ hz
  · intro E mu_0 beta E_0
    have h10 : (1.0 : F) = 1 := by norm_num
    unfold drift_velo_model
    simp only [h10]

/-- Truncation of 0 and of 1. -/
theorem float_to_int_zero_one : float_to_int (0 : F) = 0 ∧ float_to_int (1 : F) = 1 := by
  have h0 := float_to_int_intCast (F := F) 0
  have h1 := float_to_int_intCast (F := F) 1
  rw [Int.cast_zero] at h0
  rw [Int.cast_one] at h1
  exact ⟨h0, h1⟩

/-- The real math library has `sin 0 = 0`, `cos 0 = 1`, `acos 1 = 0` and
`pow(0, n) = 0` for `n = 2, 3, 4`. -/
theorem realExtern_axis :
    realExtern.sin 0 = 0 ∧ realExtern.cos 0 = 1 ∧ realExtern.acos 1 = 0
    ∧ realExtern.pow 0 2 = 0 ∧ realExtern.pow 0 3 = 0 ∧ realExtern.pow 0 4 = 0 :=
  ⟨Real.sin_zero, Real.cos_zero, Real.arccos_one,
   Real.zero_rpow (by norm_num), Real.zero_rpow (by norm_num), Real.zero_rpow (by norm_num)⟩

/-- In the sample detector over the reals the point `(0, 0, 1)` is located
with the code 0 and the index `(0, 1)`. -/
theorem sample_axis_locator :
    (nearest_field_grid_index realExtern (drift_cyl realExtern ⟨0, 0, 1⟩) ⟨0, 0, 0⟩
        sample_setup_axis LocatorMemo.init).1 = 0
    ∧ (nearest_field_grid_index realExtern (drift_cyl realExtern ⟨0, 0, 1⟩) ⟨0, 0, 0⟩
        sample_setup_axis LocatorMemo.init).2.1 = ⟨0, 0, 1⟩ := by
  have hsq : Real.sqrt (0 * 0 + 0 * 0) = 0 := by simp
  have hcyl : drift_cyl realExtern ⟨0, 0, 1⟩ = ⟨0, 0, 1⟩ := by
    show (⟨Real.sqrt (0 * 0 + 0 * 0), 0, 1⟩ : cyl_pt ℝ) = ⟨0, 0, 1⟩
    rw [hsq]
  rw [hcyl]
  have hex : efield_exists realExtern ⟨0, 0, 1⟩ sample_setup_axis = true := by
    simp [efield_exists, realExtern, sample_setup_axis, get_efld_r_by_index,
      get_efld_z_by_index, float_to_int_zero_one.1, float_to_int_zero_one.2]
  have h := locator_interior_of_exists realExtern ⟨0, 0, 1⟩ ⟨0, 0, 0⟩ sample_setup_axis
    LocatorMemo.init (by simp [LocatorMemo.init]) rfl hex
  refine ⟨h.1, ?_⟩
  rw [h.2]
  simp [sample_setup_axis, float_to_int_zero_one.1, float_to_int_zero_one.2]

/-- In the sample detector over the reals the field at the point `(0, 0, 1)`
has the magnitude 2 and the direction `(0, 0, 1)`. -/
theorem sample_axis_field :
    drift_field realExtern ⟨0, 0, 1⟩ ⟨0, 0, 1⟩ sample_setup_axis = (2, ⟨0, 0, 1⟩) := by
  have h4 : Real.sqrt (2 * 2) = 2 := Real.sqrt_mul_self (by norm_num)
  have h10 : (1.0 : ℝ) = 1 := by norm_num
  simp [drift_field, drift_cyl, drift_cart_en, efield, get_efld_grad, imp_weights, grid_weights,
    get_efld_r_by_index, get_efld_z_by_index, sample_setup_axis, realExtern, List.foldl,
    float_to_int_zero_one.1, float_to_int_zero_one.2, h4, h10]

/-- In the sample detector the `<100>` hole speed at the field 2 is `1e-8`. -/
theorem sample_axis_speed :
    drift_velo_model realExtern 2 (sample_setup_axis : MJD_Siggen_Setup ℝ).v_params.h_100_mu0
      (sample_setup_axis : MJD_Siggen_Setup ℝ).v_params.h_100_beta
      (sample_setup_axis : MJD_Siggen_Setup ℝ).v_params.h_100_e0 = 1 / 100000000 := by
  have h10 : (1.0 : ℝ) = 1 := by norm_num
  simp only [drift_velo_model, sample_setup_axis, realExtern, h10]
  norm_num

/-- Witness for claim C31: the real math library and the sample detector with
a uniform axial field; a unit hole at the point `(0, 0, 1)` gets the velocity
`(0, 0, 1e-8)`, with `k0` parameters `1, 2, 3, 4`. -/
theorem hole_model_along_axis_witness :
    (realExtern.sin 0 = 0 ∧ realExtern.cos 0 = 1 ∧ realExtern.acos 1 = 0
      ∧ realExtern.pow 0 2 = 0 ∧ realExtern.pow 0 3 = 0 ∧ realExtern.pow 0 4 = 0)
    ∧ (0 ≤ (nearest_field_grid_index realExtern (drift_cyl realExtern ⟨0, 0, 1⟩) ⟨0, 0, 0⟩
              sample_setup_axis LocatorMemo.init).1
      ∧ (sample_setup_axis : MJD_Siggen_Setup ℝ).velocity_type = 1
      ∧ (drift_field realExtern ⟨0, 0, 1⟩
          (nearest_field_grid_index realExtern (drift_cyl realExtern ⟨0, 0, 1⟩) ⟨0, 0, 0⟩
            sample_setup_axis LocatorMemo.init).2.1 sample_setup_axis).2.z = 1)
    ∧ (drift_velocity realExtern ⟨0, 0, 1⟩ 1 ⟨9, 9, 9⟩ sample_setup_axis LocatorMemo.init
        ⟨0, 0, 0⟩).1 = 0
    ∧ (drift_velocity realExtern ⟨0, 0, 1⟩ 1 ⟨9, 9, 9⟩ sample_setup_axis LocatorMemo.init
        ⟨0, 0, 0⟩).2.1 = ⟨0, 0, 1 / 100000000⟩ := by
  obtain ⟨f1, f2, f3, f4, f5, f6⟩ := realExtern_axis
  have hloc : 0 ≤ (nearest_field_grid_index realExtern (drift_cyl realExtern ⟨0, 0, 1⟩)
      ⟨0, 0, 0⟩ sample_setup_axis LocatorMemo.init).1 := by
    rw [sample_axis_locator.1]
  have hfield : drift_field realExtern ⟨0, 0, 1⟩
      (nearest_field_grid_index realExtern (drift_cyl realExtern ⟨0, 0, 1⟩) ⟨0, 0, 0⟩
        sample_setup_axis LocatorMemo.init).2.1 sample_setup_axis = (2, ⟨0, 0, 1⟩) := by
    rw [sample_axis_locator.2]
    exact sample_axis_field
  have hz : (drift_field realExtern ⟨0, 0, 1⟩
      (nearest_field_grid_index realExtern (drift_cyl realExtern ⟨0, 0, 1⟩) ⟨0, 0, 0⟩
        sample_setup_axis LocatorMemo.init).2.1 sample_setup_axis).2.z = 1 := by
    rw [hfield]
  have hres := (hole_model_along_axis realExtern ⟨0, 0, 1⟩ ⟨9, 9, 9⟩ sample_setup_axis
    LocatorMemo.init ⟨0, 0, 0⟩ f1 f2 f3 f4 f5 f6).2.2.1 hloc rfl hz
  rw [hfield] at hres
  refine ⟨⟨f1, f2, f3, f4, f5, f6⟩, ⟨hloc, rfl, hz⟩, hres.1, ?_⟩
  rw [hres.2]
  show (⟨0, 0, drift_velo_model realExtern 2
      (sample_setup_axis : MJD_Siggen_Setup ℝ).v_params.h_100_mu0
      (sample_setup_axis : MJD_Siggen_Setup ℝ).v_params.h_100_beta
      (sample_setup_axis : MJD_Siggen_Setup ℝ).v_params.h_100_e0⟩ : vector ℝ) = _
  rw [sample_axis_speed]

end Proofs

end Siggen
